import Mathlib

/-!
# mcubed-admin: withdrawal lifecycle, status normalisation and statistics

A shallow embedding of

* `src/app/lib/supabase.js` (`handleSupabaseError`),
* `src/app/lib/services/withdrawalService.js` (`getWithdrawalRequests`,
  `getWithdrawalRequestsByStatus`, `updateWithdrawalStatus`, `getWithdrawalStats`),
* `src/app/lib/services/userService.js` and `src/app/lib/services/transactionService.js`
  (every exported function),
* `src/app/lib/utils.js` (`formatCurrency`),
* `src/app/(dashboard)/withdrawals/page.js` (`normalizeStatus`, `fetchWithdrawals`,
  `fetchStats`, `handleAction`, `handleMarkAsProcessed` and the actions cell of a table row),
* `src/app/(dashboard)/users/page.js` (`fetchUsers`),
* `src/app/(dashboard)/dashboard/page.js` (`formatStatus`, `fetchDashboardData`,
  `fetchRecentWithdrawals`),

followed by the properties proved about them.

Modelling conventions.

* JavaScript values are the JSON scalars plus `undefined` (`JSVal`); arrays and objects occur only
  where the code reads them (rows, the update payload, error objects).
* A JavaScript number is `NaN`, an infinity or an exact rational (`JSNum`): the rounding of IEEE
  doubles and the sign of zero are abstracted.
* Strings are sequences of Unicode code points and `toLowerCase` / `toUpperCase` map the ASCII
  letters only; every other character is left unchanged.
* An `async` function returns an `Outcome`: the object `{ data }`, the object `{ error }`, or a
  rejected promise. The `return` statements of the service functions are embedded a second time
  as object literals with explicit keys (`ResultObj`, `Returned`); the two embeddings are proved
  to agree.
* The object `userMap` of the client-side join is a plain object: a read finds its own
  properties and then what it inherits, the members of `Object.prototype` included, and an
  assignment to the key `__proto__` replaces its prototype.
* The data store is an external collaborator: a function from the request to its reply, and the
  service functions return the list of requests they issued next to their outcome.
* `RawRow` is a row as JavaScript sees it, any scalar in every field; `WithdrawalRow` is a row as
  the data model types it (status text or null), and the aggregator is run on its `raw` image.
* A handler of the page is a function from the state of the component to the new state and the
  list of its effects (notifications, service calls, re-fetches), in order.
-/

namespace McubedAdmin

/-! ## JavaScript values -/

/-- Numbers: `NaN`, the two infinities, and finite values as exact rationals. -/
inductive JSNum where
  | nan
  | posInf
  | negInf
  | fin (q : ℚ)
  deriving DecidableEq

/-- The values a field of a row or of an argument object can hold. -/
inductive JSVal where
  | undefined
  | null
  | bool (b : Bool)
  | num (n : JSNum)
  | str (s : String)
  deriving DecidableEq

/-- Truthiness of a number: everything but `NaN` and zero. -/
def JSNum.truthy : JSNum → Bool
  | .nan => false
  | .fin q => decide (q ≠ 0)
  | _ => true

/-- JavaScript truthiness (`if (v)`, `!v`, `v || w`). -/
def JSVal.truthy : JSVal → Bool
  | .undefined => false
  | .null => false
  | .bool b => b
  | .num n => n.truthy
  | .str s => decide (s ≠ "")

/-- The expression `v || w`. -/
def JSVal.or (v w : JSVal) : JSVal := if v.truthy then v else w

/-- Plain objects as association lists from keys to values, in insertion order. -/
abbrev JSObj := List (String × JSVal)

/-- Assignment `obj[k] = v`: overwrite the key when present, append it otherwise. -/
def JSObj.set : JSObj → String → JSVal → JSObj
  | [], k, v => [(k, v)]
  | (k', v') :: rest, k, v =>
    if k' = k then (k, v) :: rest else (k', v') :: JSObj.set rest k v

/-- Own-property lookup: `none` when the key is not in the object. -/
def JSObj.get? : JSObj → String → Option JSVal
  | [], _ => none
  | (k', v') :: rest, k => if k' = k then some v' else JSObj.get? rest k

/-- Whether the object has the key (`k in obj`). -/
def JSObj.hasKey (o : JSObj) (k : String) : Bool := (o.get? k).isSome

/-! ## Errors, outcomes and the store -/

/-- An error object; the code only ever reads its `message`. -/
structure ErrObj where
  message : JSVal
  deriving DecidableEq

/-- A thrown value: `none` is a thrown `undefined` / `null`, on which a property read throws. -/
abbrev Thrown := Option ErrObj

/-- Equality of completions (`Except`) is decidable. -/
instance instDecidableEqExcept {ε α : Type} [DecidableEq ε] [DecidableEq α] :
    DecidableEq (Except ε α)
  | .ok a, .ok b => if h : a = b then isTrue (by rw [h]) else isFalse (by
      intro h2; cases h2; exact h rfl)
  | .error a, .error b => if h : a = b then isTrue (by rw [h]) else isFalse (by
      intro h2; cases h2; exact h rfl)
  | .ok _, .error _ => isFalse (by intro h; cases h)
  | .error _, .ok _ => isFalse (by intro h; cases h)

/-- The `TypeError` raised by the engine; its text is engine specific and nothing reads it. -/
def typeError : ErrObj := ⟨.str "TypeError"⟩

/-- What an `async` service function gives its caller. -/
inductive Outcome (α : Type) where
  | data (d : α)
  | error (e : JSVal)
  | rejected (e : Thrown)
  deriving DecidableEq

/-- The awaited reply of the store client: the object `{ data, error }`, or a throw. -/
inductive StoreReply (ρ : Type) where
  | resolved (data : Option (List ρ)) (error : Option ErrObj)
  | thrown (e : Thrown)

/-- Source `handleSupabaseError` (supabase.js 28-31):
`{ error: error.message || 'An error occurred with the database operation' }`. -/
def handleSupabaseError {α : Type} : Thrown → Outcome α
  | none => .rejected (some typeError)
  | some e => .error (e.message.or (.str "An error occurred with the database operation"))

/-! ## The lifecycle controller: `updateWithdrawalStatus` -/

/-- The second argument of `updateWithdrawalStatus` once destructured; a missing property is
`undefined`. -/
structure Options where
  status : JSVal
  processed_by : JSVal
  transaction_reference : JSVal
  notes : JSVal
  deriving DecidableEq

/-- The two readings of `new Date().toISOString()` the function can take. -/
structure Clock where
  first : String
  second : String

/-- The request `from('withdrawal_requests').update(payload).eq('id', id).select()`. -/
structure UpdateCall where
  table : String
  payload : JSObj
  eqColumn : String
  eqValue : JSVal
  deriving DecidableEq

/-- Source lines 135-152 of withdrawalService.js: the object `updateData`. -/
def updateData (clock : Clock) (o : Options) : JSObj :=
  let base : JSObj := [("status", o.status), ("updated_at", .str clock.first)]
  if o.status = .str "Completed" ∨ o.status = .str "Rejected" then
    let d1 := (base.set "processed_at" (.str clock.second)).set "processed_by" o.processed_by
    let d2 := if o.transaction_reference.truthy then
      d1.set "transaction_reference" o.transaction_reference else d1
    if o.notes.truthy then d2.set "notes" o.notes else d2
  else base

/-- Source `updateWithdrawalStatus` (withdrawalService.js 129-170). The second argument is
`none` for `undefined` / `null`, whose destructuring in the parameter list throws before the
`try` block is entered. The result pairs the outcome with the requests sent to the store. -/
def updateWithdrawalStatus (clock : Clock) (store : UpdateCall → StoreReply JSObj)
    (id : JSVal) (options : Option Options) : Outcome (Option JSObj) × List UpdateCall :=
  match options with
  | none => (.rejected (some typeError), [])
  | some o =>
    if !id.truthy then (.error (.str "Withdrawal ID is required"), [])
    else
      let call : UpdateCall := ⟨"withdrawal_requests", updateData clock o, "id", id⟩
      match store call with
      | .thrown e => (handleSupabaseError e, [call])
      | .resolved data error =>
        match error with
        | some e => (handleSupabaseError (some e), [call])
        | none =>
          match data with
          | some (row :: _) => (.data (some row), [call])
          | _ => (.data none, [call])

/-! ## Strings and the status normaliser -/

/-- The method `String.prototype.toLowerCase`, on the ASCII letters. -/
def toLowerCase (s : String) : String := String.mk (s.data.map Char.toLower)

/-- The method `String.prototype.toUpperCase`, on the ASCII letters. -/
def toUpperCase (s : String) : String := String.mk (s.data.map Char.toUpper)

/-- The method `charAt(0)`: the first character as a string, or the empty string. -/
def charAt0 (s : String) : String := String.mk (s.data.take 1)

/-- The method `slice(1)`: everything after the first character. -/
def slice1 (s : String) : String := String.mk (s.data.drop 1)

/-- A method call `v.toLowerCase()` on an arbitrary value: only strings have the method;
on `undefined` / `null` the property read throws, on other values the call does. -/
def JSVal.callToLowerCase : JSVal → Except ErrObj String
  | .str s => .ok (toLowerCase s)
  | _ => .error typeError

/-- Source `normalizeStatus` (withdrawals/page.js 23-38). -/
def normalizeStatus (status : JSVal) : Except ErrObj String :=
  if !status.truthy then .ok "Unknown"
  else
    match status with
    | .str s =>
      let statusLower := toLowerCase s
      if statusLower = "pending" then .ok "Pending"
      else if statusLower = "processing" then .ok "Processing"
      else if statusLower = "completed" then .ok "Completed"
      else if statusLower = "rejected" then .ok "Rejected"
      else if statusLower = "processed" then .ok "Processed"
      else .ok (toUpperCase (charAt0 s) ++ toLowerCase (slice1 s))
    | _ => .error typeError

/-! ## Numbers: addition, `Number`, `parseFloat` -/

/-- The operator `+` on two numbers. -/
def JSNum.add : JSNum → JSNum → JSNum
  | .nan, _ => .nan
  | _, .nan => .nan
  | .posInf, .negInf => .nan
  | .negInf, .posInf => .nan
  | .posInf, _ => .posInf
  | _, .posInf => .posInf
  | .negInf, _ => .negInf
  | _, .negInf => .negInf
  | .fin a, .fin b => .fin (a + b)

/-- The global `isNaN` on a number. -/
def JSNum.isNaN : JSNum → Bool
  | .nan => true
  | _ => false

/-- A decimal literal as read from text: sign, digits as a natural number, power of ten. -/
structure Decimal where
  neg : Bool
  mant : Nat
  exp : Int
  deriving DecidableEq

/-- The outcome of reading a numeric literal. -/
inductive NumLit where
  | nan
  | inf (neg : Bool)
  | dec (d : Decimal)
  deriving DecidableEq

/-- The rational a decimal literal denotes. -/
def Decimal.toRat (d : Decimal) : ℚ :=
  (if d.neg then -1 else 1) * (d.mant : ℚ) * (10 : ℚ) ^ d.exp

/-- The number a literal denotes. -/
def NumLit.toNum : NumLit → JSNum
  | .nan => .nan
  | .inf false => .posInf
  | .inf true => .negInf
  | .dec d => .fin d.toRat

/-- The characters `0` to `9`. -/
def isDigit (c : Char) : Bool := decide (48 ≤ c.toNat ∧ c.toNat ≤ 57)

/-- Value of a run of decimal digits. -/
def digitsVal (ds : List Char) : Nat := ds.foldl (fun acc c => 10 * acc + (c.toNat - 48)) 0

/-- Whitespace and line terminators skipped by `parseFloat` and `Number`. -/
def isStrWhiteSpace (c : Char) : Bool :=
  let n := c.toNat
  decide (n = 9 ∨ n = 10 ∨ n = 11 ∨ n = 12 ∨ n = 13 ∨ n = 32 ∨ n = 160 ∨ n = 5760 ∨
    (8192 ≤ n ∧ n ≤ 8202) ∨ n = 8232 ∨ n = 8233 ∨ n = 8239 ∨ n = 8287 ∨ n = 12288 ∨ n = 65279)

/-- The optional `ExponentPart` after a mantissa `mant * 10^(-k)`; when the exponent is
incomplete the literal ends before the `e`. Returns the literal and the unread rest. -/
def scanExponent (neg : Bool) (mant k : Nat) (cs : List Char) : NumLit × List Char :=
  let plain : NumLit × List Char := (.dec ⟨neg, mant, -(k : Int)⟩, cs)
  match cs with
  | e :: r =>
    if e = 'e' ∨ e = 'E' then
      let signed : Bool × List Char :=
        match r with
        | '+' :: t => (false, t)
        | '-' :: t => (true, t)
        | _ => (false, r)
      let ed := signed.2.takeWhile isDigit
      if ed.isEmpty then plain
      else
        let ev : Int := if signed.1 then -(digitsVal ed : Int) else (digitsVal ed : Int)
        (.dec ⟨neg, mant, ev - (k : Int)⟩, signed.2.dropWhile isDigit)
    else plain
  | [] => plain

/-- The longest leading `StrUnsignedDecimalLiteral` of the text, with the unread rest. -/
def scanUnsigned (neg : Bool) (cs : List Char) : NumLit × List Char :=
  if "Infinity".data.isPrefixOf cs then (.inf neg, cs.drop 8)
  else
    let ip := cs.takeWhile isDigit
    let r1 := cs.dropWhile isDigit
    match r1 with
    | '.' :: r2 =>
      let fp := r2.takeWhile isDigit
      if ip.isEmpty ∧ fp.isEmpty then (.nan, cs)
      else scanExponent neg (digitsVal (ip ++ fp)) fp.length (r2.dropWhile isDigit)
    | _ => if ip.isEmpty then (.nan, cs) else scanExponent neg (digitsVal ip) 0 r1

/-- The longest leading `StrDecimalLiteral` (optional sign first), with the unread rest. -/
def scanDecimal (cs : List Char) : NumLit × List Char :=
  match cs with
  | '+' :: t => scanUnsigned false t
  | '-' :: t => scanUnsigned true t
  | _ => scanUnsigned false cs

/-- The literal `parseFloat` reads: leading white space skipped, then the longest prefix that is
a decimal literal; `nan` when there is none. -/
def parseFloatLit (s : String) : NumLit := (scanDecimal (s.data.dropWhile isStrWhiteSpace)).1

/-- The global `parseFloat` on a string. -/
def parseFloat (s : String) : JSNum := (parseFloatLit s).toNum

/-- Value of a run of digits in the given radix (`0x`, `0o`, `0b` literals), `none` when a
character is not a digit of that radix or the run is empty. -/
def radixVal (radix : Nat) (cs : List Char) : Option Nat :=
  let digit (c : Char) : Option Nat :=
    let n := c.toNat
    let v := if 48 ≤ n ∧ n ≤ 57 then n - 48 else if 97 ≤ n ∧ n ≤ 102 then n - 87
      else if 65 ≤ n ∧ n ≤ 70 then n - 55 else radix
    if v < radix then some v else none
  if cs.isEmpty then none
  else cs.foldl (fun acc c => acc.bind (fun a => (digit c).map (fun v => radix * a + v))) (some 0)

/-- The literal `Number` reads from a string (`StringToNumber`): white space trimmed on both
sides, empty text is zero, and the whole rest must be one numeric literal. -/
def stringToNumberLit (s : String) : NumLit :=
  let t := ((s.data.dropWhile isStrWhiteSpace).reverse.dropWhile isStrWhiteSpace).reverse
  match t with
  | [] => .dec ⟨false, 0, 0⟩
  | '0' :: x :: rest =>
    let radix : Nat := if x = 'x' ∨ x = 'X' then 16 else if x = 'o' ∨ x = 'O' then 8
      else if x = 'b' ∨ x = 'B' then 2 else 0
    if radix = 0 then
      match scanDecimal t with
      | (lit, []) => lit
      | _ => .nan
    else
      match radixVal radix rest with
      | some v => .dec ⟨false, v, 0⟩
      | none => .nan
  | _ =>
    match scanDecimal t with
    | (lit, []) => lit
    | _ => .nan

/-- The conversion `Number(v)`. -/
def toNumber : JSVal → JSNum
  | .undefined => .nan
  | .null => .fin 0
  | .bool b => .fin (if b then 1 else 0)
  | .num n => n
  | .str s => (stringToNumberLit s).toNum

/-! ## The statistics aggregator: `getWithdrawalStats` -/

/-- A row as the store returns it for `select('id, amount, status')`. -/
structure RawRow where
  id : JSVal
  amount : JSVal
  status : JSVal
  deriving DecidableEq

/-- The result object `{ totalCount, pendingAmount, completedAmount }`. -/
structure Stats where
  totalCount : Nat
  pendingAmount : JSNum
  completedAmount : JSNum
  deriving DecidableEq

/-- The character class `[0-9.-]` of the regular expression. -/
def inAmountClass (c : Char) : Bool := isDigit c || decide (c = '.') || decide (c = '-')

/-- The call `replace(/[^0-9.-]+/g, '')`: every run of characters outside the class is
replaced by the empty string, which leaves exactly the characters of the class. -/
def stripAmount (s : String) : String := String.mk (s.data.filter inAmountClass)

/-- The expression `typeof item.amount === 'string' ? parseFloat(item.amount.replace(...)) :
Number(item.amount)` (lines 218-220 and 249-251). Neither branch throws on these values. -/
def parseAmount (amount : JSVal) : JSNum :=
  match amount with
  | .str s => parseFloat (stripAmount s)
  | v => toNumber v

/-- The callback of `reduce` (lines 214-231 and 245-262): parse, turn `NaN` into 0, add. -/
def addAmount (sum : JSNum) (item : RawRow) : JSNum :=
  let amount := parseAmount item.amount
  let amount := if amount.isNaN then JSNum.fin 0 else amount
  sum.add amount

/-- The guarded reduction `let x = 0; if (rows.length > 0) x = rows.reduce(cb, 0)`. -/
def sumAmounts (rows : List RawRow) : JSNum :=
  if rows.length > 0 then rows.foldl addAmount (.fin 0) else .fin 0

/-- The filter callback `(item.status || '').toLowerCase() === target`. -/
def statusIs (target : String) (item : RawRow) : Except ErrObj Bool :=
  match (item.status.or (.str "")).callToLowerCase with
  | .error e => .error e
  | .ok status => .ok (decide (status = target))

/-- The call `data.filter(callback)`, where the callback may throw. -/
def filterByStatus (target : String) : List RawRow → Except ErrObj (List RawRow)
  | [] => .ok []
  | item :: rest =>
    match statusIs target item with
    | .error e => .error e
    | .ok keep =>
      match filterByStatus target rest with
      | .error e => .error e
      | .ok kept => .ok (if keep then item :: kept else kept)

/-- Source `getWithdrawalStats` (withdrawalService.js 175-278), as a function of the reply of
its single `select`. The logging statements have no effect on the result. -/
def getWithdrawalStats (reply : StoreReply RawRow) : Outcome Stats :=
  match reply with
  | .thrown e => handleSupabaseError e
  | .resolved data error =>
    match error with
    | some e => handleSupabaseError (some e)
    | none =>
      let totalCount : Nat := match data with
        | some rows => rows.length
        | none => 0
      let processing : Except ErrObj (List RawRow) := match data with
        | some rows => filterByStatus "processing" rows
        | none => .ok []
      match processing with
      | .error e => handleSupabaseError (some e)
      | .ok processingData =>
        let pendingAmount := sumAmounts processingData
        let completed : Except ErrObj (List RawRow) := match data with
          | some rows => filterByStatus "completed" rows
          | none => .ok []
        match completed with
        | .error e => handleSupabaseError (some e)
        | .ok completedData =>
          .data ⟨totalCount, pendingAmount, sumAmounts completedData⟩

/-! ## Rows as the data model types them -/

/-- A withdrawal request as far as the aggregator reads it: the amount is any scalar (stored as
text or as a number), the status is text or null. -/
structure WithdrawalRow where
  id : JSVal
  amount : JSVal
  status : Option String
  deriving DecidableEq

/-- The row as the store delivers it. -/
def WithdrawalRow.raw (r : WithdrawalRow) : RawRow :=
  ⟨r.id, r.amount, match r.status with
    | some s => .str s
    | none => .null⟩

/-- What one row adds to its bucket: the parsed amount, with `NaN` counted as 0. -/
def contribution (r : RawRow) : JSNum :=
  if (parseAmount r.amount).isNaN then .fin 0 else parseAmount r.amount

/-- The sum of a list of numbers, added from the left starting at 0. -/
def sumNums (ns : List JSNum) : JSNum := ns.foldl JSNum.add (.fin 0)

/-- Whether the row's status normalises to the given canonical label. -/
def normalizesTo (label : String) (r : RawRow) : Bool :=
  match normalizeStatus r.status with
  | .ok l => decide (l = label)
  | .error _ => false

/-- The answer of a store that found the given rows. -/
def found (rows : List WithdrawalRow) : StoreReply RawRow :=
  .resolved (some (rows.map WithdrawalRow.raw)) none

/-- The amount rule in the words of the specification: a textual amount is stripped of every
character other than digits, minus sign and decimal point and parsed as a floating-point
literal, any other amount is converted to a number, and a result that is not a number counts
as 0. -/
def specAmount (amount : JSVal) : JSNum :=
  let parsed : JSNum :=
    match amount with
    | .str text =>
      parseFloat (String.mk (text.data.filter
        (fun c => isDigit c || decide (c = '-') || decide (c = '.'))))
    | other => toNumber other
  if parsed = .nan then .fin 0 else parsed

/-- The collection of the specification's aggregator example:
`[{amount:"$10.00",status:"Processing"},{amount:20,status:"Completed"},
{amount:"bad",status:"Completed"}]`. -/
def specExample : List WithdrawalRow :=
  [⟨.undefined, .str "$10.00", some "Processing"⟩,
   ⟨.undefined, .num (.fin 20), some "Completed"⟩,
   ⟨.undefined, .str "bad", some "Completed"⟩]

/-- The status vocabulary: each lower-case word with its canonical label. -/
def vocabulary : List (String × String) :=
  [("pending", "Pending"), ("processing", "Processing"), ("completed", "Completed"),
   ("rejected", "Rejected"), ("processed", "Processed")]

/-- The text with only its first character upper-cased and all remaining characters
lower-cased, in the words of the specification; the empty text stays empty. -/
def capitalized (s : String) : String :=
  match s.data with
  | [] => ""
  | c :: cs => String.mk (c.toUpper :: cs.map Char.toLower)

/-! ## The query functions of the three services

The store answers a `select` request with the object `{ data, error, count }` (or throws). The
conversion of a number to text, used when a value becomes a property key or part of a message,
is the engine's; the functions that need it take it as the argument `numberToString`. -/

/-- A request `from(table).select(columns, ...)` with its optional filters. -/
structure SelectCall where
  table : String
  columns : String
  countExact : Bool
  eq : Option (String × JSVal)
  isIn : Option (String × List JSVal)
  orderDesc : Option String
  limit : Option JSVal
  deriving DecidableEq

/-- The awaited reply to a `select`: the object `{ data, error, count }`, or a throw. -/
inductive SelectReply where
  | resolved (data : Option (List JSObj)) (error : Option ErrObj) (count : JSVal)
  | thrown (e : Thrown)

/-- A property read `obj.k`: `undefined` when the key is missing. -/
def JSObj.prop (o : JSObj) (k : String) : JSVal := (o.get? k).getD .undefined

/-- The conversion of a primitive to text (`String(v)`, a template literal, a property key). -/
def toText (numberToString : JSNum → String) : JSVal → String
  | .undefined => "undefined"
  | .null => "null"
  | .bool true => "true"
  | .bool false => "false"
  | .num n => numberToString n
  | .str s => s

/-- The elements of `[...new Set(values)]`: first occurrences, in order. -/
def uniqueVals : List JSVal → List JSVal
  | [] => []
  | v :: rest => v :: (uniqueVals rest).filter (fun w => decide (w ≠ v))

/-- The names of the members of `Object.prototype`, which every plain object inherits. -/
def objectPrototypeKeys : List String :=
  ["constructor", "__defineGetter__", "__defineSetter__", "hasOwnProperty",
   "__lookupGetter__", "__lookupSetter__", "isPrototypeOf", "propertyIsEnumerable",
   "toString", "valueOf", "__proto__", "toLocaleString"]

/-- A value read from the object `userMap`: a primitive, a profile, the member function of
`Object.prototype` of the given name, or the object `Object.prototype` itself. -/
inductive MapVal where
  | prim (v : JSVal)
  | profile (p : JSObj)
  | member (name : String)
  | objectPrototype
  deriving DecidableEq

/-- Truthiness: every object and function is truthy. -/
def MapVal.truthy : MapVal → Bool
  | .prim v => v.truthy
  | _ => true

/-- The expression `v || null`. -/
def MapVal.orNull (v : MapVal) : MapVal := if v.truthy then v else .prim .null

/-- Creating or overwriting an own property whose value is a profile. -/
def setOwn : List (String × JSObj) → String → JSObj → List (String × JSObj)
  | [], k, u => [(k, u)]
  | (k', u') :: rest, k, u =>
    if k' = k then (k, u) :: rest else (k', u') :: setOwn rest k u

/-- Reading an own property whose value is a profile. -/
def getOwn : List (String × JSObj) → String → Option JSObj
  | [], _ => none
  | (k', u') :: rest, k => if k' = k then some u' else getOwn rest k

/-- The object `userMap`, created as `{}`: its own properties and its prototype, which is
`Object.prototype` (`none`) until an assignment to the key `__proto__` replaces it by a
profile. -/
structure UserMap where
  own : List (String × JSObj)
  proto : Option JSObj
  deriving DecidableEq

/-- The assignment `map[key] = user`. An own property is overwritten. Otherwise the key is
searched along the prototype chain: `__proto__` reaches the accessor of `Object.prototype`,
whose setter makes `user` the prototype of the map, unless the profile that is the prototype
has an own property of that name; every other key meets a writable data property or nothing,
and the map gets a new own property. -/
def UserMap.set (m : UserMap) (k : String) (u : JSObj) : UserMap :=
  if (getOwn m.own k).isSome then ⟨setOwn m.own k u, m.proto⟩
  else if k = "__proto__" then
    match m.proto with
    | some p => if p.hasKey k then ⟨setOwn m.own k u, m.proto⟩ else ⟨m.own, some u⟩
    | none => ⟨m.own, some u⟩
  else ⟨setOwn m.own k u, m.proto⟩

/-- Reading a key that reached `Object.prototype`, for a map whose prototype is `proto`: the
getter of `__proto__` gives that prototype, the other member names give their function, every
other key `undefined`. -/
def objectPrototypeGet (proto : MapVal) (k : String) : MapVal :=
  if k = "__proto__" then proto
  else if k ∈ objectPrototypeKeys then .member k
  else .prim .undefined

/-- The read `map[key]`: an own property, else an own property of the profile that is the
prototype, else what `Object.prototype` gives. -/
def UserMap.get (m : UserMap) (k : String) : MapVal :=
  match getOwn m.own k with
  | some u => .profile u
  | none =>
    match m.proto with
    | some p => if p.hasKey k then .prim (p.prop k) else objectPrototypeGet (.profile p) k
    | none => objectPrototypeGet .objectPrototype k

/-- The reduction `userData.reduce((map, user) => { map[user.id] = user; return map }, {})`. -/
def buildUserMap (numberToString : JSNum → String) (userData : List JSObj) : UserMap :=
  userData.foldl (fun map user => map.set (toText numberToString (user.prop "id")) user)
    ⟨[], none⟩

/-- A withdrawal row with the `user` property of the client-side join: `none` while the
property was never assigned, else the value assigned (`some (.prim .null)` for `null`). -/
structure JoinedRow where
  row : JSObj
  user : Option MapVal
  deriving DecidableEq

/-- The follow-up request `from('profiles').select('id, full_name, email').in('id', userIds)`. -/
def profilesCall (userIds : List JSVal) : SelectCall :=
  ⟨"profiles", "id, full_name, email", false, none, some ("id", userIds), none, none⟩

/-- The ids `[...new Set(data.map(item => item.user_id).filter(Boolean))]`. -/
def collectUserIds (data : List JSObj) : List JSVal :=
  uniqueVals ((data.map (fun item => item.prop "user_id")).filter JSVal.truthy)

/-- The join block shared, line for line, by `getWithdrawalRequests` (31-55),
`getWithdrawalRequestsByStatus` (93-117) and `getRecentWithdrawals` (123-149), followed by
`data || []`. It throws what the follow-up request throws; the second component lists the
requests it sent. -/
def joinUsers (numberToString : JSNum → String) (store : SelectCall → SelectReply)
    (data : Option (List JSObj)) : Except Thrown (List JoinedRow) × List SelectCall :=
  match data with
  | none => (.ok [], [])
  | some rows =>
    let plain : List JoinedRow := rows.map (fun r => ⟨r, none⟩)
    if rows.length > 0 then
      let userIds := collectUserIds rows
      if userIds.length > 0 then
        match store (profilesCall userIds) with
        | .thrown e => (.error e, [profilesCall userIds])
        | .resolved userData userError _ =>
          match userError, userData with
          | none, some profiles =>
            let userMap := buildUserMap numberToString profiles
            (.ok (rows.map (fun r =>
              ⟨r, some (userMap.get (toText numberToString (r.prop "user_id"))).orNull⟩)),
              [profilesCall userIds])
          | _, _ => (.ok plain, [profilesCall userIds])
      else (.ok plain, [])
    else (.ok plain, [])

/-- The body common to the three listing functions: the first request, the error check, the
join, and the enclosing `try`/`catch`. -/
def listWithUsers (numberToString : JSNum → String) (store : SelectCall → SelectReply)
    (first : SelectCall) : Outcome (List JoinedRow) × List SelectCall :=
  match store first with
  | .thrown e => (handleSupabaseError e, [first])
  | .resolved data error _ =>
    match error with
    | some e => (handleSupabaseError (some e), [first])
    | none =>
      match joinUsers numberToString store data with
      | (.error e, calls) => (handleSupabaseError e, first :: calls)
      | (.ok rows, calls) => (.data rows, first :: calls)

/-- The column text of the two listing functions of the withdrawal service: the template
literal of lines 11-23 and 72-84 of withdrawalService.js, line breaks and indentation
included. -/
def withdrawalColumns : String :=
  "\n        id,\n        user_id,\n        method_id,\n        amount,\n        status," ++
    "\n        processed_at,\n        processed_by,\n        transaction_reference," ++
    "\n        notes,\n        created_at,\n        updated_at\n      "

/-- The column text of `getRecentWithdrawals`: the template literal of lines 105-111 of
transactionService.js, line breaks and indentation included. -/
def recentColumns : String :=
  "\n        id,\n        user_id,\n        amount,\n        status," ++
    "\n        created_at\n      "

/-- Source `getWithdrawalRequests` (withdrawalService.js 6-62). -/
def getWithdrawalRequests (numberToString : JSNum → String) (store : SelectCall → SelectReply) :
    Outcome (List JoinedRow) × List SelectCall :=
  listWithUsers numberToString store
    ⟨"withdrawal_requests", withdrawalColumns, false, none, none, some "created_at", none⟩

/-- Source `getWithdrawalRequestsByStatus` (withdrawalService.js 67-124). -/
def getWithdrawalRequestsByStatus (numberToString : JSNum → String)
    (store : SelectCall → SelectReply) (status : JSVal) :
    Outcome (List JoinedRow) × List SelectCall :=
  listWithUsers numberToString store
    ⟨"withdrawal_requests", withdrawalColumns, false, some ("status", status), none,
      some "created_at", none⟩

/-- Source `getRecentWithdrawals` (transactionService.js 99-156); an `undefined` argument takes
the default 5. -/
def getRecentWithdrawals (numberToString : JSNum → String) (store : SelectCall → SelectReply)
    (limit : JSVal) : Outcome (List JoinedRow) × List SelectCall :=
  let limit := if limit = .undefined then JSVal.num (.fin 5) else limit
  listWithUsers numberToString store
    ⟨"withdrawal_requests", recentColumns, false, none, none,
      some "created_at", some limit⟩

/-- The body common to `getAllUsers` and `getUsersByStatus`: one request, the error check and
`{ data: data || [] }`. -/
def listUsers (store : SelectCall → SelectReply) (call : SelectCall) :
    Outcome (List JSObj) × List SelectCall :=
  match store call with
  | .thrown e => (handleSupabaseError e, [call])
  | .resolved data error _ =>
    match error with
    | some e => (handleSupabaseError (some e), [call])
    | none => (.data (data.getD []), [call])

/-- Source `getAllUsers` (userService.js 6-23). -/
def getAllUsers (store : SelectCall → SelectReply) : Outcome (List JSObj) × List SelectCall :=
  listUsers store ⟨"users", "*", false, none, none, some "created_at", none⟩

/-- Source `getUsersByStatus` (userService.js 28-46). -/
def getUsersByStatus (store : SelectCall → SelectReply) (status : JSVal) :
    Outcome (List JSObj) × List SelectCall :=
  listUsers store ⟨"users", "*", false, some ("status", status), none, some "created_at", none⟩

/-- Source `updateUserStatus` (userService.js 51-76); `now` is the reading of
`new Date().toISOString()`. -/
def updateUserStatus (now : String) (store : UpdateCall → StoreReply JSObj)
    (id status : JSVal) : Outcome (Option JSObj) × List UpdateCall :=
  if !id.truthy then (.error (.str "User ID is required"), [])
  else
    let call : UpdateCall := ⟨"users", [("status", status), ("updated_at", .str now)], "id", id⟩
    match store call with
    | .thrown e => (handleSupabaseError e, [call])
    | .resolved data error =>
      match error with
      | some e => (handleSupabaseError (some e), [call])
      | none =>
        match data with
        | some (row :: _) => (.data (some row), [call])
        | _ => (.data none, [call])

/-- The body common to `getUsersCount` and `getProcessingWithdrawalsCount`: a counting
request and, when the reply carries no count, a second request whose rows are counted. The
data of the result is the value stored in the one property of the returned object. -/
def countRows (store : SelectCall → SelectReply) (counting full : SelectCall) :
    Outcome JSVal × List SelectCall :=
  match store counting with
  | .thrown e => (handleSupabaseError e, [counting])
  | .resolved _ error count =>
    match error with
    | some e => (handleSupabaseError (some e), [counting])
    | none =>
      if count = .undefined ∨ count = .null then
        match store full with
        | .thrown e => (handleSupabaseError e, [counting, full])
        | .resolved fullData fullError _ =>
          match fullError with
          | some e => (handleSupabaseError (some e), [counting, full])
          | none =>
            (.data (.num (.fin (match fullData with
              | some rows => (rows.length : ℚ)
              | none => 0))), [counting, full])
      else (.data count, [counting])

/-- Source `getUsersCount` (userService.js 81-119); the result's data is `{ totalUsers }`. -/
def getUsersCount (store : SelectCall → SelectReply) : Outcome JSVal × List SelectCall :=
  countRows store ⟨"users", "*", true, none, none, none, none⟩
    ⟨"users", "id", false, none, none, none, none⟩

/-- Source `getProcessingWithdrawalsCount` (transactionService.js 55-94); the result's data is
`{ processingCount }`. -/
def getProcessingWithdrawalsCount (store : SelectCall → SelectReply) :
    Outcome JSVal × List SelectCall :=
  countRows store
    ⟨"withdrawal_requests", "*", true, some ("status", .str "processing"), none, none, none⟩
    ⟨"withdrawal_requests", "id", false, some ("status", .str "processing"), none, none, none⟩

/-- The callback of `reduce` in `getTotalDeposits` (transactionService.js 23-41): an amount
that is not a number leaves the sum as it is. -/
def addDeposit (sum : JSNum) (transaction : JSObj) : JSNum :=
  let amount := parseAmount (transaction.prop "amount")
  if amount.isNaN then sum else sum.add amount

/-- Source `getTotalDeposits` (transactionService.js 6-50); the result's data is
`{ totalAmount }`, with `data?.reduce(...) || 0`. -/
def getTotalDeposits (store : SelectCall → SelectReply) : Outcome JSNum × List SelectCall :=
  let call : SelectCall :=
    ⟨"transaction_history", "amount", false, some ("transaction_type", .str "deposit"), none,
      none, none⟩
  match store call with
  | .thrown e => (handleSupabaseError e, [call])
  | .resolved data error _ =>
    match error with
    | some e => (handleSupabaseError (some e), [call])
    | none =>
      match data with
      | some rows =>
        let total := rows.foldl addDeposit (.fin 0)
        (.data (if total.truthy then total else .fin 0), [call])
      | none => (.data (.fin 0), [call])

/-! ## The objects the service functions return

The definitions above give what a call produces in a type whose values are data, an error or a
rejection. The definitions of this section embed the `return` statements of the same functions
as the object literals the source writes, with their keys explicit; the requests sent to the
store are left out here. -/

/-- An object returned by a service function, as far as the keys `data` and `error` go: a
field is `some` of the value under the key exactly when the object has that key. -/
structure ResultObj (α : Type) where
  data : Option α
  error : Option JSVal
  deriving DecidableEq

/-- What awaiting a call gives: the returned object, or the value a rejected promise carries. -/
abbrev Returned (α : Type) := Except Thrown (ResultObj α)

/-- Source `handleSupabaseError` (supabase.js 28-31): the literal
`{ error: error.message || 'An error occurred with the database operation' }`; reading
`message` of `undefined` / `null` throws. -/
def Returned.handleSupabaseError {α : Type} : Thrown → Returned α
  | none => .error (some typeError)
  | some e =>
    .ok ⟨none, some (e.message.or (.str "An error occurred with the database operation"))⟩

/-- Source `updateWithdrawalStatus` (withdrawalService.js 129-170): `{ error: 'Withdrawal ID
is required' }`, `handleSupabaseError(error)` and
`{ data: data && data.length > 0 ? data[0] : null }`. -/
def Returned.updateWithdrawalStatus (clock : Clock) (store : UpdateCall → StoreReply JSObj)
    (id : JSVal) (options : Option Options) : Returned (Option JSObj) :=
  match options with
  | none => .error (some typeError)
  | some o =>
    if !id.truthy then .ok ⟨none, some (.str "Withdrawal ID is required")⟩
    else
      match store ⟨"withdrawal_requests", updateData clock o, "id", id⟩ with
      | .thrown e => Returned.handleSupabaseError e
      | .resolved data error =>
        match error with
        | some e => Returned.handleSupabaseError (some e)
        | none =>
          match data with
          | some (row :: _) => .ok ⟨some (some row), none⟩
          | _ => .ok ⟨some none, none⟩

/-- Source `getWithdrawalStats` (withdrawalService.js 175-278): `handleSupabaseError(error)`
and `{ data: { totalCount, pendingAmount, completedAmount } }`. -/
def Returned.getWithdrawalStats (reply : StoreReply RawRow) : Returned Stats :=
  match reply with
  | .thrown e => Returned.handleSupabaseError e
  | .resolved data error =>
    match error with
    | some e => Returned.handleSupabaseError (some e)
    | none =>
      let totalCount : Nat := match data with
        | some rows => rows.length
        | none => 0
      let processing : Except ErrObj (List RawRow) := match data with
        | some rows => filterByStatus "processing" rows
        | none => .ok []
      match processing with
      | .error e => Returned.handleSupabaseError (some e)
      | .ok processingData =>
        let pendingAmount := sumAmounts processingData
        let completed : Except ErrObj (List RawRow) := match data with
          | some rows => filterByStatus "completed" rows
          | none => .ok []
        match completed with
        | .error e => Returned.handleSupabaseError (some e)
        | .ok completedData =>
          .ok ⟨some ⟨totalCount, pendingAmount, sumAmounts completedData⟩, none⟩

/-- The `return` statements common to the three listing functions with the client-side join:
`handleSupabaseError(error)` and `{ data: data || [] }`. -/
def Returned.listWithUsers (numberToString : JSNum → String) (store : SelectCall → SelectReply)
    (first : SelectCall) : Returned (List JoinedRow) :=
  match store first with
  | .thrown e => Returned.handleSupabaseError e
  | .resolved data error _ =>
    match error with
    | some e => Returned.handleSupabaseError (some e)
    | none =>
      match (joinUsers numberToString store data).1 with
      | .error e => Returned.handleSupabaseError e
      | .ok rows => .ok ⟨some rows, none⟩

/-- Source `getWithdrawalRequests` (withdrawalService.js 6-62). -/
def Returned.getWithdrawalRequests (numberToString : JSNum → String)
    (store : SelectCall → SelectReply) : Returned (List JoinedRow) :=
  Returned.listWithUsers numberToString store
    ⟨"withdrawal_requests", withdrawalColumns, false, none, none, some "created_at", none⟩

/-- Source `getWithdrawalRequestsByStatus` (withdrawalService.js 67-124). -/
def Returned.getWithdrawalRequestsByStatus (numberToString : JSNum → String)
    (store : SelectCall → SelectReply) (status : JSVal) : Returned (List JoinedRow) :=
  Returned.listWithUsers numberToString store
    ⟨"withdrawal_requests", withdrawalColumns, false, some ("status", status), none,
      some "created_at", none⟩

/-- Source `getRecentWithdrawals` (transactionService.js 99-156). -/
def Returned.getRecentWithdrawals (numberToString : JSNum → String)
    (store : SelectCall → SelectReply) (limit : JSVal) : Returned (List JoinedRow) :=
  let limit := if limit = .undefined then JSVal.num (.fin 5) else limit
  Returned.listWithUsers numberToString store
    ⟨"withdrawal_requests", recentColumns, false, none, none, some "created_at", some limit⟩

/-- The `return` statements common to `getAllUsers` and `getUsersByStatus`:
`handleSupabaseError(error)` and `{ data: data || [] }`. -/
def Returned.listUsers (store : SelectCall → SelectReply) (call : SelectCall) :
    Returned (List JSObj) :=
  match store call with
  | .thrown e => Returned.handleSupabaseError e
  | .resolved data error _ =>
    match error with
    | some e => Returned.handleSupabaseError (some e)
    | none => .ok ⟨some (data.getD []), none⟩

/-- Source `getAllUsers` (userService.js 6-23). -/
def Returned.getAllUsers (store : SelectCall → SelectReply) : Returned (List JSObj) :=
  Returned.listUsers store ⟨"users", "*", false, none, none, some "created_at", none⟩

/-- Source `getUsersByStatus` (userService.js 28-46). -/
def Returned.getUsersByStatus (store : SelectCall → SelectReply) (status : JSVal) :
    Returned (List JSObj) :=
  Returned.listUsers store
    ⟨"users", "*", false, some ("status", status), none, some "created_at", none⟩

/-- Source `updateUserStatus` (userService.js 51-76): `{ error: 'User ID is required' }`,
`handleSupabaseError(error)` and `{ data: data && data.length > 0 ? data[0] : null }`. -/
def Returned.updateUserStatus (now : String) (store : UpdateCall → StoreReply JSObj)
    (id status : JSVal) : Returned (Option JSObj) :=
  if !id.truthy then .ok ⟨none, some (.str "User ID is required")⟩
  else
    match store ⟨"users", [("status", status), ("updated_at", .str now)], "id", id⟩ with
    | .thrown e => Returned.handleSupabaseError e
    | .resolved data error =>
      match error with
      | some e => Returned.handleSupabaseError (some e)
      | none =>
        match data with
        | some (row :: _) => .ok ⟨some (some row), none⟩
        | _ => .ok ⟨some none, none⟩

/-- The `return` statements common to `getUsersCount` and `getProcessingWithdrawalsCount`:
`handleSupabaseError(error)`, `handleSupabaseError(fullResponse.error)` and the literal
`{ data: { totalUsers } }`, respectively `{ data: { processingCount } }`. -/
def Returned.countRows (store : SelectCall → SelectReply) (counting full : SelectCall) :
    Returned JSVal :=
  match store counting with
  | .thrown e => Returned.handleSupabaseError e
  | .resolved _ error count =>
    match error with
    | some e => Returned.handleSupabaseError (some e)
    | none =>
      if count = .undefined ∨ count = .null then
        match store full with
        | .thrown e => Returned.handleSupabaseError e
        | .resolved fullData fullError _ =>
          match fullError with
          | some e => Returned.handleSupabaseError (some e)
          | none =>
            .ok ⟨some (.num (.fin (match fullData with
              | some rows => (rows.length : ℚ)
              | none => 0))), none⟩
      else .ok ⟨some count, none⟩

/-- Source `getUsersCount` (userService.js 81-119). -/
def Returned.getUsersCount (store : SelectCall → SelectReply) : Returned JSVal :=
  Returned.countRows store ⟨"users", "*", true, none, none, none, none⟩
    ⟨"users", "id", false, none, none, none, none⟩

/-- Source `getProcessingWithdrawalsCount` (transactionService.js 55-94). -/
def Returned.getProcessingWithdrawalsCount (store : SelectCall → SelectReply) :
    Returned JSVal :=
  Returned.countRows store
    ⟨"withdrawal_requests", "*", true, some ("status", .str "processing"), none, none, none⟩
    ⟨"withdrawal_requests", "id", false, some ("status", .str "processing"), none, none, none⟩

/-- Source `getTotalDeposits` (transactionService.js 6-50): `handleSupabaseError(error)` and
`{ data: { totalAmount } }`. -/
def Returned.getTotalDeposits (store : SelectCall → SelectReply) : Returned JSNum :=
  match store
    ⟨"transaction_history", "amount", false, some ("transaction_type", .str "deposit"), none,
      none, none⟩ with
  | .thrown e => Returned.handleSupabaseError e
  | .resolved data error _ =>
    match error with
    | some e => Returned.handleSupabaseError (some e)
    | none =>
      match data with
      | some rows =>
        let total := rows.foldl addDeposit (.fin 0)
        .ok ⟨some (if total.truthy then total else .fin 0), none⟩
      | none => .ok ⟨some (.fin 0), none⟩

/-- Whether an object carries exactly one of the keys `data` and `error`. -/
def ResultObj.oneKey {α : Type} (r : ResultObj α) : Bool :=
  (r.data.isSome && !r.error.isSome) || (!r.data.isSome && r.error.isSome)

/-- Whether the object a call returned carries exactly one of the keys `data` and `error`; a
rejected call returned no object. -/
def Returned.oneKey {α : Type} : Returned α → Bool
  | .ok r => r.oneKey
  | .error _ => true

/-- The returned object that a given outcome stands for. -/
def Outcome.toReturned {α : Type} : Outcome α → Returned α
  | .data d => .ok ⟨some d, none⟩
  | .error e => .ok ⟨none, some e⟩
  | .rejected t => .error t

/-! ## The withdrawals page: state, fetches, handlers and the actions cell -/

/-- The state of the component `Withdrawals` (withdrawals/page.js 12-20). -/
structure ViewState where
  withdrawals : List JoinedRow
  isLoading : Bool
  error : JSVal
  statusFilter : String
  stats : Stats
  deriving DecidableEq

/-- Everything outside the page that its functions consult: the clock readings, the engine's
number printing and the replies of the store. -/
structure Backend where
  clock : Clock
  now : String
  numberToString : JSNum → String
  update : UpdateCall → StoreReply JSObj
  select : SelectCall → SelectReply
  stats : StoreReply RawRow

/-- The mapping `response.data?.map(item => ({...item, status: normalizeStatus(item.status)}))`
of `fetchWithdrawals` (page.js 65-68); it throws when `normalizeStatus` does. -/
def normalizeRows : List JoinedRow → Except ErrObj (List JoinedRow)
  | [] => .ok []
  | item :: rest =>
    match normalizeStatus (item.row.prop "status") with
    | .error e => .error e
    | .ok label =>
      match normalizeRows rest with
      | .error e => .error e
      | .ok done => .ok (⟨item.row.set "status" (.str label), item.user⟩ :: done)

/-- Source `fetchWithdrawals` (page.js 49-80), as the change of the state it makes. -/
def fetchWithdrawals (b : Backend) (s : ViewState) : ViewState :=
  let response : Outcome (List JoinedRow) :=
    if s.statusFilter = "All" then (getWithdrawalRequests b.numberToString b.select).1
    else (getWithdrawalRequestsByStatus b.numberToString b.select (.str s.statusFilter)).1
  let failed : ViewState :=
    { s with error := .str "Failed to load withdrawal requests", withdrawals := [],
             isLoading := false }
  match response with
  | .rejected _ => failed
  | .error e =>
    if e.truthy then { s with error := e, withdrawals := [], isLoading := false }
    else { s with withdrawals := [], error := .null, isLoading := false }
  | .data rows =>
    match normalizeRows rows with
    | .error _ => failed
    | .ok normalizedData =>
      { s with withdrawals := normalizedData, error := .null, isLoading := false }

/-- Source `fetchStats` (page.js 82-100), as the change of the state it makes. -/
def fetchStats (b : Backend) (s : ViewState) : ViewState :=
  match getWithdrawalStats b.stats with
  | .rejected _ => s
  | .error e => if e.truthy then s else { s with stats := ⟨0, .fin 0, .fin 0⟩ }
  | .data stats => { s with stats := stats }

/-- What a handler does besides changing the state, in order: the notifications it shows,
the service call it makes and the re-fetches it starts. -/
inductive PageEffect where
  | alert (message : String)
  | updateWithdrawalStatus (id : JSVal) (options : Options)
  | fetchWithdrawals
  | fetchStats
  deriving DecidableEq

/-- The choice of the target status in `handleAction` (page.js 108-115); `undefined` when the
action is none of the three. -/
def actionStatus (action : JSVal) : JSVal :=
  if action = .str "Approve" then .str "Completed"
  else if action = .str "Reject" then .str "Rejected"
  else if action = .str "Process" then .str "Processing"
  else .undefined

/-- The second argument `handleAction` passes to `updateWithdrawalStatus` (page.js 123-127). -/
def actionOptions (b : Backend) (action : JSVal) : Options :=
  ⟨actionStatus action, .str "current-user-id", .undefined,
    .str (toText b.numberToString action ++ "d by admin on " ++ b.now)⟩

/-- The second argument `handleMarkAsProcessed` passes to `updateWithdrawalStatus`
(page.js 150-154). -/
def processedOptions (b : Backend) : Options :=
  ⟨.str "Processed", .str "current-user-id", .undefined,
    .str ("Marked as processed by admin on " ++ b.now)⟩

/-- The two re-fetches started after a successful transition; they are not awaited and write
disjoint parts of the state. -/
def refresh (b : Backend) (s : ViewState) : ViewState := fetchStats b (fetchWithdrawals b s)

/-- Source `handleAction` (page.js 102-141). The text `action.toLowerCase()` is only computed
when the action is one of the three strings. -/
def handleAction (b : Backend) (s : ViewState) (id action : JSVal) :
    ViewState × List PageEffect :=
  if !id.truthy then (s, [.alert "Invalid withdrawal ID"])
  else if !(actionStatus action).truthy then (s, [.alert "Invalid action"])
  else
    let options := actionOptions b action
    let lower := toLowerCase (toText b.numberToString action)
    let succeeded : ViewState × List PageEffect :=
      (refresh b s, [.updateWithdrawalStatus id options,
        .alert ("Successfully " ++ lower ++ "d withdrawal request"),
        .fetchWithdrawals, .fetchStats])
    match (updateWithdrawalStatus b.clock b.update id (some options)).1 with
    | .rejected _ =>
      (s, [.updateWithdrawalStatus id options,
        .alert ("Error " ++ lower ++ "ing withdrawal request")])
    | .error e =>
      if e.truthy then
        (s, [.updateWithdrawalStatus id options,
          .alert ("Error: " ++ toText b.numberToString e)])
      else succeeded
    | .data _ => succeeded

/-- Source `handleMarkAsProcessed` (page.js 143-168). -/
def handleMarkAsProcessed (b : Backend) (s : ViewState) (id : JSVal) :
    ViewState × List PageEffect :=
  if !id.truthy then (s, [.alert "Invalid withdrawal ID"])
  else
    let options := processedOptions b
    let succeeded : ViewState × List PageEffect :=
      (refresh b s, [.updateWithdrawalStatus id options,
        .alert "Successfully marked withdrawal request as processed",
        .fetchWithdrawals, .fetchStats])
    match (updateWithdrawalStatus b.clock b.update id (some options)).1 with
    | .rejected _ =>
      (s, [.updateWithdrawalStatus id options, .alert "Error marking withdrawal as processed"])
    | .error e =>
      if e.truthy then
        (s, [.updateWithdrawalStatus id options,
          .alert ("Error: " ++ toText b.numberToString e)])
      else succeeded
    | .data _ => succeeded

/-- What a button of the actions cell calls when clicked. -/
inductive Click where
  | action (name : String)
  | markAsProcessed
  deriving DecidableEq

/-- An element of the actions cell of a table row. -/
inductive CellItem where
  | button (text : String) (onClick : Click)
  | label (text : String)
  deriving DecidableEq

/-- The actions cell rendered for a normalised status (page.js 351-383): three conditional
fragments, in order. -/
def actionsCell (status : String) : List CellItem :=
  (if status = "Pending" then
    [.button "Process" (.action "Process"), .button "Approve" (.action "Approve"),
     .button "Reject" (.action "Reject")] else []) ++
  (if status ≠ "Pending" ∧ status ≠ "Processed" then
    [.button "Mark as Processed" .markAsProcessed] else []) ++
  (if status = "Processed" then [.label "Fully processed"] else [])

/-- The actions cell of a displayed row: `normalizeStatus(withdrawal?.status)` first
(page.js 333), then the cell for that status. -/
def renderActions (withdrawal : JoinedRow) : Except ErrObj (List CellItem) :=
  match normalizeStatus (withdrawal.row.prop "status") with
  | .error e => .error e
  | .ok status => .ok (actionsCell status)

/-- The handler a click runs, with the id of the row the button belongs to. -/
def click (b : Backend) (s : ViewState) (id : JSVal) : Click → ViewState × List PageEffect
  | .action name => handleAction b s id (.str name)
  | .markAsProcessed => handleMarkAsProcessed b s id

/-- The target statuses of the update calls among the effects of a handler. -/
def sentStatuses : List PageEffect → List JSVal
  | [] => []
  | .updateWithdrawalStatus _ options :: rest => options.status :: sentStatuses rest
  | _ :: rest => sentStatuses rest

/-- The step relation of the page on the status of a row: the row shows a button whose
handler, for some state of the page and some row id, sends an update with the new status. -/
def uiStep (b : Backend) (status status' : JSVal) : Prop :=
  ∃ (label text : String) (c : Click) (s : ViewState) (id : JSVal),
    normalizeStatus status = .ok label ∧ CellItem.button text c ∈ actionsCell label ∧
      status' ∈ sentStatuses (click b s id c).2

/-! ## Currency formatting: `formatCurrency` of utils.js

`Intl.NumberFormat('en-US', { style: 'currency', currency: 'USD', minimumFractionDigits: 2 })`
is the platform's: for US dollars it prints exactly two fraction digits, rounding halves away
from zero, groups the integer digits in threes with commas, and puts the dollar sign after
the minus sign. -/

/-- The character of a decimal digit. -/
def digitChar (d : Nat) : Char := Char.ofNat (48 + d)

/-- The decimal digits of `n`, most significant first, by at most `fuel` divisions. -/
def natDigitsFuel : Nat → Nat → List Char
  | 0, _ => []
  | fuel + 1, n =>
    if n < 10 then [digitChar n] else natDigitsFuel fuel (n / 10) ++ [digitChar (n % 10)]

/-- The decimal digits of a natural number, most significant first (`0` for zero). -/
def natDigits (n : Nat) : List Char := natDigitsFuel (n + 1) n

/-- Commas in a run of digits given least significant first; `k` counts the digits since the
last comma. -/
def groupRev : Nat → List Char → List Char
  | _, [] => []
  | k, c :: cs => if k = 3 then ',' :: c :: groupRev 1 cs else c :: groupRev (k + 1) cs

/-- The integer digits with a comma before every group of three, counted from the right. -/
def groupThousands (ds : List Char) : List Char := (groupRev 0 ds.reverse).reverse

/-- The amount in cents nearest to a rational amount of dollars, halves away from zero,
without its sign. -/
def roundCents (q : ℚ) : Nat := (Int.floor (|q| * 100 + 1 / 2)).toNat

/-- The text for an amount of `cents` hundredths of a dollar with the given sign. -/
def formatUSD (neg : Bool) (cents : Nat) : String :=
  String.mk ((if neg then ['-'] else []) ++ '$' :: groupThousands (natDigits (cents / 100)) ++
    ['.', digitChar (cents % 100 / 10), digitChar (cents % 10)])

/-- The method `format` of the US-dollar formatter on a number. -/
def intlFormatUSD : JSNum → String
  | .nan => "$NaN"
  | .posInf => "$∞"
  | .negInf => "-$∞"
  | .fin q => formatUSD (decide (q < 0)) (roundCents q)

/-- Source `formatCurrency` (utils.js 36-49); the formatter does not throw on these values. -/
def formatCurrency (amount : JSVal) : String :=
  if amount = .null ∨ amount = .undefined then "$0.00" else intlFormatUSD (toNumber amount)

/-! ## The dashboard page: `formatStatus` -/

/-- Source `formatStatus` (dashboard/page.js 99-104). -/
def formatStatus (status : JSVal) : Except ErrObj String :=
  if !status.truthy then .ok "Unknown"
  else
    match status with
    | .str s => .ok (toUpperCase (charAt0 s) ++ toLowerCase (slice1 s))
    | _ => .error typeError

/-! ## Notions used to state the properties of the services -/

/-- Whether the call returned a result object, as opposed to a rejected promise. -/
def Outcome.isResult {α : Type} : Outcome α → Bool
  | .rejected _ => false
  | _ => true

/-- The last of the returned profiles whose id has the given property key. -/
def lastWithKey (numberToString : JSNum → String) (profiles : List JSObj) (key : String) :
    Option JSObj :=
  profiles.reverse.find? (fun p => decide (toText numberToString (p.prop "id") = key))

/-- A store for the listing functions: it answers the request on `profiles` with the given
profiles and every other request with the given rows, both without error. -/
def joinStore (rows profiles : List JSObj) (call : SelectCall) : SelectReply :=
  if call.table = "profiles" then .resolved (some profiles) none .null
  else .resolved (some rows) none .null

/-- A monetary amount as the data model has it: a decimal stored as text or as a number, or
no value. -/
inductive Amount where
  | text (s : String)
  | number (q : ℚ)
  | null
  deriving DecidableEq

/-- The value of the `amount` column the store delivers. -/
def Amount.val : Amount → JSVal
  | .text s => .str s
  | .number q => .num (.fin q)
  | .null => .null

/-- A row of `transaction_history` as selected by `getTotalDeposits`. -/
structure DepositRow where
  amount : Amount
  deriving DecidableEq

/-- The row as the store delivers it. -/
def DepositRow.raw (r : DepositRow) : JSObj := [("amount", r.amount.val)]

/-- The answer of a store that found the given deposit rows. -/
def depositsFound (rows : List DepositRow) (_ : SelectCall) : SelectReply :=
  .resolved (some (rows.map DepositRow.raw)) none .null

/-! ## The users page and the dashboard page: state and fetches -/

/-- The state of the component `Users` (users/page.js 8-12). -/
structure UsersState where
  users : List JSObj
  loading : Bool
  searchTerm : String
  statusFilter : String
  error : JSVal
  deriving DecidableEq

/-- Source `fetchUsers` (users/page.js 20-47), as the change of the state it makes. -/
def fetchUsers (select : SelectCall → SelectReply) (s : UsersState) : UsersState :=
  let response : Outcome (List JSObj) :=
    if s.statusFilter = "All" then (getAllUsers select).1
    else (getUsersByStatus select (.str s.statusFilter)).1
  match response with
  | .rejected _ =>
    { s with error := .str "Failed to fetch users. Please try again later.", users := [],
             loading := false }
  | .error e =>
    if e.truthy then { s with error := e, users := [], loading := false }
    else { s with users := [], error := .null, loading := false }
  | .data rows => { s with users := rows, error := .null, loading := false }

/-- A card of the dashboard's stats grid (dashboard/page.js 9-14). -/
structure StatCard where
  id : Nat
  name : String
  value : String
  icon : String
  change : String
  changeType : String
  deriving DecidableEq

/-- The state of the component `Dashboard` (dashboard/page.js 9-18); it has no error field. -/
structure DashboardState where
  stats : List StatCard
  recentWithdrawals : List JoinedRow
  loading : Bool
  withdrawalsLoading : Bool
  deriving DecidableEq

/-- The initial state of the dashboard. -/
def initialDashboard : DashboardState :=
  ⟨[⟨1, "Total Users", "0", "👤", "0%", "neutral"⟩,
    ⟨2, "Active Users", "0", "✅", "0%", "neutral"⟩,
    ⟨3, "Pending Withdrawals", "0", "💰", "0%", "neutral"⟩,
    ⟨4, "Total Deposits", "$0", "💵", "0%", "neutral"⟩], [], true, true⟩

/-- The expression `response.data?.property || 0` on the result of a counting function. -/
def dataOrZero (response : Outcome JSVal) : JSVal :=
  match response with
  | .data v => v.or (.num (.fin 0))
  | _ => .num (.fin 0)

/-- The expression `depositsResponse.data?.totalAmount || 0`. -/
def totalAmountOrZero (response : Outcome JSNum) : JSVal :=
  match response with
  | .data n => (JSVal.num n).or (.num (.fin 0))
  | _ => .num (.fin 0)

/-- The function mapped over the cards by `setStats` (dashboard/page.js 39-71);
`formatNumber` is the method `format` of `Intl.NumberFormat('en-US')`. -/
def updateCard (numberToString : JSNum → String) (formatNumber : JSVal → String)
    (depositsResponse : Outcome JSNum) (withdrawalsResponse usersResponse : Outcome JSVal)
    (stat : StatCard) : StatCard :=
  if stat.name = "Total Deposits" then
    { stat with value := formatCurrency (totalAmountOrZero depositsResponse) }
  else if stat.name = "Pending Withdrawals" then
    { stat with value := toText numberToString (dataOrZero withdrawalsResponse) }
  else if stat.name = "Total Users" ∨ stat.name = "Active Users" then
    { stat with value := formatNumber (dataOrZero usersResponse) }
  else stat

/-- Source `fetchDashboardData` (dashboard/page.js 25-78), as the change of the state it
makes: the three services are awaited in order, and a rejection of one of them leaves the
cards as they were. -/
def fetchDashboardData (numberToString : JSNum → String) (formatNumber : JSVal → String)
    (select : SelectCall → SelectReply) (s : DashboardState) : DashboardState :=
  match (getTotalDeposits select).1 with
  | .rejected _ => { s with loading := false }
  | depositsResponse =>
    match (getProcessingWithdrawalsCount select).1 with
    | .rejected _ => { s with loading := false }
    | withdrawalsResponse =>
      match (getUsersCount select).1 with
      | .rejected _ => { s with loading := false }
      | usersResponse =>
        { s with
          stats := s.stats.map
            (updateCard numberToString formatNumber depositsResponse withdrawalsResponse
              usersResponse),
          loading := false }

/-- Source `fetchRecentWithdrawals` (dashboard/page.js 80-96), as the change of the state
it makes. -/
def fetchRecentWithdrawals (numberToString : JSNum → String)
    (select : SelectCall → SelectReply) (s : DashboardState) : DashboardState :=
  match (getRecentWithdrawals numberToString select (.num (.fin 5))).1 with
  | .rejected _ => { s with withdrawalsLoading := false }
  | .error e =>
    if e.truthy then { s with withdrawalsLoading := false }
    else { s with recentWithdrawals := [], withdrawalsLoading := false }
  | .data rows => { s with recentWithdrawals := rows, withdrawalsLoading := false }

/-- The value shown on the card with the given name. -/
def cardValue (name : String) (stats : List StatCard) : Option String :=
  (stats.find? (fun card => decide (card.name = name))).map (fun card => card.value)

/-! ## Properties of the lifecycle controller -/

/-- With a truthy id and a destructurable second argument, exactly one request goes to the
store: the update of `withdrawal_requests` with the payload `updateData`, keyed by the id. -/
theorem updateWithdrawalStatus_calls (clock : Clock) (store : UpdateCall → StoreReply JSObj)
    (id : JSVal) (o : Options) (hid : id.truthy = true) :
    (updateWithdrawalStatus clock store id (some o)).2 =
      [⟨"withdrawal_requests", updateData clock o, "id", id⟩] := by
  simp only [updateWithdrawalStatus, hid, Bool.not_true, Bool.false_eq_true, if_false]
  cases store ⟨"withdrawal_requests", updateData clock o, "id", id⟩ with
  | thrown e => rfl
  | resolved data error =>
    cases error with
    | some e => rfl
    | none =>
      cases data with
      | none => rfl
      | some rows => cases rows <;> rfl

/-- The payload for a target status other than Completed and Rejected. -/
theorem updateData_other (clock : Clock) (o : Options)
    (h : ¬ (o.status = .str "Completed" ∨ o.status = .str "Rejected")) :
    updateData clock o = [("status", o.status), ("updated_at", .str clock.first)] := by
  simp only [updateData, h, if_false]

/-- C1. For a non-empty (truthy) id and a target status that is exactly Completed or Rejected,
the single update sent to the store carries a payload with `status`, `processed_at` and
`processed_by` equal to the supplied one; `transaction_reference` and `notes` are present
exactly when a non-empty (truthy) value was supplied, with that value, and are absent keys
otherwise. -/
theorem updateWithdrawalStatus_terminal_payload (clock : Clock)
    (store : UpdateCall → StoreReply JSObj) (id : JSVal) (o : Options)
    (hid : id.truthy = true)
    (hst : o.status = .str "Completed" ∨ o.status = .str "Rejected") :
    (updateWithdrawalStatus clock store id (some o)).2 =
        [⟨"withdrawal_requests", updateData clock o, "id", id⟩] ∧
      (updateData clock o).get? "status" = some o.status ∧
      (updateData clock o).get? "processed_at" = some (.str clock.second) ∧
      (updateData clock o).get? "processed_by" = some o.processed_by ∧
      (updateData clock o).get? "transaction_reference" =
        (if o.transaction_reference.truthy then some o.transaction_reference else none) ∧
      (updateData clock o).get? "notes" = (if o.notes.truthy then some o.notes else none) := by
  refine ⟨updateWithdrawalStatus_calls clock store id o hid, ?_⟩
  simp only [updateData, hst, if_true]
  by_cases ht : o.transaction_reference.truthy = true <;>
    by_cases hn : o.notes.truthy = true <;>
    simp [ht, hn, JSObj.set, JSObj.get?]

/-- C1, at the input of the specification: id w1, status Rejected, processed_by u1, notes
"bad actor" and no transaction reference. -/
theorem updateWithdrawalStatus_terminal_payload_witness :
    (JSVal.str "w1").truthy = true ∧
    (updateWithdrawalStatus ⟨"t0", "t1"⟩ (fun _ => .resolved none none) (.str "w1")
        (some ⟨.str "Rejected", .str "u1", .undefined, .str "bad actor"⟩)).2 =
      [⟨"withdrawal_requests",
        updateData ⟨"t0", "t1"⟩ ⟨.str "Rejected", .str "u1", .undefined, .str "bad actor"⟩,
        "id", .str "w1"⟩] ∧
    (updateData ⟨"t0", "t1"⟩ ⟨.str "Rejected", .str "u1", .undefined, .str "bad actor"⟩).get?
      "status" = some (.str "Rejected") ∧
    (updateData ⟨"t0", "t1"⟩ ⟨.str "Rejected", .str "u1", .undefined, .str "bad actor"⟩).get?
      "processed_at" = some (.str "t1") ∧
    (updateData ⟨"t0", "t1"⟩ ⟨.str "Rejected", .str "u1", .undefined, .str "bad actor"⟩).get?
      "processed_by" = some (.str "u1") ∧
    (updateData ⟨"t0", "t1"⟩ ⟨.str "Rejected", .str "u1", .undefined, .str "bad actor"⟩).get?
      "transaction_reference" = none ∧
    (updateData ⟨"t0", "t1"⟩ ⟨.str "Rejected", .str "u1", .undefined, .str "bad actor"⟩).get?
      "notes" = some (.str "bad actor") :=
  ⟨by decide,
    updateWithdrawalStatus_terminal_payload ⟨"t0", "t1"⟩ (fun _ => .resolved none none)
      (.str "w1") ⟨.str "Rejected", .str "u1", .undefined, .str "bad actor"⟩ (by decide)
      (Or.inr rfl)⟩

/-- C2, as stated, fails when the options argument is `undefined` or `null`, as in the call
`updateWithdrawalStatus()` with an absent id and nothing else: the call does not return the
error result but rejects, the destructuring of the second parameter having thrown before the
id is looked at. -/
theorem updateWithdrawalStatus_missing_id_absent_options :
    JSVal.undefined.truthy = false ∧
    updateWithdrawalStatus ⟨"t0", "t1"⟩ (fun _ => .resolved none none) .undefined none =
      (.rejected (some typeError), []) ∧
    (updateWithdrawalStatus ⟨"t0", "t1"⟩ (fun _ => .resolved none none) .undefined none).1 ≠
      .error (.str "Withdrawal ID is required") := by
  decide

/-- C2, amended. For every empty or absent (falsy) id no request reaches the store, whatever
the options argument; when the options argument can be destructured (it is neither `undefined`
nor `null`) the outcome is the error result `Withdrawal ID is required`, and otherwise the
call rejects with the `TypeError` of the destructuring. -/
theorem updateWithdrawalStatus_missing_id (clock : Clock)
    (store : UpdateCall → StoreReply JSObj) (id : JSVal) (options : Option Options)
    (hid : id.truthy = false) :
    (updateWithdrawalStatus clock store id options).2 = [] ∧
    (updateWithdrawalStatus clock store id options).1 =
      (match options with
        | some _ => .error (.str "Withdrawal ID is required")
        | none => .rejected (some typeError)) := by
  cases options with
  | none => exact ⟨rfl, rfl⟩
  | some o => simp [updateWithdrawalStatus, hid]

/-- C2, amended, at the input of the specification: empty id, target Completed, processor
u1. -/
theorem updateWithdrawalStatus_missing_id_witness :
    (JSVal.str "").truthy = false ∧
    (updateWithdrawalStatus ⟨"t0", "t1"⟩ (fun _ => .resolved (some [[]]) none) (.str "")
        (some ⟨.str "Completed", .str "u1", .undefined, .undefined⟩)).2 = [] ∧
    (updateWithdrawalStatus ⟨"t0", "t1"⟩ (fun _ => .resolved (some [[]]) none) (.str "")
        (some ⟨.str "Completed", .str "u1", .undefined, .undefined⟩)).1 =
      .error (.str "Withdrawal ID is required") :=
  ⟨by decide,
    updateWithdrawalStatus_missing_id ⟨"t0", "t1"⟩ (fun _ => .resolved (some [[]]) none)
      (.str "") (some ⟨.str "Completed", .str "u1", .undefined, .undefined⟩) (by decide)⟩

/-- C3. In the payload of the update sent for a non-empty id, `processed_at` is a key exactly
when the target status is Completed or Rejected, and so is `processed_by`; for every other
target status the payload is exactly `status` and `updated_at`, whatever processed_by,
transaction_reference and notes were supplied. -/
theorem updateWithdrawalStatus_processed_iff_terminal (clock : Clock)
    (store : UpdateCall → StoreReply JSObj) (id : JSVal) (o : Options)
    (hid : id.truthy = true) :
    (updateWithdrawalStatus clock store id (some o)).2 =
        [⟨"withdrawal_requests", updateData clock o, "id", id⟩] ∧
      ((updateData clock o).hasKey "processed_at" = true ↔
        (o.status = .str "Completed" ∨ o.status = .str "Rejected")) ∧
      ((updateData clock o).hasKey "processed_by" = true ↔
        (o.status = .str "Completed" ∨ o.status = .str "Rejected")) ∧
      (¬ (o.status = .str "Completed" ∨ o.status = .str "Rejected") →
        updateData clock o = [("status", o.status), ("updated_at", .str clock.first)]) := by
  refine ⟨updateWithdrawalStatus_calls clock store id o hid, ?_, ?_, updateData_other clock o⟩
  · by_cases hst : o.status = .str "Completed" ∨ o.status = .str "Rejected"
    · simp only [updateData, hst, if_true, iff_true]
      by_cases ht : o.transaction_reference.truthy = true <;>
        by_cases hn : o.notes.truthy = true <;>
        simp [ht, hn, JSObj.set, JSObj.get?, JSObj.hasKey]
    · simp [updateData_other clock o hst, hst, JSObj.hasKey, JSObj.get?]
  · by_cases hst : o.status = .str "Completed" ∨ o.status = .str "Rejected"
    · simp only [updateData, hst, if_true, iff_true]
      by_cases ht : o.transaction_reference.truthy = true <;>
        by_cases hn : o.notes.truthy = true <;>
        simp [ht, hn, JSObj.set, JSObj.get?, JSObj.hasKey]
    · simp [updateData_other clock o hst, hst, JSObj.hasKey, JSObj.get?]

/-- C3, at the request `handleMarkAsProcessed` sends: target Processed with a processor and
notes supplied; the payload is `status` and `updated_at` only. -/
theorem updateWithdrawalStatus_processed_iff_terminal_witness :
    (JSVal.str "w1").truthy = true ∧
    (updateWithdrawalStatus ⟨"t0", "t1"⟩ (fun _ => .resolved none none) (.str "w1")
        (some ⟨.str "Processed", .str "current-user-id", .undefined, .str "Marked"⟩)).2 =
      [⟨"withdrawal_requests", [("status", .str "Processed"), ("updated_at", .str "t0")],
        "id", .str "w1"⟩] ∧
    (updateData ⟨"t0", "t1"⟩
        ⟨.str "Processed", .str "current-user-id", .undefined, .str "Marked"⟩).hasKey
      "processed_at" = false ∧
    (updateData ⟨"t0", "t1"⟩
        ⟨.str "Processed", .str "current-user-id", .undefined, .str "Marked"⟩).hasKey
      "processed_by" = false :=
  have h := updateWithdrawalStatus_processed_iff_terminal ⟨"t0", "t1"⟩
    (fun _ => .resolved none none) (.str "w1")
    ⟨.str "Processed", .str "current-user-id", .undefined, .str "Marked"⟩ (by decide)
  ⟨by decide, by rw [h.1, h.2.2.2 (by decide)], by decide, by decide⟩

/-- C4. For every non-empty (truthy) id and every target status, the payload of the update
sent to the store has `status` equal to the given target status, unmodified, and `updated_at`
equal to the clock reading taken when the payload is built. -/
theorem updateWithdrawalStatus_status_and_updated_at (clock : Clock)
    (store : UpdateCall → StoreReply JSObj) (id : JSVal) (o : Options)
    (hid : id.truthy = true) :
    (updateWithdrawalStatus clock store id (some o)).2 =
        [⟨"withdrawal_requests", updateData clock o, "id", id⟩] ∧
      (updateData clock o).get? "status" = some o.status ∧
      (updateData clock o).get? "updated_at" = some (.str clock.first) := by
  refine ⟨updateWithdrawalStatus_calls clock store id o hid, ?_⟩
  by_cases hst : o.status = .str "Completed" ∨ o.status = .str "Rejected"
  · simp only [updateData, hst, if_true]
    by_cases ht : o.transaction_reference.truthy = true <;>
      by_cases hn : o.notes.truthy = true <;>
      simp [ht, hn, JSObj.set, JSObj.get?]
  · simp [updateData_other clock o hst, JSObj.get?]

/-- C4, at a target status outside the vocabulary: it is written to the payload as given. -/
theorem updateWithdrawalStatus_status_and_updated_at_witness :
    (JSVal.str "w7").truthy = true ∧
    (updateWithdrawalStatus ⟨"t0", "t1"⟩ (fun _ => .thrown none) (.str "w7")
        (some ⟨.str "processing ", .null, .null, .null⟩)).2 =
      [⟨"withdrawal_requests",
        updateData ⟨"t0", "t1"⟩ ⟨.str "processing ", .null, .null, .null⟩, "id", .str "w7"⟩] ∧
    (updateData ⟨"t0", "t1"⟩ ⟨.str "processing ", .null, .null, .null⟩).get? "status" =
      some (.str "processing ") ∧
    (updateData ⟨"t0", "t1"⟩ ⟨.str "processing ", .null, .null, .null⟩).get? "updated_at" =
      some (.str "t0") :=
  ⟨by decide,
    updateWithdrawalStatus_status_and_updated_at ⟨"t0", "t1"⟩ (fun _ => .thrown none)
      (.str "w7") ⟨.str "processing ", .null, .null, .null⟩ (by decide)⟩

/-! ## Properties of the statistics aggregator -/

/-- A character whose upper-case form is an ASCII capital has the matching small letter as
its lower-case form. -/
theorem toLower_of_toUpper (c : Char) (n : Nat) (hn : 65 ≤ n ∧ n ≤ 90)
    (h : Char.toUpper c = Char.ofNat n) : Char.toLower c = Char.ofNat (n + 32) := by
  obtain ⟨h1, h2⟩ := hn
  unfold Char.toUpper at h
  unfold Char.toLower
  generalize hm : c.toNat = m at h
  have hc : c = Char.ofNat m := by rw [← hm, Char.ofNat_toNat]
  subst hc
  by_cases hlow : m ≥ 97 ∧ m ≤ 122
  · obtain ⟨l1, l2⟩ := hlow
    interval_cases m <;> interval_cases n <;> first | rfl | (exfalso; revert h; decide)
  · simp only [hlow, if_false] at h
    have hmn : m = n := by
      have := congrArg Char.toNat h
      rw [hm] at this
      rw [this]
      interval_cases n <;> rfl
    subst hmn
    interval_cases m <;> rfl

/-- The default branch of `normalizeStatus` yields a text starting with an ASCII capital only
for an input whose lower-case form is that text with the small letter in front. -/
theorem toLowerCase_of_capitalized (s : String) (n : Nat) (rest : List Char)
    (hn : 65 ≤ n ∧ n ≤ 90)
    (h : toUpperCase (charAt0 s) ++ toLowerCase (slice1 s) = String.mk (Char.ofNat n :: rest)) :
    toLowerCase s = String.mk (Char.ofNat (n + 32) :: rest) := by
  obtain ⟨cs⟩ := s
  cases cs with
  | nil =>
    have h2 : ([] : List Char) = Char.ofNat n :: rest := congrArg String.data h
    cases h2
  | cons c cs =>
    have h2 : Char.toUpper c :: List.map Char.toLower cs = Char.ofNat n :: rest :=
      congrArg String.data h
    injection h2 with hc hrest
    show String.mk (Char.toLower c :: List.map Char.toLower cs) = _
    rw [toLower_of_toUpper c n hn hc, hrest]

/-- A row's status normalises to a label exactly when `normalizeStatus` returns it. -/
theorem normalizesTo_iff (label : String) (r : RawRow) :
    normalizesTo label r = true ↔ normalizeStatus r.status = .ok label := by
  unfold normalizesTo
  cases normalizeStatus r.status <;> simp

/-- A non-empty text normalises to Processing exactly when its lower-case form is
`processing`. -/
theorem normalizeStatus_processing_iff (s : String) (hs : s ≠ "") :
    normalizeStatus (.str s) = .ok "Processing" ↔ toLowerCase s = "processing" := by
  simp only [normalizeStatus, JSVal.truthy, hs, ne_eq, not_false_eq_true, decide_True,
    Bool.not_true, Bool.false_eq_true, if_false]
  by_cases h1 : toLowerCase s = "pending"
  · simp [h1]
  by_cases h2 : toLowerCase s = "processing"
  · simp [h1, h2]
  by_cases h3 : toLowerCase s = "completed"
  · simp [h1, h2, h3]
  by_cases h4 : toLowerCase s = "rejected"
  · simp [h1, h2, h3, h4]
  by_cases h5 : toLowerCase s = "processed"
  · simp [h1, h2, h3, h4, h5]
  simp only [h1, h2, h3, h4, h5, if_false, iff_false]
  intro h
  injection h with h
  exact h2 (toLowerCase_of_capitalized s 80 "rocessing".data (by decide) h)

/-- A non-empty text normalises to Completed exactly when its lower-case form is
`completed`. -/
theorem normalizeStatus_completed_iff (s : String) (hs : s ≠ "") :
    normalizeStatus (.str s) = .ok "Completed" ↔ toLowerCase s = "completed" := by
  simp only [normalizeStatus, JSVal.truthy, hs, ne_eq, not_false_eq_true, decide_True,
    Bool.not_true, Bool.false_eq_true, if_false]
  by_cases h1 : toLowerCase s = "pending"
  · simp [h1]
  by_cases h2 : toLowerCase s = "processing"
  · simp [h1, h2]
  by_cases h3 : toLowerCase s = "completed"
  · simp [h1, h2, h3]
  by_cases h4 : toLowerCase s = "rejected"
  · simp [h1, h2, h3, h4]
  by_cases h5 : toLowerCase s = "processed"
  · simp [h1, h2, h3, h4, h5]
  simp only [h1, h2, h3, h4, h5, if_false, iff_false]
  intro h
  injection h with h
  exact h3 (toLowerCase_of_capitalized s 67 "ompleted".data (by decide) h)

/-- On a typed row the filter callback for `processing` never throws and keeps the row exactly
when its status normalises to Processing. -/
theorem statusIs_processing (r : WithdrawalRow) :
    statusIs "processing" r.raw = .ok (normalizesTo "Processing" r.raw) := by
  obtain ⟨id, amount, status⟩ := r
  cases status with
  | none => rfl
  | some s =>
    by_cases hs : s = ""
    · subst hs; rfl
    · have hb : decide (toLowerCase s = "processing") =
          normalizesTo "Processing" ⟨id, amount, .str s⟩ := by
        rw [Bool.eq_iff_iff, normalizesTo_iff, normalizeStatus_processing_iff s hs]
        simp
      simp only [statusIs, WithdrawalRow.raw, JSVal.or, JSVal.truthy, hs, ne_eq,
        not_false_eq_true, decide_True, if_true, JSVal.callToLowerCase, hb]

/-- On a typed row the filter callback for `completed` never throws and keeps the row exactly
when its status normalises to Completed. -/
theorem statusIs_completed (r : WithdrawalRow) :
    statusIs "completed" r.raw = .ok (normalizesTo "Completed" r.raw) := by
  obtain ⟨id, amount, status⟩ := r
  cases status with
  | none => rfl
  | some s =>
    by_cases hs : s = ""
    · subst hs; rfl
    · have hb : decide (toLowerCase s = "completed") =
          normalizesTo "Completed" ⟨id, amount, .str s⟩ := by
        rw [Bool.eq_iff_iff, normalizesTo_iff, normalizeStatus_completed_iff s hs]
        simp
      simp only [statusIs, WithdrawalRow.raw, JSVal.or, JSVal.truthy, hs, ne_eq,
        not_false_eq_true, decide_True, if_true, JSVal.callToLowerCase, hb]

/-- When the callback agrees with a total predicate on every row, `filterByStatus` returns the
rows the predicate keeps. -/
theorem filterByStatus_eq_filter (target : String) (keep : RawRow → Bool)
    (rows : List WithdrawalRow) (h : ∀ r : WithdrawalRow, statusIs target r.raw = .ok (keep r.raw)) :
    filterByStatus target (rows.map WithdrawalRow.raw) =
      .ok ((rows.map WithdrawalRow.raw).filter keep) := by
  induction rows with
  | nil => rfl
  | cons r rest ih =>
    simp only [List.map_cons, filterByStatus, h r, ih, List.filter_cons]

/-- The guarded reduction is the sum of the rows' contributions. -/
theorem sumAmounts_eq (rows : List RawRow) :
    sumAmounts rows = sumNums (rows.map contribution) := by
  have hfold : ∀ (l : List RawRow) (acc : JSNum),
      l.foldl addAmount acc = (l.map contribution).foldl JSNum.add acc := by
    intro l
    induction l with
    | nil => intro acc; rfl
    | cons r rest ih =>
      intro acc
      simp only [List.foldl_cons, List.map_cons, ih]
      rfl
  unfold sumAmounts sumNums
  cases rows with
  | nil => rfl
  | cons r rest => simp [hfold]

/-- The whole result of `getWithdrawalStats` on a collection of typed rows. -/
theorem getWithdrawalStats_found (rows : List WithdrawalRow) :
    getWithdrawalStats (found rows) = .data
      ⟨rows.length,
        sumNums (((rows.map WithdrawalRow.raw).filter (normalizesTo "Processing")).map
          contribution),
        sumNums (((rows.map WithdrawalRow.raw).filter (normalizesTo "Completed")).map
          contribution)⟩ := by
  simp only [getWithdrawalStats, found,
    filterByStatus_eq_filter "processing" (normalizesTo "Processing") rows statusIs_processing,
    filterByStatus_eq_filter "completed" (normalizesTo "Completed") rows statusIs_completed,
    sumAmounts_eq, List.length_map]

/-- C5. For every collection of withdrawal rows the aggregator returns a result whose
pendingAmount is the sum of the contributions (parsed amounts) of exactly the rows whose
status normalises to Processing; it is 0 when no row qualifies, the empty collection
included. -/
theorem getWithdrawalStats_pendingAmount (rows : List WithdrawalRow) :
    ∃ stats : Stats, getWithdrawalStats (found rows) = .data stats ∧
      stats.pendingAmount =
        sumNums (((rows.map WithdrawalRow.raw).filter (normalizesTo "Processing")).map
          contribution) ∧
      ((rows.map WithdrawalRow.raw).filter (normalizesTo "Processing") = [] →
        stats.pendingAmount = .fin 0) := by
  refine ⟨_, getWithdrawalStats_found rows, rfl, ?_⟩
  intro h
  simp only [h]
  rfl

/-- C6. For every collection of withdrawal rows the aggregator returns a result whose
completedAmount is the sum of the contributions (parsed amounts) of exactly the rows whose
status normalises to Completed; it is 0 when no row qualifies. -/
theorem getWithdrawalStats_completedAmount (rows : List WithdrawalRow) :
    ∃ stats : Stats, getWithdrawalStats (found rows) = .data stats ∧
      stats.completedAmount =
        sumNums (((rows.map WithdrawalRow.raw).filter (normalizesTo "Completed")).map
          contribution) ∧
      ((rows.map WithdrawalRow.raw).filter (normalizesTo "Completed") = [] →
        stats.completedAmount = .fin 0) := by
  refine ⟨_, getWithdrawalStats_found rows, rfl, ?_⟩
  intro h
  simp only [h]
  rfl

/-- C7. For every collection returned by the store, totalCount is the number of rows,
whatever their status and amount; for the empty collection and for null data the result is
totalCount 0, pendingAmount 0, completedAmount 0. -/
theorem getWithdrawalStats_totalCount (rows : List WithdrawalRow) :
    (∃ stats : Stats, getWithdrawalStats (found rows) = .data stats ∧
      stats.totalCount = rows.length) ∧
    getWithdrawalStats (found []) = .data ⟨0, .fin 0, .fin 0⟩ ∧
    getWithdrawalStats (.resolved none none) = .data ⟨0, .fin 0, .fin 0⟩ :=
  ⟨⟨_, getWithdrawalStats_found rows, rfl⟩, rfl, rfl⟩

/-- Adding zero on the right changes no number. -/
theorem JSNum.add_fin_zero (x : JSNum) : x.add (.fin 0) = x := by
  cases x <;> simp [JSNum.add]

/-- A number is `NaN` exactly when `isNaN` says so. -/
theorem JSNum.isNaN_iff (x : JSNum) : x.isNaN = true ↔ x = .nan := by
  cases x <;> simp [JSNum.isNaN]

/-- The contribution of a row is the specification's amount rule applied to its amount. -/
theorem contribution_eq_specAmount (item : RawRow) :
    contribution item = specAmount item.amount := by
  have hclass : (fun c => isDigit c || decide (c = '-') || decide (c = '.')) = inAmountClass := by
    funext c
    simp only [inAmountClass, Bool.or_assoc]
    rw [Bool.or_comm (decide (c = '-'))]
  unfold contribution specAmount
  cases h : item.amount <;>
    simp only [parseAmount, stripAmount, hclass] <;>
    (split <;> rename_i hn <;> simp_all [JSNum.isNaN_iff])

/-- C8. The reducer adds to the running bucket sum the row's contribution, which is: for a
textual amount the parse of the text with every character other than digits, minus sign and
decimal point removed; for any other amount its numeric conversion; and 0 whenever that
result is not a number. The text `$1,234.50` contributes 1234.5. Floating-point values are
modelled by exact rationals. -/
theorem addAmount_specAmount (sum : JSNum) (item : RawRow) (rows : List RawRow) :
    addAmount sum item = sum.add (specAmount item.amount) ∧
    sumAmounts rows = sumNums (rows.map (fun r => specAmount r.amount)) ∧
    specAmount (.str "$1,234.50") = .fin 1234.5 ∧
    specAmount (.str "n/a") = .fin 0 ∧
    specAmount .undefined = .fin 0 := by
  refine ⟨?_, ?_, ?_, ?_, ?_⟩
  · rw [← contribution_eq_specAmount]
    rfl
  · rw [sumAmounts_eq]
    congr 1
    exact List.map_congr_left (fun r _ => contribution_eq_specAmount r)
  · rw [← contribution_eq_specAmount ⟨.null, .str "$1,234.50", .null⟩]
    have hlit : parseFloatLit (stripAmount "$1,234.50") = .dec ⟨false, 123450, -2⟩ := by decide
    simp only [contribution, parseAmount, parseFloat, hlit, NumLit.toNum, Decimal.toRat,
      JSNum.isNaN]
    norm_num
  · rw [← contribution_eq_specAmount ⟨.null, .str "n/a", .null⟩]
    have hlit : parseFloatLit (stripAmount "n/a") = .nan := by decide
    simp only [contribution, parseAmount, parseFloat, hlit, NumLit.toNum, JSNum.isNaN, if_true]
  · rfl

/-- A summand 0 in the middle of a list does not change the sum. -/
theorem sumNums_insert_zero (xs ys : List JSNum) :
    sumNums (xs ++ JSNum.fin 0 :: ys) = sumNums (xs ++ ys) := by
  simp only [sumNums, List.foldl_append, List.foldl_cons, JSNum.add_fin_zero]

/-- Removing a row that contributes 0 from a bucket leaves the bucket's sum unchanged. -/
theorem bucket_sum_skip (keep : RawRow → Bool) (pre post : List RawRow) (bad : RawRow)
    (hbad : contribution bad = .fin 0) :
    sumNums (((pre ++ bad :: post).filter keep).map contribution) =
      sumNums (((pre ++ post).filter keep).map contribution) := by
  cases hk : keep bad
  · simp [List.filter_append, List.filter_cons, hk]
  · simp only [List.filter_append, List.filter_cons, hk, if_true, List.map_append,
      List.map_cons, hbad, sumNums_insert_zero]

/-- C9. A row whose amount cannot be parsed as a number contributes exactly 0 and does not
make the aggregator fail: with such a row anywhere in the collection the aggregator still
returns a data result, whose totalCount counts the row and whose pendingAmount and
completedAmount are those of the collection without it. On the collection of the
specification's example the result is totalCount 3, pendingAmount 10, completedAmount 20. -/
theorem getWithdrawalStats_unparsable_amount (pre post : List WithdrawalRow)
    (bad : WithdrawalRow) (hbad : (parseAmount bad.amount).isNaN = true) :
    contribution bad.raw = .fin 0 ∧
    (∃ withBad without : Stats,
      getWithdrawalStats (found (pre ++ bad :: post)) = .data withBad ∧
      getWithdrawalStats (found (pre ++ post)) = .data without ∧
      withBad.totalCount = without.totalCount + 1 ∧
      withBad.pendingAmount = without.pendingAmount ∧
      withBad.completedAmount = without.completedAmount) ∧
    getWithdrawalStats (found specExample) = .data ⟨3, .fin 10, .fin 20⟩ := by
  have hzero : contribution bad.raw = .fin 0 := by
    have hraw : bad.raw.amount = bad.amount := rfl
    simp only [contribution, hraw, hbad, if_true]
  refine ⟨hzero, ?_, ?_⟩
  · refine ⟨_, _, getWithdrawalStats_found _, getWithdrawalStats_found _, ?_, ?_, ?_⟩
    · simp only [List.length_append, List.length_cons]
      omega
    · simp only [List.map_append, List.map_cons]
      exact bucket_sum_skip _ _ _ _ hzero
    · simp only [List.map_append, List.map_cons]
      exact bucket_sum_skip _ _ _ _ hzero
  · rw [getWithdrawalStats_found]
    have hp : (specExample.map WithdrawalRow.raw).filter (normalizesTo "Processing") =
        [⟨.undefined, .str "$10.00", .str "Processing"⟩] := by decide
    have hc : (specExample.map WithdrawalRow.raw).filter (normalizesTo "Completed") =
        [⟨.undefined, .num (.fin 20), .str "Completed"⟩,
         ⟨.undefined, .str "bad", .str "Completed"⟩] := by decide
    have h10 : parseFloatLit (stripAmount "$10.00") = .dec ⟨false, 1000, -2⟩ := by decide
    have hnan : parseFloatLit (stripAmount "bad") = .nan := by decide
    have hlen : specExample.length = 3 := rfl
    rw [hp, hc, hlen]
    simp only [List.map_cons, List.map_nil, contribution, parseAmount, parseFloat, h10, hnan,
      toNumber, NumLit.toNum, Decimal.toRat, JSNum.isNaN, sumNums, List.foldl_cons,
      List.foldl_nil, JSNum.add]
    norm_num

/-- C9, at the specification's example: the third row, amount `bad`, is the unparsable one;
the result with it is that of the first two rows with the count raised by one. -/
theorem getWithdrawalStats_unparsable_amount_witness :
    (parseAmount (JSVal.str "bad")).isNaN = true ∧
    contribution (WithdrawalRow.raw ⟨.undefined, .str "bad", some "Completed"⟩) = .fin 0 ∧
    (∃ withBad without : Stats,
      getWithdrawalStats (found
        ([⟨.undefined, .str "$10.00", some "Processing"⟩,
          ⟨.undefined, .num (.fin 20), some "Completed"⟩] ++
          ⟨.undefined, .str "bad", some "Completed"⟩ :: [])) = .data withBad ∧
      getWithdrawalStats (found
        ([⟨.undefined, .str "$10.00", some "Processing"⟩,
          ⟨.undefined, .num (.fin 20), some "Completed"⟩] ++ [])) = .data without ∧
      withBad.totalCount = without.totalCount + 1 ∧
      withBad.pendingAmount = without.pendingAmount ∧
      withBad.completedAmount = without.completedAmount) ∧
    getWithdrawalStats (found specExample) = .data ⟨3, .fin 10, .fin 20⟩ :=
  ⟨by decide,
    getWithdrawalStats_unparsable_amount
      [⟨.undefined, .str "$10.00", some "Processing"⟩,
       ⟨.undefined, .num (.fin 20), some "Completed"⟩] []
      ⟨.undefined, .str "bad", some "Completed"⟩ (by decide)⟩

/-! ## Properties of the status normaliser -/

/-- C10. For every string whose lower-case form is one of pending, processing, completed,
rejected, processed (any mix of upper and lower case), `normalizeStatus` returns the
corresponding canonical label Pending, Processing, Completed, Rejected or Processed. -/
theorem normalizeStatus_vocabulary (s : String) (w : String × String)
    (hw : w ∈ vocabulary) (hs : toLowerCase s = w.1) :
    normalizeStatus (.str s) = .ok w.2 := by
  have hne : s ≠ "" := by
    rintro rfl
    revert hs
    simp only [vocabulary, List.mem_cons, List.mem_singleton, List.not_mem_nil, or_false] at hw
    rcases hw with rfl | rfl | rfl | rfl | rfl <;> decide
  simp only [vocabulary, List.mem_cons, List.mem_singleton, List.not_mem_nil, or_false] at hw
  rcases hw with rfl | rfl | rfl | rfl | rfl <;>
    simp only [normalizeStatus, JSVal.truthy, hne, ne_eq, not_false_eq_true, decide_True,
      Bool.not_true, Bool.false_eq_true, if_false, hs] <;> rfl

/-- C10, at the inputs named by the specification: `pending`, `PENDING` and `Pending` all
give Pending. -/
theorem normalizeStatus_vocabulary_witness :
    ("pending", "Pending") ∈ vocabulary ∧
    toLowerCase "PENDING" = "pending" ∧
    normalizeStatus (.str "PENDING") = .ok "Pending" ∧
    normalizeStatus (.str "pending") = .ok "Pending" ∧
    normalizeStatus (.str "Pending") = .ok "Pending" :=
  ⟨by decide, by decide,
    normalizeStatus_vocabulary "PENDING" ("pending", "Pending") (by decide) (by decide),
    normalizeStatus_vocabulary "pending" ("pending", "Pending") (by decide) (by decide),
    normalizeStatus_vocabulary "Pending" ("pending", "Pending") (by decide) (by decide)⟩

/-- C11. For every non-empty string whose lower-case form is none of the five vocabulary
words, `normalizeStatus` returns the string with only its first character upper-cased and
all remaining characters lower-cased. -/
theorem normalizeStatus_default (s : String) (hne : s ≠ "")
    (hvoc : ∀ w ∈ vocabulary, toLowerCase s ≠ w.1) :
    normalizeStatus (.str s) = .ok (capitalized s) := by
  have h1 := hvoc ("pending", "Pending") (by decide)
  have h2 := hvoc ("processing", "Processing") (by decide)
  have h3 := hvoc ("completed", "Completed") (by decide)
  have h4 := hvoc ("rejected", "Rejected") (by decide)
  have h5 := hvoc ("processed", "Processed") (by decide)
  simp only [normalizeStatus, JSVal.truthy, hne, ne_eq, not_false_eq_true, decide_True,
    Bool.not_true, Bool.false_eq_true, if_false, h1, h2, h3, h4, h5]
  obtain ⟨cs⟩ := s
  cases cs with
  | nil => exact absurd rfl hne
  | cons c cs => rfl

/-- C11, at the input of the specification: `banana` gives `Banana`; and a text in mixed
case keeps only its first letter in upper case. -/
theorem normalizeStatus_default_witness :
    "banana" ≠ "" ∧ (∀ w ∈ vocabulary, toLowerCase "banana" ≠ w.1) ∧
    normalizeStatus (.str "banana") = .ok (capitalized "banana") ∧
    capitalized "banana" = "Banana" ∧ capitalized "oN hOLD" = "On hold" :=
  ⟨by decide, by decide, normalizeStatus_default "banana" (by decide) (by decide),
    by decide, by decide⟩

/-- C12. On its input domain `normalizeStatus` is total: for every string it returns a
string and does not throw, and so it does for an absent value; for `undefined`, `null` and
the empty string the result is Unknown. -/
theorem normalizeStatus_total (s : String) :
    (∃ label : String, normalizeStatus (.str s) = .ok label) ∧
    normalizeStatus .undefined = .ok "Unknown" ∧
    normalizeStatus .null = .ok "Unknown" ∧
    normalizeStatus (.str "") = .ok "Unknown" := by
  refine ⟨?_, rfl, rfl, rfl⟩
  unfold normalizeStatus
  split
  · exact ⟨_, rfl⟩
  · simp only
    split_ifs <;> exact ⟨_, rfl⟩

/-- C13. Each of the five canonical labels Pending, Processing, Completed, Rejected and
Processed is returned unchanged by `normalizeStatus`. -/
theorem normalizeStatus_canonical (w : String × String) (hw : w ∈ vocabulary) :
    normalizeStatus (.str w.2) = .ok w.2 := by
  simp only [vocabulary, List.mem_cons, List.mem_singleton, List.not_mem_nil, or_false] at hw
  rcases hw with rfl | rfl | rfl | rfl | rfl <;> rfl

/-- C13, at the label Processed. -/
theorem normalizeStatus_canonical_witness :
    ("processed", "Processed") ∈ vocabulary ∧
    normalizeStatus (.str "Processed") = .ok "Processed" :=
  ⟨by decide, normalizeStatus_canonical ("processed", "Processed") (by decide)⟩

/-! ## What the lifecycle controller returns -/

/-- C15, as stated, fails when the store's error has an empty message: the result's error is
then the fixed text of `handleSupabaseError`, not what the store reported. -/
theorem updateWithdrawalStatus_error_not_unchanged :
    (updateWithdrawalStatus ⟨"t0", "t1"⟩ (fun _ => .resolved none (some ⟨.str ""⟩))
        (.str "w1") (some ⟨.str "Completed", .str "u1", .undefined, .undefined⟩)).1 =
      .error (.str "An error occurred with the database operation") ∧
    (updateWithdrawalStatus ⟨"t0", "t1"⟩ (fun _ => .resolved none (some ⟨.str ""⟩))
        (.str "w1") (some ⟨.str "Completed", .str "u1", .undefined, .undefined⟩)).1 ≠
      .error (.str "") := by
  decide

/-- C15, amended. For every non-empty (truthy) id the function issues exactly one update,
keyed by that id. When the store reports success with at least one row the result's data is
the first returned row. When the store reports an error the result's error is the message of
that error, or the fixed text `An error occurred with the database operation` when the
message is empty or missing. -/
theorem updateWithdrawalStatus_result (clock : Clock) (store : UpdateCall → StoreReply JSObj)
    (id : JSVal) (o : Options) (hid : id.truthy = true) :
    (updateWithdrawalStatus clock store id (some o)).2 =
        [⟨"withdrawal_requests", updateData clock o, "id", id⟩] ∧
    (∀ (row : JSObj) (rows : List JSObj),
      store ⟨"withdrawal_requests", updateData clock o, "id", id⟩ =
          .resolved (some (row :: rows)) none →
        (updateWithdrawalStatus clock store id (some o)).1 = .data (some row)) ∧
    (∀ (data : Option (List JSObj)) (e : ErrObj),
      store ⟨"withdrawal_requests", updateData clock o, "id", id⟩ = .resolved data (some e) →
        (updateWithdrawalStatus clock store id (some o)).1 =
          .error (if e.message.truthy then e.message
            else .str "An error occurred with the database operation")) := by
  refine ⟨updateWithdrawalStatus_calls clock store id o hid, ?_, ?_⟩
  · intro row rows h
    simp only [updateWithdrawalStatus, hid, Bool.not_true, Bool.false_eq_true, if_false, h]
  · intro data e h
    simp only [updateWithdrawalStatus, hid, Bool.not_true, Bool.false_eq_true, if_false, h,
      handleSupabaseError, JSVal.or]

/-- C15, amended, at a store that reports the error `permission denied` and at one that
returns two rows. -/
theorem updateWithdrawalStatus_result_witness :
    (JSVal.str "w1").truthy = true ∧
    (updateWithdrawalStatus ⟨"t0", "t1"⟩
        (fun _ => .resolved none (some ⟨.str "permission denied"⟩)) (.str "w1")
        (some ⟨.str "Processing", .str "u1", .undefined, .undefined⟩)) =
      (.error (.str "permission denied"),
        [⟨"withdrawal_requests", [("status", .str "Processing"), ("updated_at", .str "t0")],
          "id", .str "w1"⟩]) ∧
    (updateWithdrawalStatus ⟨"t0", "t1"⟩
        (fun _ => .resolved (some [[("id", .str "w1")], [("id", .str "w2")]]) none)
        (.str "w1") (some ⟨.str "Processing", .str "u1", .undefined, .undefined⟩)).1 =
      .data (some [("id", .str "w1")]) :=
  have h := updateWithdrawalStatus_result ⟨"t0", "t1"⟩
    (fun _ => .resolved none (some ⟨.str "permission denied"⟩)) (.str "w1")
    ⟨.str "Processing", .str "u1", .undefined, .undefined⟩ (by decide)
  ⟨by decide, Prod.ext (h.2.2 none ⟨.str "permission denied"⟩ rfl) h.1,
    (updateWithdrawalStatus_result ⟨"t0", "t1"⟩
      (fun _ => .resolved (some [[("id", .str "w1")], [("id", .str "w2")]]) none) (.str "w1")
      ⟨.str "Processing", .str "u1", .undefined, .undefined⟩ (by decide)).2.1 _ _ rfl⟩

/-! ## Properties of the service results -/

/-- The object `handleSupabaseError` returns has the key `error` and not the key `data`. -/
theorem Returned.handleSupabaseError_oneKey {α : Type} (t : Thrown) :
    (Returned.handleSupabaseError t : Returned α).oneKey = true := by
  cases t <;> rfl

/-- The object returned by `updateWithdrawalStatus` has exactly one of the two keys. -/
theorem Returned.updateWithdrawalStatus_oneKey (clock : Clock)
    (store : UpdateCall → StoreReply JSObj) (id : JSVal) (options : Option Options) :
    (Returned.updateWithdrawalStatus clock store id options).oneKey = true := by
  unfold Returned.updateWithdrawalStatus
  repeat' split
  all_goals first | rfl | exact Returned.handleSupabaseError_oneKey _

/-- The object returned by `updateUserStatus` has exactly one of the two keys. -/
theorem Returned.updateUserStatus_oneKey (now : String)
    (store : UpdateCall → StoreReply JSObj) (id status : JSVal) :
    (Returned.updateUserStatus now store id status).oneKey = true := by
  unfold Returned.updateUserStatus
  repeat' split
  all_goals first | rfl | exact Returned.handleSupabaseError_oneKey _

/-- The object returned by `getWithdrawalStats` has exactly one of the two keys. -/
theorem Returned.getWithdrawalStats_oneKey (reply : StoreReply RawRow) :
    (Returned.getWithdrawalStats reply).oneKey = true := by
  unfold Returned.getWithdrawalStats
  split
  · exact Returned.handleSupabaseError_oneKey _
  · split
    · exact Returned.handleSupabaseError_oneKey _
    · dsimp only
      split
      · exact Returned.handleSupabaseError_oneKey _
      · split
        · exact Returned.handleSupabaseError_oneKey _
        · rfl

/-- The object returned by a listing function with the join has exactly one of the two
keys. -/
theorem Returned.listWithUsers_oneKey (numberToString : JSNum → String)
    (store : SelectCall → SelectReply) (first : SelectCall) :
    (Returned.listWithUsers numberToString store first).oneKey = true := by
  unfold Returned.listWithUsers
  repeat' split
  all_goals first | rfl | exact Returned.handleSupabaseError_oneKey _

/-- The object returned by a listing function of the user service has exactly one of the two
keys. -/
theorem Returned.listUsers_oneKey (store : SelectCall → SelectReply) (call : SelectCall) :
    (Returned.listUsers store call).oneKey = true := by
  unfold Returned.listUsers
  repeat' split
  all_goals first | rfl | exact Returned.handleSupabaseError_oneKey _

/-- The object returned by a counting function has exactly one of the two keys. -/
theorem Returned.countRows_oneKey (store : SelectCall → SelectReply)
    (counting full : SelectCall) :
    (Returned.countRows store counting full).oneKey = true := by
  unfold Returned.countRows
  split
  · exact Returned.handleSupabaseError_oneKey _
  · split
    · exact Returned.handleSupabaseError_oneKey _
    · split
      · split
        · exact Returned.handleSupabaseError_oneKey _
        · split
          · exact Returned.handleSupabaseError_oneKey _
          · rfl
      · rfl

/-- The object returned by `getTotalDeposits` has exactly one of the two keys. -/
theorem Returned.getTotalDeposits_oneKey (store : SelectCall → SelectReply) :
    (Returned.getTotalDeposits store).oneKey = true := by
  unfold Returned.getTotalDeposits
  split
  · exact Returned.handleSupabaseError_oneKey _
  · split
    · exact Returned.handleSupabaseError_oneKey _
    · split <;> rfl

/-- The object `handleSupabaseError` returns is the one its outcome stands for. -/
theorem handleSupabaseError_toReturned {α : Type} (t : Thrown) :
    (handleSupabaseError t : Outcome α).toReturned = Returned.handleSupabaseError t := by
  cases t <;> rfl

/-- The returned objects are the ones the outcomes of the service functions stand for: the
two embeddings of each function agree, for every argument and every behaviour of the
store. -/
theorem returned_eq_toReturned (numberToString : JSNum → String)
    (select : SelectCall → SelectReply) (update : UpdateCall → StoreReply JSObj)
    (statsReply : StoreReply RawRow) (clock : Clock) (now : String)
    (id status limit : JSVal) (options : Option Options) (first counting full : SelectCall) :
    Returned.updateWithdrawalStatus clock update id options =
      (updateWithdrawalStatus clock update id options).1.toReturned ∧
    Returned.getWithdrawalStats statsReply = (getWithdrawalStats statsReply).toReturned ∧
    Returned.listWithUsers numberToString select first =
      (listWithUsers numberToString select first).1.toReturned ∧
    Returned.listUsers select first = (listUsers select first).1.toReturned ∧
    Returned.updateUserStatus now update id status =
      (updateUserStatus now update id status).1.toReturned ∧
    Returned.countRows select counting full = (countRows select counting full).1.toReturned ∧
    Returned.getTotalDeposits select = (getTotalDeposits select).1.toReturned ∧
    Returned.getWithdrawalRequests numberToString select =
      (getWithdrawalRequests numberToString select).1.toReturned ∧
    Returned.getWithdrawalRequestsByStatus numberToString select status =
      (getWithdrawalRequestsByStatus numberToString select status).1.toReturned ∧
    Returned.getRecentWithdrawals numberToString select limit =
      (getRecentWithdrawals numberToString select limit).1.toReturned ∧
    Returned.getAllUsers select = (getAllUsers select).1.toReturned ∧
    Returned.getUsersByStatus select status = (getUsersByStatus select status).1.toReturned ∧
    Returned.getUsersCount select = (getUsersCount select).1.toReturned ∧
    Returned.getProcessingWithdrawalsCount select =
      (getProcessingWithdrawalsCount select).1.toReturned := by
  have hlist : ∀ first : SelectCall, Returned.listWithUsers numberToString select first =
      (listWithUsers numberToString select first).1.toReturned := by
    intro first
    unfold Returned.listWithUsers listWithUsers
    cases select first with
    | thrown e => exact (handleSupabaseError_toReturned e).symm
    | resolved data error count =>
      cases error with
      | some e => exact (handleSupabaseError_toReturned _).symm
      | none =>
        dsimp only
        rcases hj : joinUsers numberToString select data with ⟨r, calls⟩
        cases r with
        | error e => exact (handleSupabaseError_toReturned _).symm
        | ok rows => rfl
  have husers : ∀ call : SelectCall, Returned.listUsers select call =
      (listUsers select call).1.toReturned := by
    intro call
    unfold Returned.listUsers listUsers
    cases select call with
    | thrown e => exact (handleSupabaseError_toReturned e).symm
    | resolved data error count =>
      cases error with
      | some e => exact (handleSupabaseError_toReturned _).symm
      | none => rfl
  have hcount : ∀ counting full : SelectCall, Returned.countRows select counting full =
      (countRows select counting full).1.toReturned := by
    intro counting full
    unfold Returned.countRows countRows
    cases select counting with
    | thrown e => exact (handleSupabaseError_toReturned e).symm
    | resolved data error count =>
      cases error with
      | some e => exact (handleSupabaseError_toReturned _).symm
      | none =>
        dsimp only
        split
        · cases select full with
          | thrown e => exact (handleSupabaseError_toReturned e).symm
          | resolved fullData fullError fullCount =>
            cases fullError with
            | some e => exact (handleSupabaseError_toReturned _).symm
            | none => rfl
        · rfl
  refine ⟨?_, ?_, hlist first, husers first, ?_, hcount counting full, ?_, hlist _, hlist _,
    hlist _, husers _, husers _, hcount _ _, hcount _ _⟩
  · cases options with
    | none => rfl
    | some o =>
      simp only [Returned.updateWithdrawalStatus, updateWithdrawalStatus]
      split
      · rfl
      · generalize update ⟨"withdrawal_requests", updateData clock o, "id", id⟩ = reply
        cases reply with
        | thrown e => exact (handleSupabaseError_toReturned e).symm
        | resolved data error =>
          cases error with
          | some e => exact (handleSupabaseError_toReturned _).symm
          | none =>
            cases data with
            | none => rfl
            | some rows => cases rows <;> rfl
  · unfold Returned.getWithdrawalStats getWithdrawalStats
    cases statsReply with
    | thrown e => exact (handleSupabaseError_toReturned e).symm
    | resolved data error =>
      cases error with
      | some e => exact (handleSupabaseError_toReturned _).symm
      | none =>
        dsimp only
        generalize (match data with
          | some rows => filterByStatus "processing" rows
          | none => Except.ok []) = processing
        cases processing with
        | error e => exact (handleSupabaseError_toReturned _).symm
        | ok processingData =>
          dsimp only
          generalize (match data with
            | some rows => filterByStatus "completed" rows
            | none => Except.ok []) = completed
          cases completed with
          | error e => exact (handleSupabaseError_toReturned _).symm
          | ok completedData => rfl
  · simp only [Returned.updateUserStatus, updateUserStatus]
    split
    · rfl
    · generalize update ⟨"users", [("status", status), ("updated_at", .str now)], "id", id⟩ =
        reply
      cases reply with
      | thrown e => exact (handleSupabaseError_toReturned e).symm
      | resolved data error =>
        cases error with
        | some e => exact (handleSupabaseError_toReturned _).symm
        | none =>
          cases data with
          | none => rfl
          | some rows => cases rows <;> rfl
  · simp only [Returned.getTotalDeposits, getTotalDeposits]
    generalize select ⟨"transaction_history", "amount", false,
      some ("transaction_type", .str "deposit"), none, none, none⟩ = reply
    cases reply with
    | thrown e => exact (handleSupabaseError_toReturned e).symm
    | resolved data error count =>
      cases error with
      | some e => exact (handleSupabaseError_toReturned _).symm
      | none => cases data <;> rfl

/-- C19. Every result returned by a service function carries exactly one of the keys `data`
and `error`, never both and never neither: this holds of the object returned by
`getWithdrawalRequests`, `getWithdrawalRequestsByStatus`, `updateWithdrawalStatus`,
`getWithdrawalStats`, by the user service (`getAllUsers`, `getUsersByStatus`,
`updateUserStatus`, `getUsersCount`) and by the transaction service (`getTotalDeposits`,
`getProcessingWithdrawalsCount`, `getRecentWithdrawals`), for every argument and every
behaviour of the store, and of the object `handleSupabaseError` returns. Both kinds of object
are returned: an empty deposit table gives `{ data }`, and a store error, a thrown error and a
missing id give `{ error }`. -/
theorem service_results_one_key (numberToString : JSNum → String)
    (select : SelectCall → SelectReply) (update : UpdateCall → StoreReply JSObj)
    (statsReply : StoreReply RawRow) (clock : Clock) (now : String)
    (id status limit : JSVal) (options : Option Options) (thrown : Thrown) :
    (Returned.getWithdrawalRequests numberToString select).oneKey = true ∧
    (Returned.getWithdrawalRequestsByStatus numberToString select status).oneKey = true ∧
    (Returned.updateWithdrawalStatus clock update id options).oneKey = true ∧
    (Returned.getWithdrawalStats statsReply).oneKey = true ∧
    (Returned.getAllUsers select).oneKey = true ∧
    (Returned.getUsersByStatus select status).oneKey = true ∧
    (Returned.updateUserStatus now update id status).oneKey = true ∧
    (Returned.getUsersCount select).oneKey = true ∧
    (Returned.getTotalDeposits select).oneKey = true ∧
    (Returned.getProcessingWithdrawalsCount select).oneKey = true ∧
    (Returned.getRecentWithdrawals numberToString select limit).oneKey = true ∧
    (Returned.handleSupabaseError thrown : Returned Unit).oneKey = true ∧
    Returned.getTotalDeposits (fun _ => .resolved none none .null) =
      .ok ⟨some (.fin 0), none⟩ ∧
    Returned.getUsersCount (fun _ => .resolved none (some ⟨.str "timeout"⟩) .null) =
      .ok ⟨none, some (.str "timeout")⟩ ∧
    Returned.getAllUsers (fun _ => .thrown (some ⟨.str "network"⟩)) =
      .ok ⟨none, some (.str "network")⟩ ∧
    Returned.updateWithdrawalStatus clock update (.str "")
        (some ⟨.str "Completed", .undefined, .undefined, .undefined⟩) =
      .ok ⟨none, some (.str "Withdrawal ID is required")⟩ :=
  ⟨Returned.listWithUsers_oneKey _ _ _, Returned.listWithUsers_oneKey _ _ _,
    Returned.updateWithdrawalStatus_oneKey _ _ _ _, Returned.getWithdrawalStats_oneKey _,
    Returned.listUsers_oneKey _ _, Returned.listUsers_oneKey _ _,
    Returned.updateUserStatus_oneKey _ _ _ _, Returned.countRows_oneKey _ _ _,
    Returned.getTotalDeposits_oneKey _, Returned.countRows_oneKey _ _ _,
    Returned.listWithUsers_oneKey _ _ _, Returned.handleSupabaseError_oneKey _,
    rfl, rfl, rfl, rfl⟩

/-! ## Properties of the withdrawals page -/

/-- An error result of `updateWithdrawalStatus` always has a truthy `error`. -/
theorem updateWithdrawalStatus_error_truthy (clock : Clock)
    (store : UpdateCall → StoreReply JSObj) (id : JSVal) (options : Option Options)
    (e : JSVal) (h : (updateWithdrawalStatus clock store id options).1 = .error e) :
    e.truthy = true := by
  have hsup : ∀ (t : Thrown) (e : JSVal),
      (handleSupabaseError t : Outcome (Option JSObj)) = .error e → e.truthy = true := by
    intro t e ht
    cases t with
    | none => simp [handleSupabaseError] at ht
    | some err =>
      simp only [handleSupabaseError, Outcome.error.injEq] at ht
      subst ht
      unfold JSVal.or
      split
      · assumption
      · decide
  unfold updateWithdrawalStatus at h
  cases options with
  | none => simp at h
  | some o =>
    simp only at h
    split at h
    · simp only [Outcome.error.injEq] at h
      subst h
      decide
    · split at h
      · exact hsup _ _ h
      · split at h
        · dsimp only at h
          exact hsup _ _ h
        · split at h <;> simp at h

/-- With a non-empty id and one of the three actions, `handleAction` makes exactly one update
call, the first thing it does, and the call carries the target status of the action. -/
theorem handleAction_sends (b : Backend) (s : ViewState) (id : JSVal)
    (hid : id.truthy = true) (name target : String)
    (hst : actionStatus (.str name) = .str target) (hne : target ≠ "") :
    sentStatuses (handleAction b s id (.str name)).2 = [.str target] ∧
    (handleAction b s id (.str name)).2.head? =
      some (.updateWithdrawalStatus id (actionOptions b (.str name))) := by
  have htr : (actionStatus (.str name)).truthy = true := by
    rw [hst]; simp [JSVal.truthy, hne]
  have hopt : (actionOptions b (.str name)).status = .str target := hst
  simp only [handleAction, hid, htr, Bool.not_true, Bool.false_eq_true, if_false]
  split
  · simp [sentStatuses, hopt]
  · split <;> simp [sentStatuses, hopt]
  · simp [sentStatuses, hopt]

/-- C16. With a non-empty id, `handleAction` first calls `updateWithdrawalStatus` with target
status Processing for the action Process, Completed for Approve and Rejected for Reject, and
`handleMarkAsProcessed` with target status Processed. For every other action, and for every
action with an empty id, `handleAction` only shows a notification: it makes no update call and
leaves the state as it is. -/
theorem handlers_target_status (b : Backend) (s : ViewState) (id : JSVal)
    (hid : id.truthy = true) :
    sentStatuses (handleAction b s id (.str "Process")).2 = [.str "Processing"] ∧
    sentStatuses (handleAction b s id (.str "Approve")).2 = [.str "Completed"] ∧
    sentStatuses (handleAction b s id (.str "Reject")).2 = [.str "Rejected"] ∧
    sentStatuses (handleMarkAsProcessed b s id).2 = [.str "Processed"] ∧
    (handleAction b s id (.str "Process")).2.head? =
      some (.updateWithdrawalStatus id (actionOptions b (.str "Process"))) ∧
    (∀ action : JSVal,
      action ≠ .str "Process" → action ≠ .str "Approve" → action ≠ .str "Reject" →
        handleAction b s id action = (s, [.alert "Invalid action"])) ∧
    (∀ empty action : JSVal, empty.truthy = false →
      handleAction b s empty action = (s, [.alert "Invalid withdrawal ID"])) := by
  have hact := handleAction_sends b s id hid
  refine ⟨(hact "Process" "Processing" rfl (by decide)).1,
    (hact "Approve" "Completed" rfl (by decide)).1,
    (hact "Reject" "Rejected" rfl (by decide)).1, ?_,
    (hact "Process" "Processing" rfl (by decide)).2, ?_, ?_⟩
  · have hopt : (processedOptions b).status = .str "Processed" := rfl
    simp only [handleMarkAsProcessed, hid, Bool.not_true, Bool.false_eq_true, if_false]
    split
    · simp [sentStatuses, hopt]
    · split <;> simp [sentStatuses, hopt]
    · simp [sentStatuses, hopt]
  · intro action h1 h2 h3
    have hst : (actionStatus action).truthy = false := by
      simp only [actionStatus, h1, h2, h3, if_false]
      rfl
    simp only [handleAction, hid, hst, Bool.not_true, Bool.false_eq_true, if_false,
      Bool.not_false, if_true]
  · intro empty action hempty
    simp [handleAction, hempty]

/-- C16, at the row id w1 and a store that accepts the update: the effects of the four
handlers and of an unknown action. -/
theorem handlers_target_status_witness :
    (JSVal.str "w1").truthy = true ∧
    sentStatuses (handleAction
      ⟨⟨"t0", "t1"⟩, "t", fun _ => "0", fun _ => .resolved (some [[]]) none,
        fun _ => .resolved none none .null, .resolved none none⟩
      ⟨[], false, .null, "All", ⟨0, .fin 0, .fin 0⟩⟩ (.str "w1") (.str "Approve")).2 =
      [.str "Completed"] ∧
    (handleAction
      ⟨⟨"t0", "t1"⟩, "t", fun _ => "0", fun _ => .resolved (some [[]]) none,
        fun _ => .resolved none none .null, .resolved none none⟩
      ⟨[], false, .null, "All", ⟨0, .fin 0, .fin 0⟩⟩ (.str "w1") (.str "Delete")).2 =
      [.alert "Invalid action"] :=
  have h := handlers_target_status
    ⟨⟨"t0", "t1"⟩, "t", fun _ => "0", fun _ => .resolved (some [[]]) none,
      fun _ => .resolved none none .null, .resolved none none⟩
    ⟨[], false, .null, "All", ⟨0, .fin 0, .fin 0⟩⟩ (.str "w1") (by decide)
  ⟨by decide, h.2.1,
    congrArg Prod.snd (h.2.2.2.2.2.1 (.str "Delete") (by decide) (by decide) (by decide))⟩

/-- C17. For every displayed row, with `label` its normalised status: the actions cell is the
one rendered for `label`; the Mark as Processed button is in it exactly when `label` is
neither Pending nor Processed; and each of the Process, Approve and Reject buttons is in it
exactly when `label` is Pending. -/
theorem renderActions_offers (withdrawal : JoinedRow) (label : String)
    (h : normalizeStatus (withdrawal.row.prop "status") = .ok label) :
    renderActions withdrawal = .ok (actionsCell label) ∧
    (CellItem.button "Mark as Processed" .markAsProcessed ∈ actionsCell label ↔
      (label ≠ "Pending" ∧ label ≠ "Processed")) ∧
    (CellItem.button "Process" (.action "Process") ∈ actionsCell label ↔ label = "Pending") ∧
    (CellItem.button "Approve" (.action "Approve") ∈ actionsCell label ↔ label = "Pending") ∧
    (CellItem.button "Reject" (.action "Reject") ∈ actionsCell label ↔ label = "Pending") ∧
    (∀ (text : String) (c : Click), CellItem.button text c ∈ actionsCell label →
      (c = .markAsProcessed ∧ label ≠ "Pending" ∧ label ≠ "Processed") ∨
      ((c = .action "Process" ∨ c = .action "Approve" ∨ c = .action "Reject") ∧
        label = "Pending")) := by
  refine ⟨by simp only [renderActions, h], ?_, ?_, ?_, ?_, ?_⟩
  · by_cases h1 : label = "Pending"
    · subst h1; decide
    · by_cases h2 : label = "Processed"
      · subst h2; decide
      · simp [actionsCell, h1, h2]
  · by_cases h1 : label = "Pending"
    · subst h1; decide
    · by_cases h2 : label = "Processed" <;> simp [actionsCell, h1, h2]
  · by_cases h1 : label = "Pending"
    · subst h1; decide
    · by_cases h2 : label = "Processed" <;> simp [actionsCell, h1, h2]
  · by_cases h1 : label = "Pending"
    · subst h1; decide
    · by_cases h2 : label = "Processed" <;> simp [actionsCell, h1, h2]
  · intro text c hmem
    by_cases h1 : label = "Pending"
    · subst h1
      have hcell : actionsCell "Pending" =
          [.button "Process" (.action "Process"), .button "Approve" (.action "Approve"),
           .button "Reject" (.action "Reject")] := by decide
      rw [hcell] at hmem
      simp only [List.mem_cons, CellItem.button.injEq, List.mem_singleton,
        List.not_mem_nil, or_false] at hmem
      right
      refine ⟨?_, rfl⟩
      rcases hmem with ⟨_, hc⟩ | ⟨_, hc⟩ | ⟨_, hc⟩
      · exact Or.inl hc
      · exact Or.inr (Or.inl hc)
      · exact Or.inr (Or.inr hc)
    · by_cases h2 : label = "Processed"
      · subst h2
        simp [actionsCell] at hmem
      · simp only [actionsCell, h1, h2, if_false, ne_eq, not_false_eq_true, and_self, if_true,
          List.nil_append, List.append_nil, List.mem_singleton, CellItem.button.injEq] at hmem
        exact Or.inl ⟨hmem.2, h1, h2⟩

/-- C17, at rows whose status is null (shown as Unknown), Processing, an unrecognised text
and Pending. -/
theorem renderActions_offers_witness :
    normalizeStatus ((⟨[("id", .str "w1"), ("status", .null)], none⟩ : JoinedRow).row.prop
      "status") = .ok "Unknown" ∧
    renderActions ⟨[("id", .str "w1"), ("status", .null)], none⟩ =
      .ok [.button "Mark as Processed" .markAsProcessed] ∧
    renderActions ⟨[("status", .str "processing")], none⟩ =
      .ok [.button "Mark as Processed" .markAsProcessed] ∧
    renderActions ⟨[("status", .str "on hold")], none⟩ =
      .ok [.button "Mark as Processed" .markAsProcessed] ∧
    renderActions ⟨[("status", .str "PENDING")], none⟩ =
      .ok [.button "Process" (.action "Process"), .button "Approve" (.action "Approve"),
        .button "Reject" (.action "Reject")] :=
  ⟨by decide,
    (renderActions_offers ⟨[("id", .str "w1"), ("status", .null)], none⟩ "Unknown"
      (by decide)).1,
    by decide, by decide, by decide⟩

/-- C18. For a row whose normalised status is Processed the actions cell holds no button,
only the label `Fully processed`; so no step of the page starts from that status, and every
sequence of steps from it ends with the status unchanged. -/
theorem processed_terminal (b : Backend) (status : JSVal)
    (h : normalizeStatus status = .ok "Processed") :
    actionsCell "Processed" = [.label "Fully processed"] ∧
    (∀ status' : JSVal, ¬ uiStep b status status') ∧
    (∀ status' : JSVal, Relation.ReflTransGen (uiStep b) status status' → status' = status) := by
  have hno : ∀ status' : JSVal, ¬ uiStep b status status' := by
    rintro status' ⟨label, text, c, s, id, hl, hmem, _⟩
    rw [h] at hl
    injection hl with hl
    subst hl
    simp [actionsCell] at hmem
  refine ⟨by decide, hno, ?_⟩
  intro status' hsteps
  induction hsteps with
  | refl => rfl
  | tail _ hlast ih =>
    subst ih
    exact absurd hlast (hno _)

/-- C18, at the stored status `processed`; next to it, a step that does exist: from Pending
the Process button leads to Processing. -/
theorem processed_terminal_witness :
    normalizeStatus (.str "processed") = .ok "Processed" ∧
    (∀ status' : JSVal, Relation.ReflTransGen
      (uiStep ⟨⟨"t0", "t1"⟩, "t", fun _ => "0", fun _ => .resolved (some [[]]) none,
        fun _ => .resolved none none .null, .resolved none none⟩)
      (.str "processed") status' → status' = .str "processed") ∧
    uiStep ⟨⟨"t0", "t1"⟩, "t", fun _ => "0", fun _ => .resolved (some [[]]) none,
        fun _ => .resolved none none .null, .resolved none none⟩
      (.str "Pending") (.str "Processing") :=
  ⟨by decide,
    (processed_terminal ⟨⟨"t0", "t1"⟩, "t", fun _ => "0", fun _ => .resolved (some [[]]) none,
      fun _ => .resolved none none .null, .resolved none none⟩ (.str "processed")
      (by decide)).2.2,
    ⟨"Pending", "Process", .action "Process", ⟨[], false, .null, "All", ⟨0, .fin 0, .fin 0⟩⟩,
      .str "w1", by decide, by decide, by
        have hs := (handleAction_sends
          ⟨⟨"t0", "t1"⟩, "t", fun _ => "0", fun _ => .resolved (some [[]]) none,
            fun _ => .resolved none none .null, .resolved none none⟩
          ⟨[], false, .null, "All", ⟨0, .fin 0, .fin 0⟩⟩ (.str "w1") (by decide)
          "Process" "Processing" rfl (by decide)).1
        show JSVal.str "Processing" ∈ sentStatuses (handleAction _ _ _ _).2
        rw [hs]
        exact List.mem_singleton.mpr rfl⟩⟩

/-- C20. When `updateWithdrawalStatus`, called by `handleAction` or `handleMarkAsProcessed`
for a non-empty id, returns an error result, the handler leaves the whole state of the page
as it was (withdrawals list, stats, error banner and loading flag) and, after the update
call, does one thing only: it shows the notification `Error: ` followed by the error; no
re-fetch is started. -/
theorem transition_error_keeps_state (b : Backend) (s : ViewState) (id e : JSVal)
    (hid : id.truthy = true) :
    (∀ action : JSVal, (actionStatus action).truthy = true →
      (updateWithdrawalStatus b.clock b.update id (some (actionOptions b action))).1 =
          .error e →
        handleAction b s id action =
          (s, [.updateWithdrawalStatus id (actionOptions b action),
            .alert ("Error: " ++ toText b.numberToString e)])) ∧
    ((updateWithdrawalStatus b.clock b.update id (some (processedOptions b))).1 = .error e →
      handleMarkAsProcessed b s id =
        (s, [.updateWithdrawalStatus id (processedOptions b),
          .alert ("Error: " ++ toText b.numberToString e)])) := by
  constructor
  · intro action hact herr
    have he := updateWithdrawalStatus_error_truthy _ _ _ _ _ herr
    simp only [handleAction, hid, hact, Bool.not_true, Bool.false_eq_true, if_false, herr, he,
      if_true]
  · intro herr
    have he := updateWithdrawalStatus_error_truthy _ _ _ _ _ herr
    simp only [handleMarkAsProcessed, hid, Bool.not_true, Bool.false_eq_true, if_false, herr,
      he, if_true]

/-- C20, at a page showing one row and a store that answers every update with the error
`permission denied`: after Approve and after Mark as Processed the state is the one before. -/
theorem transition_error_keeps_state_witness :
    (JSVal.str "w1").truthy = true ∧
    handleAction
      ⟨⟨"t0", "t1"⟩, "t", fun _ => "0",
        fun _ => .resolved none (some ⟨.str "permission denied"⟩),
        fun _ => .resolved (some []) none .null, .resolved (some []) none⟩
      ⟨[⟨[("id", .str "w1"), ("status", .str "Pending")], none⟩], false, .null, "All",
        ⟨1, .fin 0, .fin 0⟩⟩ (.str "w1") (.str "Approve") =
      (⟨[⟨[("id", .str "w1"), ("status", .str "Pending")], none⟩], false, .null, "All",
        ⟨1, .fin 0, .fin 0⟩⟩,
       [.updateWithdrawalStatus (.str "w1")
          ⟨.str "Completed", .str "current-user-id", .undefined,
            .str "Approved by admin on t"⟩,
        .alert "Error: permission denied"]) ∧
    handleMarkAsProcessed
      ⟨⟨"t0", "t1"⟩, "t", fun _ => "0",
        fun _ => .resolved none (some ⟨.str "permission denied"⟩),
        fun _ => .resolved (some []) none .null, .resolved (some []) none⟩
      ⟨[⟨[("id", .str "w1"), ("status", .str "Pending")], none⟩], false, .null, "All",
        ⟨1, .fin 0, .fin 0⟩⟩ (.str "w1") =
      (⟨[⟨[("id", .str "w1"), ("status", .str "Pending")], none⟩], false, .null, "All",
        ⟨1, .fin 0, .fin 0⟩⟩,
       [.updateWithdrawalStatus (.str "w1")
          ⟨.str "Processed", .str "current-user-id", .undefined,
            .str "Marked as processed by admin on t"⟩,
        .alert "Error: permission denied"]) :=
  have h := transition_error_keeps_state
    ⟨⟨"t0", "t1"⟩, "t", fun _ => "0",
      fun _ => .resolved none (some ⟨.str "permission denied"⟩),
      fun _ => .resolved (some []) none .null, .resolved (some []) none⟩
    ⟨[⟨[("id", .str "w1"), ("status", .str "Pending")], none⟩], false, .null, "All",
      ⟨1, .fin 0, .fin 0⟩⟩ (.str "w1") (.str "permission denied") (by decide)
  ⟨by decide, h.1 (.str "Approve") (by decide) (by decide), h.2 (by decide)⟩

/-- A successful transition, for contrast with C20: the handler starts both re-fetches and the
state becomes the refreshed one. -/
theorem handleAction_success_refreshes (b : Backend) (s : ViewState) (id action : JSVal)
    (row : Option JSObj) (hid : id.truthy = true)
    (hact : (actionStatus action).truthy = true)
    (hok : (updateWithdrawalStatus b.clock b.update id (some (actionOptions b action))).1 =
      .data row) :
    (handleAction b s id action).1 = refresh b s ∧
    PageEffect.fetchWithdrawals ∈ (handleAction b s id action).2 ∧
    PageEffect.fetchStats ∈ (handleAction b s id action).2 := by
  simp only [handleAction, hid, hact, Bool.not_true, Bool.false_eq_true, if_false, hok]
  simp

/-! ## Formatting a currency amount and parsing it back -/

/-- Digit characters are characters of the amount class; they are no white space and none of
the characters that start a sign, a fraction or the word `Infinity`. -/
theorem isDigit_facts (c : Char) (h : isDigit c = true) :
    inAmountClass c = true ∧ isStrWhiteSpace c = false ∧ c ≠ '+' ∧ c ≠ '-' ∧ c ≠ '.' ∧
      c ≠ 'I' := by
  simp only [isDigit, decide_eq_true_eq] at h
  refine ⟨by simp [inAmountClass, isDigit, h], ?_, ?_, ?_, ?_, ?_⟩
  · simp only [isStrWhiteSpace, decide_eq_false_iff_not]
    omega
  all_goals
    rintro rfl
    revert h
    decide

/-- The character of a digit below ten is a digit character with that value. -/
theorem digitChar_spec (d : Nat) (h : d < 10) :
    isDigit (digitChar d) = true ∧ (digitChar d).toNat - 48 = d := by
  interval_cases d <;> exact ⟨by decide, by decide⟩

/-- Appending one digit to a run multiplies its value by ten and adds the digit. -/
theorem digitsVal_append_singleton (ds : List Char) (c : Char) :
    digitsVal (ds ++ [c]) = 10 * digitsVal ds + (c.toNat - 48) := by
  simp [digitsVal, List.foldl_append]

/-- With enough fuel the digits of `n` are digit characters, at least one, and their value
is `n`. -/
theorem natDigitsFuel_spec (fuel : Nat) :
    ∀ n : Nat, n < fuel →
      (∀ c ∈ natDigitsFuel fuel n, isDigit c = true) ∧ natDigitsFuel fuel n ≠ [] ∧
        digitsVal (natDigitsFuel fuel n) = n := by
  induction fuel with
  | zero => intro n h; omega
  | succ fuel ih =>
    intro n hn
    unfold natDigitsFuel
    by_cases hlt : n < 10
    · simp only [hlt, if_true]
      have hd := digitChar_spec n hlt
      refine ⟨?_, by simp, ?_⟩
      · intro c hc
        rw [List.mem_singleton] at hc
        rw [hc]; exact hd.1
      · have := digitsVal_append_singleton [] (digitChar n)
        simp only [List.nil_append] at this
        rw [this, hd.2]
        simp [digitsVal]
    · simp only [hlt, if_false]
      have hrec := ih (n / 10) (by omega)
      have hd := digitChar_spec (n % 10) (by omega)
      refine ⟨?_, by simp, ?_⟩
      · intro c hc
        rw [List.mem_append, List.mem_singleton] at hc
        rcases hc with hc | hc
        · exact hrec.1 c hc
        · rw [hc]; exact hd.1
      · rw [digitsVal_append_singleton, hrec.2.2, hd.2]
        omega

/-- The digits of a natural number: digit characters, at least one, with the number as
value. -/
theorem natDigits_spec (n : Nat) :
    (∀ c ∈ natDigits n, isDigit c = true) ∧ natDigits n ≠ [] ∧ digitsVal (natDigits n) = n :=
  natDigitsFuel_spec (n + 1) n (by omega)

/-- Stripping removes the commas put between the digits and nothing else. -/
theorem filter_groupRev (l : List Char) (hl : ∀ c ∈ l, isDigit c = true) :
    ∀ k : Nat, (groupRev k l).filter inAmountClass = l := by
  induction l with
  | nil => intro k; rfl
  | cons c cs ih =>
    intro k
    have hc := (isDigit_facts c (hl c (List.mem_cons_self c cs))).1
    have hcs : ∀ d ∈ cs, isDigit d = true := fun d hd => hl d (List.mem_cons_of_mem c hd)
    have hcomma : inAmountClass ',' = false := by decide
    unfold groupRev
    by_cases hk : k = 3
    · simp only [hk, if_true, List.filter_cons, hcomma, hc, ih hcs 1]
      simp
    · simp only [hk, if_false, List.filter_cons, hc, if_true, ih hcs (k + 1)]

/-- Stripping the grouped integer digits gives the digits back. -/
theorem filter_groupThousands (ds : List Char) (hds : ∀ c ∈ ds, isDigit c = true) :
    (groupThousands ds).filter inAmountClass = ds := by
  unfold groupThousands
  rw [List.filter_reverse, filter_groupRev ds.reverse (by simpa using hds) 0,
    List.reverse_reverse]

/-- A run of digits, a decimal point and two more digits is read as one decimal literal with
two fraction digits, and nothing is left unread. -/
theorem scanDecimal_fixed2 (ds : List Char) (d1 d0 : Char) (hds : ∀ c ∈ ds, isDigit c = true)
    (hne : ds ≠ []) (h1 : isDigit d1 = true) (h0 : isDigit d0 = true) :
    scanDecimal (ds ++ ['.', d1, d0]) =
      (.dec ⟨false, digitsVal (ds ++ [d1, d0]), -2⟩, []) := by
  have hdot : isDigit '.' = false := by decide
  have htake : (ds ++ ['.', d1, d0]).takeWhile isDigit = ds := by
    rw [List.takeWhile_append_of_pos hds]
    simp [hdot]
  have hdrop : (ds ++ ['.', d1, d0]).dropWhile isDigit = ['.', d1, d0] := by
    rw [List.dropWhile_append_of_pos hds]
    simp [hdot]
  have hunsigned : scanUnsigned false (ds ++ ['.', d1, d0]) =
      (.dec ⟨false, digitsVal (ds ++ [d1, d0]), -2⟩, []) := by
    have hinf : "Infinity".data.isPrefixOf (ds ++ ['.', d1, d0]) = false := by
      cases ds with
      | nil => exact absurd rfl hne
      | cons c cs =>
        have hc := (isDigit_facts c (hds c (List.mem_cons_self c cs))).2.2.2.2.2
        show (('I' == c) && _) = false
        have : ('I' == c) = false := by
          rw [beq_eq_false_iff_ne]
          exact fun h => hc h.symm
        rw [this]
        rfl
    have hds' : ds.isEmpty = false := by
      cases ds with
      | nil => exact absurd rfl hne
      | cons c cs => rfl
    unfold scanUnsigned
    simp only [hinf, Bool.false_eq_true, if_false, htake, hdrop, List.takeWhile_cons, h1, h0,
      if_true, List.takeWhile_nil, List.dropWhile_cons, List.dropWhile_nil, hds',
      List.isEmpty_cons, and_self, List.length_cons, List.length_nil]
    rfl
  cases ds with
  | nil => exact absurd rfl hne
  | cons c cs =>
    have hc := isDigit_facts c (hds c (List.mem_cons_self c cs))
    rw [← hunsigned]
    simp only [List.cons_append]
    unfold scanDecimal
    split
    · rename_i heq
      injection heq with heq _
      exact absurd heq hc.2.2.1
    · rename_i heq
      injection heq with heq _
      exact absurd heq hc.2.2.2.1
    · rfl

/-- The text of a non-negative amount of `cents` hundredths parses, by the aggregator's
rule, to that many hundredths. -/
theorem parseAmount_formatUSD (cents : Nat) :
    parseAmount (.str (formatUSD false cents)) = .fin ((cents : ℚ) / 100) := by
  obtain ⟨hds, hne, hval⟩ := natDigits_spec (cents / 100)
  obtain ⟨h1, v1⟩ := digitChar_spec (cents % 100 / 10) (by omega)
  obtain ⟨h0, v0⟩ := digitChar_spec (cents % 10) (by omega)
  have hdollar : inAmountClass '$' = false := by decide
  have hdotc : inAmountClass '.' = true := by decide
  have hstrip : stripAmount (formatUSD false cents) =
      String.mk (natDigits (cents / 100) ++
        ['.', digitChar (cents % 100 / 10), digitChar (cents % 10)]) := by
    simp only [stripAmount, formatUSD, Bool.false_eq_true, if_false, List.nil_append,
      List.cons_append, List.filter_cons, hdollar, List.filter_append,
      filter_groupThousands _ hds, hdotc, if_true, (isDigit_facts _ h1).1,
      (isDigit_facts _ h0).1, List.filter_nil]
  have hws : (natDigits (cents / 100) ++
      ['.', digitChar (cents % 100 / 10), digitChar (cents % 10)]).dropWhile isStrWhiteSpace =
      natDigits (cents / 100) ++
        ['.', digitChar (cents % 100 / 10), digitChar (cents % 10)] := by
    cases hd : natDigits (cents / 100) with
    | nil => exact absurd hd hne
    | cons c cs =>
      have hc := (isDigit_facts c (hds c (by rw [hd]; exact List.mem_cons_self c cs))).2.1
      simp [List.dropWhile_cons, hc]
  have hvalue : digitsVal (natDigits (cents / 100) ++
      [digitChar (cents % 100 / 10), digitChar (cents % 10)]) = cents := by
    have e : natDigits (cents / 100) ++
        [digitChar (cents % 100 / 10), digitChar (cents % 10)] =
        (natDigits (cents / 100) ++ [digitChar (cents % 100 / 10)]) ++
          [digitChar (cents % 10)] := by simp
    rw [e, digitsVal_append_singleton, digitsVal_append_singleton, hval, v1, v0]
    omega
  simp only [parseAmount, parseFloat, parseFloatLit, hstrip, hws,
    scanDecimal_fixed2 _ _ _ hds hne h1 h0, hvalue, NumLit.toNum, Decimal.toRat,
    Bool.false_eq_true, if_false]
  congr 1
  rw [zpow_neg]
  norm_num
  ring

/-- On a non-negative number `formatCurrency` prints the rounded amount of cents, unsigned. -/
theorem formatCurrency_nonneg (q : ℚ) (hq : 0 ≤ q) :
    formatCurrency (.num (.fin q)) = formatUSD false (roundCents q) := by
  have hneg : decide (q < 0) = false := by
    rw [decide_eq_false_iff_not]
    exact not_lt.mpr hq
  simp [formatCurrency, toNumber, intlFormatUSD, hneg]

/-- Formatting a non-negative amount and parsing the text back gives the amount rounded to
cents. -/
theorem parseAmount_formatCurrency (q : ℚ) (hq : 0 ≤ q) :
    parseAmount (.str (formatCurrency (.num (.fin q)))) = .fin ((roundCents q : ℚ) / 100) := by
  rw [formatCurrency_nonneg q hq, parseAmount_formatUSD]

/-- A whole number of cents is its own rounding. -/
theorem roundCents_of_cents (n : Nat) : roundCents ((n : ℚ) / 100) = n := by
  have habs : |(n : ℚ) / 100| = (n : ℚ) / 100 := abs_of_nonneg (by positivity)
  have hfloor : Int.floor ((n : ℚ) / 100 * 100 + 1 / 2) = (n : ℤ) := by
    rw [Int.floor_eq_iff]
    constructor
    · push_cast
      linarith [div_mul_cancel₀ (n : ℚ) (by norm_num : (100 : ℚ) ≠ 0)]
    · push_cast
      linarith [div_mul_cancel₀ (n : ℚ) (by norm_num : (100 : ℚ) ≠ 0)]
  simp only [roundCents, habs, hfloor, Int.toNat_ofNat]

/-- C14, as stated, fails for an amount with more than two decimal places: 1.234 is printed
as `$1.23`, which parses to 1.23. -/
theorem formatCurrency_roundtrip_fails :
    formatCurrency (.num (.fin 1.234)) = "$1.23" ∧
    parseAmount (.str (formatCurrency (.num (.fin 1.234)))) = .fin 1.23 ∧
    parseAmount (.str (formatCurrency (.num (.fin 1.234)))) ≠ .fin 1.234 := by
  have hround : roundCents 1.234 = 123 := by
    have habs : |(1.234 : ℚ)| = 1.234 := abs_of_nonneg (by norm_num)
    have hfloor : Int.floor ((1.234 : ℚ) * 100 + 1 / 2) = 123 := by
      rw [Int.floor_eq_iff]
      constructor <;> norm_num
    simp only [roundCents, habs, hfloor]
    rfl
  have hparse := parseAmount_formatCurrency 1.234 (by norm_num)
  rw [hround] at hparse
  have hfmt : formatCurrency (.num (.fin 1.234)) = "$1.23" := by
    rw [formatCurrency_nonneg 1.234 (by norm_num), hround]
    decide
  refine ⟨hfmt, ?_, ?_⟩
  · rw [hparse]
    norm_num
  · rw [hparse]
    norm_num

/-- C14, amended. For every non-negative finite amount, formatting it with `formatCurrency`
and parsing the text with the aggregator's amount rule gives the amount rounded to two
decimal places, halves away from zero; it gives back the amount itself exactly when the
amount is a whole number of cents. Amounts are exact rationals. -/
theorem formatCurrency_roundtrip (q : ℚ) (hq : 0 ≤ q) :
    parseAmount (.str (formatCurrency (.num (.fin q)))) = .fin ((roundCents q : ℚ) / 100) ∧
    (parseAmount (.str (formatCurrency (.num (.fin q)))) = .fin q ↔
      ∃ n : Nat, q = (n : ℚ) / 100) := by
  refine ⟨parseAmount_formatCurrency q hq, ?_⟩
  rw [parseAmount_formatCurrency q hq]
  constructor
  · intro h
    injection h with h
    exact ⟨roundCents q, h.symm⟩
  · rintro ⟨n, rfl⟩
    rw [roundCents_of_cents]

/-- C14, amended, at the amount 1234.5: it is printed as `$1,234.50` and parsed back to
1234.5. -/
theorem formatCurrency_roundtrip_witness :
    (0 : ℚ) ≤ 1234.5 ∧
    formatCurrency (.num (.fin 1234.5)) = "$1,234.50" ∧
    parseAmount (.str (formatCurrency (.num (.fin 1234.5)))) = .fin 1234.5 :=
  ⟨by norm_num,
    by
      have h : (1234.5 : ℚ) = ((123450 : Nat) : ℚ) / 100 := by norm_num
      rw [formatCurrency_nonneg 1234.5 (by norm_num), h, roundCents_of_cents]
      decide,
    (formatCurrency_roundtrip 1234.5 (by norm_num)).2.mpr ⟨123450, by norm_num⟩⟩

/-! ## The dashboard's `formatStatus` against `normalizeStatus` -/

/-- The character with a valid code has that code. -/
theorem toNat_ofNat_small (n : Nat) (h : n < 256) : (Char.ofNat n).toNat = n := by
  interval_cases n <;> rfl

/-- A character whose lower-case form is an ASCII small letter has the matching capital as
its upper-case form. -/
theorem toUpper_of_toLower (c : Char) (n : Nat) (hn : 97 ≤ n ∧ n ≤ 122)
    (h : Char.toLower c = Char.ofNat n) : Char.toUpper c = Char.ofNat (n - 32) := by
  obtain ⟨h1, h2⟩ := hn
  unfold Char.toLower at h
  unfold Char.toUpper
  generalize hm : c.toNat = m at h
  have hc : c = Char.ofNat m := by rw [← hm, Char.ofNat_toNat]
  subst hc
  by_cases hup : m ≥ 65 ∧ m ≤ 90
  · simp only [hup, and_self, if_true] at h
    have hmn : m + 32 = n := by
      have := congrArg Char.toNat h
      rwa [toNat_ofNat_small _ (by omega), toNat_ofNat_small _ (by omega)] at this
    have hlow : ¬ (m ≥ 97 ∧ m ≤ 122) := by omega
    simp only [hlow, if_false]
    congr 1
    omega
  · simp only [hup, if_false] at h
    have hmn : m = n := by
      have hm' := congrArg Char.toNat h
      rw [hm, toNat_ofNat_small n (by omega)] at hm'
      exact hm'
    subst hmn
    have hlow : m ≥ 97 ∧ m ≤ 122 := ⟨h1, h2⟩
    simp only [hlow, and_self, if_true]

/-- A text whose lower-case form starts with an ASCII small letter is capitalised, by the
formula of the default branch, to that form with the capital in front. -/
theorem capitalized_of_toLowerCase (s : String) (n : Nat) (rest : List Char)
    (hn : 97 ≤ n ∧ n ≤ 122) (h : toLowerCase s = String.mk (Char.ofNat n :: rest)) :
    toUpperCase (charAt0 s) ++ toLowerCase (slice1 s) =
      String.mk (Char.ofNat (n - 32) :: rest) := by
  obtain ⟨cs⟩ := s
  cases cs with
  | nil =>
    have h2 : ([] : List Char) = Char.ofNat n :: rest := congrArg String.data h
    cases h2
  | cons c cs =>
    have h2 : Char.toLower c :: List.map Char.toLower cs = Char.ofNat n :: rest :=
      congrArg String.data h
    injection h2 with hc hrest
    show String.mk (Char.toUpper c :: List.map Char.toLower cs) = _
    rw [toUpper_of_toLower c n hn hc, hrest]

/-- C26. The dashboard's `formatStatus` and the withdrawals page's `normalizeStatus` agree on
their whole domain: on every string they return the same text, and on an absent value
(`undefined`, `null`) both return Unknown. -/
theorem formatStatus_eq_normalizeStatus (s : String) :
    formatStatus (.str s) = normalizeStatus (.str s) ∧
    formatStatus .undefined = normalizeStatus .undefined ∧
    formatStatus .null = normalizeStatus .null ∧
    formatStatus (.str "PENDING") = .ok "Pending" ∧
    formatStatus (.str "banana") = .ok "Banana" := by
  refine ⟨?_, rfl, rfl, by decide, by decide⟩
  by_cases hs : s = ""
  · subst hs; rfl
  · simp only [formatStatus, normalizeStatus, JSVal.truthy, hs, ne_eq, not_false_eq_true,
      decide_True, Bool.not_true, Bool.false_eq_true, if_false]
    by_cases h1 : toLowerCase s = "pending"
    · simp only [h1, if_true]
      exact congrArg Except.ok (capitalized_of_toLowerCase s 112 "ending".data (by decide) h1)
    by_cases h2 : toLowerCase s = "processing"
    · simp only [h1, h2, if_true, if_false]
      exact congrArg Except.ok
        (capitalized_of_toLowerCase s 112 "rocessing".data (by decide) h2)
    by_cases h3 : toLowerCase s = "completed"
    · simp only [h1, h2, h3, if_true, if_false]
      exact congrArg Except.ok
        (capitalized_of_toLowerCase s 99 "ompleted".data (by decide) h3)
    by_cases h4 : toLowerCase s = "rejected"
    · simp only [h1, h2, h3, h4, if_true, if_false]
      exact congrArg Except.ok
        (capitalized_of_toLowerCase s 114 "ejected".data (by decide) h4)
    by_cases h5 : toLowerCase s = "processed"
    · simp only [h1, h2, h3, h4, h5, if_true, if_false]
      exact congrArg Except.ok
        (capitalized_of_toLowerCase s 112 "rocessed".data (by decide) h5)
    simp only [h1, h2, h3, h4, h5, if_false]

/-! ## More properties of the withdrawals page -/

/-- C25. For a non-empty id, when the store accepts the update without error but returns no
row (an empty array, or null data), `updateWithdrawalStatus` returns the result
`{ data: null }`; the callers see no error, so `handleAction` and `handleMarkAsProcessed`
show the success notification, start both re-fetches and refresh the state. -/
theorem update_without_row_counts_as_success (b : Backend) (s : ViewState) (id : JSVal)
    (rows : Option (List JSObj)) (hid : id.truthy = true)
    (hrows : rows = none ∨ rows = some [])
    (hstore : ∀ call : UpdateCall, b.update call = .resolved rows none) :
    (∀ o : Options, (updateWithdrawalStatus b.clock b.update id (some o)).1 = .data none) ∧
    (∀ action : JSVal, (actionStatus action).truthy = true →
      handleAction b s id action =
        (refresh b s, [.updateWithdrawalStatus id (actionOptions b action),
          .alert ("Successfully " ++ toLowerCase (toText b.numberToString action) ++
            "d withdrawal request"),
          .fetchWithdrawals, .fetchStats])) ∧
    handleMarkAsProcessed b s id =
      (refresh b s, [.updateWithdrawalStatus id (processedOptions b),
        .alert "Successfully marked withdrawal request as processed",
        .fetchWithdrawals, .fetchStats]) := by
  have hupd : ∀ o : Options,
      (updateWithdrawalStatus b.clock b.update id (some o)).1 = .data none := by
    intro o
    rcases hrows with h | h <;>
      simp only [updateWithdrawalStatus, hid, Bool.not_true, Bool.false_eq_true, if_false,
        hstore, h]
  refine ⟨hupd, ?_, ?_⟩
  · intro action hact
    simp only [handleAction, hid, hact, Bool.not_true, Bool.false_eq_true, if_false, hupd]
  · simp only [handleMarkAsProcessed, hid, Bool.not_true, Bool.false_eq_true, if_false, hupd]

/-- C25, at the id w9 that no row has: the store answers the update with an empty array. -/
theorem update_without_row_counts_as_success_witness :
    (JSVal.str "w9").truthy = true ∧
    (updateWithdrawalStatus ⟨"t0", "t1"⟩ (fun _ => .resolved (some []) none) (.str "w9")
      (some ⟨.str "Completed", .str "current-user-id", .undefined, .undefined⟩)).1 =
      .data none ∧
    (handleMarkAsProcessed
      ⟨⟨"t0", "t1"⟩, "t", fun _ => "0", fun _ => .resolved (some []) none,
        fun _ => .resolved (some []) none .null, .resolved (some []) none⟩
      ⟨[], false, .null, "All", ⟨0, .fin 0, .fin 0⟩⟩ (.str "w9")).2 =
      [.updateWithdrawalStatus (.str "w9")
        ⟨.str "Processed", .str "current-user-id", .undefined,
          .str "Marked as processed by admin on t"⟩,
       .alert "Successfully marked withdrawal request as processed",
       .fetchWithdrawals, .fetchStats] :=
  have h := update_without_row_counts_as_success
    ⟨⟨"t0", "t1"⟩, "t", fun _ => "0", fun _ => .resolved (some []) none,
      fun _ => .resolved (some []) none .null, .resolved (some []) none⟩
    ⟨[], false, .null, "All", ⟨0, .fin 0, .fin 0⟩⟩ (.str "w9") (some []) (by decide)
    (Or.inr rfl) (fun _ => rfl)
  ⟨by decide, h.1 _, congrArg Prod.snd h.2.2⟩

/-- Reading a property that was just assigned gives the assigned value. -/
theorem JSObj.prop_set_same (obj : JSObj) (k : String) (v : JSVal) :
    JSObj.prop (JSObj.set obj k v) k = v := by
  induction obj with
  | nil => simp [JSObj.set, JSObj.prop, JSObj.get?]
  | cons p rest ih =>
    obtain ⟨k', v'⟩ := p
    by_cases hk : k' = k
    · simp [JSObj.set, JSObj.prop, JSObj.get?, hk]
    · simp only [JSObj.prop] at ih
      simp [JSObj.set, JSObj.prop, JSObj.get?, hk, ih]

/-- On a string `normalizeStatus` returns a string. -/
theorem normalizeStatus_str_ok (s : String) :
    ∃ label : String, normalizeStatus (.str s) = .ok label := by
  unfold normalizeStatus
  split
  · exact ⟨_, rfl⟩
  · simp only
    split_ifs <;> exact ⟨_, rfl⟩

/-- Every row that `normalizeRows` returns carries a string as its status. -/
theorem normalizeRows_status (rows : List JoinedRow) :
    ∀ out : List JoinedRow, normalizeRows rows = .ok out →
      ∀ w ∈ out, ∃ label : String, w.row.prop "status" = .str label := by
  induction rows with
  | nil =>
    intro out h w hw
    simp only [normalizeRows, Except.ok.injEq] at h
    subst h
    cases hw
  | cons item rest ih =>
    intro out h w hw
    unfold normalizeRows at h
    split at h
    · cases h
    · rename_i label hl
      split at h
      · cases h
      · rename_i done hd
        simp only [Except.ok.injEq] at h
        subst h
        rcases List.mem_cons.mp hw with hw | hw
        · subst hw
          exact ⟨label, JSObj.prop_set_same _ _ _⟩
        · exact ih done hd w hw

/-- Every row in the state after `fetchWithdrawals` carries a string as its status. -/
theorem fetchWithdrawals_status (b : Backend) (s : ViewState) (w : JoinedRow)
    (hw : w ∈ (fetchWithdrawals b s).withdrawals) :
    ∃ label : String, w.row.prop "status" = .str label := by
  unfold fetchWithdrawals at hw
  simp only at hw
  split at hw
  · cases hw
  · split at hw <;> cases hw
  · split at hw
    · cases hw
    · rename_i out hout
      exact normalizeRows_status _ out hout w hw

/-- The actions cell for a status is one of three cells, according to the status. -/
theorem actionsCell_cases (label : String) :
    (label = "Pending" ∧ actionsCell label =
      [.button "Process" (.action "Process"), .button "Approve" (.action "Approve"),
       .button "Reject" (.action "Reject")]) ∨
    (label ≠ "Pending" ∧ label ≠ "Processed" ∧
      actionsCell label = [.button "Mark as Processed" .markAsProcessed]) ∨
    (label = "Processed" ∧ actionsCell label = [.label "Fully processed"]) := by
  by_cases h1 : label = "Pending"
  · subst h1
    exact Or.inl ⟨rfl, by decide⟩
  · by_cases h2 : label = "Processed"
    · subst h2
      exact Or.inr (Or.inr ⟨rfl, by decide⟩)
    · refine Or.inr (Or.inl ⟨h1, h2, ?_⟩)
      simp [actionsCell, h1, h2]

/-- C27. For every row displayed after `fetchWithdrawals`, whatever its status, the actions
cell is rendered and is exactly one of three groups, chosen by the normalised status: the
Process, Approve and Reject buttons (Pending), the Mark as Processed button alone (neither
Pending nor Processed), or the label `Fully processed` alone (Processed). The three cells
are pairwise different and none is empty, so no row shows two groups and no row shows
none. -/
theorem actions_exactly_one_group (b : Backend) (s : ViewState) (w : JoinedRow)
    (hw : w ∈ (fetchWithdrawals b s).withdrawals) :
    ∃ label : String, renderActions w = .ok (actionsCell label) ∧
      ((label = "Pending" ∧ actionsCell label =
          [.button "Process" (.action "Process"), .button "Approve" (.action "Approve"),
           .button "Reject" (.action "Reject")]) ∨
        (label ≠ "Pending" ∧ label ≠ "Processed" ∧
          actionsCell label = [.button "Mark as Processed" .markAsProcessed]) ∨
        (label = "Processed" ∧ actionsCell label = [.label "Fully processed"])) := by
  obtain ⟨text, htext⟩ := fetchWithdrawals_status b s w hw
  obtain ⟨label, hlabel⟩ := normalizeStatus_str_ok text
  refine ⟨label, ?_, actionsCell_cases label⟩
  simp only [renderActions, htext, hlabel]

/-- C27, at a store holding one row with the status `processed` and one without status: the
first is displayed with the label alone, and the displayed rows are the two normalised
ones. -/
theorem actions_exactly_one_group_witness :
    (⟨[("id", .str "w1"), ("status", .str "Processed")], none⟩ : JoinedRow) ∈
      (fetchWithdrawals
        ⟨⟨"t0", "t1"⟩, "t", fun _ => "0", fun _ => .resolved none none,
          fun _ => .resolved (some [[("id", .str "w1"), ("status", .str "processed")],
            [("id", .str "w2"), ("status", .null)]]) none .null,
          .resolved none none⟩
        ⟨[], true, .null, "All", ⟨0, .fin 0, .fin 0⟩⟩).withdrawals ∧
    (∃ label : String,
      renderActions ⟨[("id", .str "w1"), ("status", .str "Processed")], none⟩ =
        .ok (actionsCell label) ∧
      ((label = "Pending" ∧ actionsCell label =
          [.button "Process" (.action "Process"), .button "Approve" (.action "Approve"),
           .button "Reject" (.action "Reject")]) ∨
        (label ≠ "Pending" ∧ label ≠ "Processed" ∧
          actionsCell label = [.button "Mark as Processed" .markAsProcessed]) ∨
        (label = "Processed" ∧ actionsCell label = [.label "Fully processed"]))) ∧
    renderActions ⟨[("id", .str "w1"), ("status", .str "Processed")], none⟩ =
      .ok [.label "Fully processed"] ∧
    renderActions ⟨[("id", .str "w2"), ("status", .str "Unknown")], none⟩ =
      .ok [.button "Mark as Processed" .markAsProcessed] :=
  ⟨by decide,
    actions_exactly_one_group
      ⟨⟨"t0", "t1"⟩, "t", fun _ => "0", fun _ => .resolved none none,
        fun _ => .resolved (some [[("id", .str "w1"), ("status", .str "processed")],
          [("id", .str "w2"), ("status", .null)]]) none .null,
        .resolved none none⟩
      ⟨[], true, .null, "All", ⟨0, .fin 0, .fin 0⟩⟩
      ⟨[("id", .str "w1"), ("status", .str "Processed")], none⟩ (by decide),
    by decide, by decide⟩

/-! ## Results instead of exceptions -/

/-- With an error value at hand `handleSupabaseError` returns a result. -/
theorem handleSupabaseError_isResult {α : Type} (t : Thrown) (h : t ≠ none) :
    (handleSupabaseError t : Outcome α).isResult = true := by
  cases t with
  | none => exact absurd rfl h
  | some e => rfl

/-- What a select request throws is no null, when the store never throws null. -/
theorem thrown_ne_none (store : SelectCall → SelectReply)
    (h : ∀ call, store call ≠ .thrown none) (call : SelectCall) (e : Thrown)
    (heq : store call = .thrown e) : e ≠ none := by
  rintro rfl
  exact h call heq

/-- `updateWithdrawalStatus` returns a result when its options argument can be destructured
and the store does not throw null. -/
theorem updateWithdrawalStatus_isResult (clock : Clock) (store : UpdateCall → StoreReply JSObj)
    (id : JSVal) (o : Options) (h : ∀ call, store call ≠ .thrown none) :
    (updateWithdrawalStatus clock store id (some o)).1.isResult = true := by
  unfold updateWithdrawalStatus
  simp only
  split
  · rfl
  · split
    · rename_i e heq
      refine handleSupabaseError_isResult e ?_
      rintro rfl
      exact h _ heq
    · split
      · rfl
      · split <;> rfl

/-- `updateUserStatus` returns a result when the store does not throw null. -/
theorem updateUserStatus_isResult (now : String) (store : UpdateCall → StoreReply JSObj)
    (id status : JSVal) (h : ∀ call, store call ≠ .thrown none) :
    (updateUserStatus now store id status).1.isResult = true := by
  unfold updateUserStatus
  simp only
  split
  · rfl
  · split
    · rename_i e heq
      refine handleSupabaseError_isResult e ?_
      rintro rfl
      exact h _ heq
    · split
      · rfl
      · split <;> rfl

/-- `getWithdrawalStats` returns a result when the store does not throw null. -/
theorem getWithdrawalStats_isResult (reply : StoreReply RawRow) (h : reply ≠ .thrown none) :
    (getWithdrawalStats reply).isResult = true := by
  unfold getWithdrawalStats
  split
  · rename_i e
    refine handleSupabaseError_isResult e ?_
    rintro rfl
    exact h rfl
  · split
    · rfl
    · simp only
      split
      · rfl
      · split <;> rfl

/-- The join throws only what the store threw. -/
theorem joinUsers_error (numberToString : JSNum → String) (store : SelectCall → SelectReply)
    (h : ∀ call, store call ≠ .thrown none) (data : Option (List JSObj)) (e : Thrown)
    (calls : List SelectCall) (heq : joinUsers numberToString store data = (.error e, calls)) :
    e ≠ none := by
  unfold joinUsers at heq
  split at heq
  · cases heq
  · simp only at heq
    split at heq
    · split at heq
      · split at heq
        · rename_i e' hthrown
          injection heq with h1 _
          injection h1 with h1
          subst h1
          exact thrown_ne_none store h _ _ hthrown
        · split at heq <;> cases heq
      · cases heq
    · cases heq

/-- The listing functions return a result when the store does not throw null. -/
theorem listWithUsers_isResult (numberToString : JSNum → String)
    (store : SelectCall → SelectReply) (h : ∀ call, store call ≠ .thrown none)
    (first : SelectCall) : (listWithUsers numberToString store first).1.isResult = true := by
  unfold listWithUsers
  split
  · rename_i e heq
    exact handleSupabaseError_isResult e (thrown_ne_none store h _ _ heq)
  · split
    · rfl
    · split
      · rename_i e calls heq
        exact handleSupabaseError_isResult e (joinUsers_error _ store h _ _ _ heq)
      · rfl

/-- The user listings return a result when the store does not throw null. -/
theorem listUsers_isResult (store : SelectCall → SelectReply)
    (h : ∀ call, store call ≠ .thrown none) (call : SelectCall) :
    (listUsers store call).1.isResult = true := by
  unfold listUsers
  split
  · rename_i e heq
    exact handleSupabaseError_isResult e (thrown_ne_none store h _ _ heq)
  · split <;> rfl

/-- The counting functions return a result when the store does not throw null. -/
theorem countRows_isResult (store : SelectCall → SelectReply)
    (h : ∀ call, store call ≠ .thrown none) (counting full : SelectCall) :
    (countRows store counting full).1.isResult = true := by
  unfold countRows
  split
  · rename_i e heq
    exact handleSupabaseError_isResult e (thrown_ne_none store h _ _ heq)
  · split
    · rfl
    · split
      · split
        · rename_i e heq
          exact handleSupabaseError_isResult e (thrown_ne_none store h _ _ heq)
        · split <;> rfl
      · rfl

/-- `getTotalDeposits` returns a result when the store does not throw null. -/
theorem getTotalDeposits_isResult (store : SelectCall → SelectReply)
    (h : ∀ call, store call ≠ .thrown none) : (getTotalDeposits store).1.isResult = true := by
  unfold getTotalDeposits
  simp only
  split
  · rename_i e heq
    exact handleSupabaseError_isResult e (thrown_ne_none store h _ _ heq)
  · split
    · rfl
    · split <;> rfl

/-- C22, as stated, fails in two ways. When the store throws `null` (or `undefined`) the
`catch` block calls `handleSupabaseError`, whose read of `error.message` throws in turn, so
`getWithdrawalStats`, `getAllUsers` and the others reject instead of returning a result. And
with an argument list that has no options object `updateWithdrawalStatus` rejects even for a
store that never fails. -/
theorem service_rejects :
    getWithdrawalStats (.thrown none) = .rejected (some typeError) ∧
    (getAllUsers (fun _ => .thrown none)).1 = .rejected (some typeError) ∧
    (updateWithdrawalStatus ⟨"t0", "t1"⟩ (fun _ => .thrown none) (.str "w1")
      (some ⟨.str "Completed", .str "u1", .undefined, .undefined⟩)).1 =
      .rejected (some typeError) ∧
    (updateWithdrawalStatus ⟨"t0", "t1"⟩ (fun _ => .resolved (some [[]]) none) (.str "w1")
      none).1 = .rejected (some typeError) ∧
    (getWithdrawalStats (.thrown none)).isResult = false := by
  decide

/-- C22, amended. For every id and every options object, and for every behaviour of the store
in which what it throws is not `null` or `undefined` (returning an error, throwing an error
or any other value, returning null data), every service operation returns a result, with
the key `data` or the key `error`, instead of throwing: `updateWithdrawalStatus`,
`getWithdrawalStats`, the three listing functions with the client-side join, and the
functions of the user and transaction services. -/
theorem services_return_results (numberToString : JSNum → String)
    (select : SelectCall → SelectReply) (update : UpdateCall → StoreReply JSObj)
    (statsReply : StoreReply RawRow) (clock : Clock) (now : String)
    (id status limit : JSVal) (o : Options)
    (hselect : ∀ call, select call ≠ .thrown none)
    (hupdate : ∀ call, update call ≠ .thrown none)
    (hstats : statsReply ≠ .thrown none) :
    (updateWithdrawalStatus clock update id (some o)).1.isResult = true ∧
    (getWithdrawalStats statsReply).isResult = true ∧
    (getWithdrawalRequests numberToString select).1.isResult = true ∧
    (getWithdrawalRequestsByStatus numberToString select status).1.isResult = true ∧
    (getRecentWithdrawals numberToString select limit).1.isResult = true ∧
    (getAllUsers select).1.isResult = true ∧
    (getUsersByStatus select status).1.isResult = true ∧
    (updateUserStatus now update id status).1.isResult = true ∧
    (getUsersCount select).1.isResult = true ∧
    (getProcessingWithdrawalsCount select).1.isResult = true ∧
    (getTotalDeposits select).1.isResult = true :=
  ⟨updateWithdrawalStatus_isResult clock update id o hupdate,
    getWithdrawalStats_isResult statsReply hstats,
    listWithUsers_isResult numberToString select hselect _,
    listWithUsers_isResult numberToString select hselect _,
    listWithUsers_isResult numberToString select hselect _,
    listUsers_isResult select hselect _,
    listUsers_isResult select hselect _,
    updateUserStatus_isResult now update id status hupdate,
    countRows_isResult select hselect _ _,
    countRows_isResult select hselect _ _,
    getTotalDeposits_isResult select hselect⟩

/-- C22, amended, at a store that throws an error object on every request and at an empty
id: every operation returns an `error` result. -/
theorem services_return_results_witness :
    (∀ call : SelectCall,
      (fun _ => SelectReply.thrown (some ⟨.str "network down"⟩)) call ≠ .thrown none) ∧
    (∀ call : UpdateCall,
      (fun _ => (StoreReply.thrown (some ⟨.str "network down"⟩) : StoreReply JSObj)) call ≠
        .thrown none) ∧
    (StoreReply.thrown (some ⟨.str "network down"⟩) : StoreReply RawRow) ≠ .thrown none ∧
    (getWithdrawalStats (.thrown (some ⟨.str "network down"⟩))).isResult = true ∧
    getWithdrawalStats (.thrown (some ⟨.str "network down"⟩)) =
      .error (.str "network down") ∧
    (getUsersCount (fun _ => .thrown (some ⟨.str "network down"⟩))).1 =
      .error (.str "network down") :=
  have hs : ∀ call : SelectCall,
      (fun _ => SelectReply.thrown (some ⟨.str "network down"⟩)) call ≠ .thrown none :=
    fun _ h => by cases h
  have hu : ∀ call : UpdateCall,
      (fun _ => (StoreReply.thrown (some ⟨.str "network down"⟩) : StoreReply JSObj)) call ≠
        .thrown none := fun _ h => by cases h
  have hr : (StoreReply.thrown (some ⟨.str "network down"⟩) : StoreReply RawRow) ≠
      .thrown none := fun h => by cases h
  ⟨hs, hu, hr,
    (services_return_results (fun _ => "0") _ _ _ ⟨"t0", "t1"⟩ "t" (.str "") .null .undefined
      ⟨.undefined, .undefined, .undefined, .undefined⟩ hs hu hr).2.1,
    by decide, by decide⟩

/-! ## The client-side join -/

/-- The elements kept by `uniqueVals` are the elements of the list. -/
theorem mem_uniqueVals (l : List JSVal) (v : JSVal) : v ∈ uniqueVals l ↔ v ∈ l := by
  induction l with
  | nil => simp [uniqueVals]
  | cons a rest ih =>
    simp only [uniqueVals, List.mem_cons, List.mem_filter, ih, decide_eq_true_eq]
    by_cases h : v = a
    · simp [h]
    · simp [h]

/-- No element occurs twice in the result of `uniqueVals`. -/
theorem nodup_uniqueVals (l : List JSVal) : (uniqueVals l).Nodup := by
  induction l with
  | nil => simp [uniqueVals]
  | cons a rest ih =>
    simp only [uniqueVals, List.nodup_cons, List.mem_filter, decide_eq_true_eq,
      ne_eq, not_true_eq_false, and_false, not_false_eq_true, true_and]
    exact ih.filter _

/-- The ids sent to `profiles`: no id twice, and exactly the non-empty (truthy) `user_id`
values of the rows. -/
theorem collectUserIds_spec (rows : List JSObj) :
    (collectUserIds rows).Nodup ∧
    ∀ v : JSVal, v ∈ collectUserIds rows ↔
      (v.truthy = true ∧ ∃ r ∈ rows, r.prop "user_id" = v) := by
  refine ⟨nodup_uniqueVals _, ?_⟩
  intro v
  simp only [collectUserIds, mem_uniqueVals, List.mem_filter, List.mem_map]
  constructor
  · rintro ⟨⟨r, hr, rfl⟩, ht⟩
    exact ⟨ht, r, hr, rfl⟩
  · rintro ⟨ht, r, hr, rfl⟩
    exact ⟨⟨r, hr, rfl⟩, ht⟩

/-- Reading the own properties after an assignment. -/
theorem getOwn_setOwn (l : List (String × JSObj)) (k' k : String) (u : JSObj) :
    getOwn (setOwn l k' u) k = if k' = k then some u else getOwn l k := by
  induction l with
  | nil => simp [setOwn, getOwn]
  | cons p rest ih =>
    obtain ⟨j, w⟩ := p
    by_cases hj : j = k'
    · subst hj
      by_cases hk : j = k <;> simp [setOwn, getOwn, hk]
    · by_cases hk : j = k
      · subst hk
        have : ¬ k' = j := fun h => hj h.symm
        simp [setOwn, getOwn, hj, this]
      · simp [setOwn, getOwn, hj, hk, ih]

/-- An assignment under a key other than `__proto__` creates or overwrites an own property
and leaves the prototype of the map as it is. -/
theorem UserMap.set_of_ne (m : UserMap) (k : String) (u : JSObj) (hk : k ≠ "__proto__") :
    m.set k u = ⟨setOwn m.own k u, m.proto⟩ := by
  unfold UserMap.set
  split <;> rfl

/-- When no profile has the id `__proto__`, the reduction only creates own properties. -/
theorem foldl_set_own (numberToString : JSNum → String) (profiles : List JSObj) :
    (∀ p ∈ profiles, toText numberToString (p.prop "id") ≠ "__proto__") →
    ∀ m : UserMap,
      profiles.foldl (fun map user =>
        map.set (toText numberToString (user.prop "id")) user) m =
      ⟨profiles.foldl (fun own user =>
        setOwn own (toText numberToString (user.prop "id")) user) m.own, m.proto⟩ := by
  induction profiles with
  | nil => intro _ m; rfl
  | cons p ps ih =>
    intro h m
    have hp := h p (List.mem_cons_self p ps)
    have hps := ih (fun q hq => h q (List.mem_cons_of_mem p hq))
    simp only [List.foldl_cons, UserMap.set_of_ne m _ p hp, hps]

/-- Folding the profiles into own properties and reading a key gives the last profile with
that key, or what was there before. -/
theorem foldl_setOwn_getOwn (numberToString : JSNum → String) (profiles : List JSObj)
    (key : String) :
    ∀ own : List (String × JSObj),
      getOwn (profiles.foldl (fun own user =>
        setOwn own (toText numberToString (user.prop "id")) user) own) key =
      (lastWithKey numberToString profiles key).or (getOwn own key) := by
  induction profiles with
  | nil => intro own; rfl
  | cons p ps ih =>
    intro own
    simp only [List.foldl_cons, ih, getOwn_setOwn, lastWithKey, List.reverse_cons,
      List.find?_append, List.find?_singleton, decide_eq_true_eq]
    cases List.find? (fun p => decide (toText numberToString (p.prop "id") = key))
      ps.reverse with
    | some q => rfl
    | none =>
      by_cases hk : toText numberToString (p.prop "id") = key <;> simp [hk]

/-- When no profile has the id `__proto__`, the user map gives, under a key, the last returned
profile with that key, and what `Object.prototype` gives when there is none. -/
theorem buildUserMap_get (numberToString : JSNum → String) (profiles : List JSObj)
    (key : String)
    (h : ∀ p ∈ profiles, toText numberToString (p.prop "id") ≠ "__proto__") :
    (buildUserMap numberToString profiles).get key =
      match lastWithKey numberToString profiles key with
      | some p => .profile p
      | none => objectPrototypeGet .objectPrototype key := by
  unfold buildUserMap
  rw [foldl_set_own numberToString profiles h]
  simp only [UserMap.get, foldl_setOwn_getOwn, getOwn, Option.or_none]

/-- A key that names no member of `Object.prototype` reads as `undefined` there, which the
join turns into `null`. -/
theorem objectPrototypeGet_orNull (key : String) (h : key ∉ objectPrototypeKeys) :
    (objectPrototypeGet .objectPrototype key).orNull = .prim .null := by
  have hne : key ≠ "__proto__" := by
    intro hk
    apply h
    rw [hk]
    decide
  simp [objectPrototypeGet, hne, h, MapVal.orNull, MapVal.truthy, JSVal.truthy]

/-- The outcome of a listing function whose first request finds rows with at least one
non-empty `user_id` and whose follow-up request succeeds with no profile of id `__proto__`. -/
theorem listWithUsers_joined (numberToString : JSNum → String)
    (store : SelectCall → SelectReply) (first : SelectCall) (rows profiles : List JSObj)
    (c c' : JSVal) (hfirst : store first = .resolved (some rows) none c)
    (hids : collectUserIds rows ≠ [])
    (hprofiles : store (profilesCall (collectUserIds rows)) =
      .resolved (some profiles) none c')
    (hproto : ∀ p ∈ profiles, toText numberToString (p.prop "id") ≠ "__proto__") :
    listWithUsers numberToString store first =
      (.data (rows.map (fun r =>
        ⟨r, some (match lastWithKey numberToString profiles
            (toText numberToString (r.prop "user_id")) with
          | some p => MapVal.profile p
          | none => (objectPrototypeGet .objectPrototype
              (toText numberToString (r.prop "user_id"))).orNull)⟩)),
       [first, profilesCall (collectUserIds rows)]) := by
  have hrows : rows.length > 0 := by
    cases rows with
    | nil => exact absurd rfl hids
    | cons r rs => simp
  have hlen : (collectUserIds rows).length > 0 := by
    cases h : collectUserIds rows with
    | nil => exact absurd h hids
    | cons v vs => simp
  simp only [listWithUsers, hfirst, joinUsers, hrows, hlen, if_true, hprofiles,
    buildUserMap_get numberToString profiles _ hproto]
  congr 2
  apply List.map_congr_left
  intro r _
  cases lastWithKey numberToString profiles (toText numberToString (r.prop "user_id")) <;> rfl

/-- Two tests that agree on the elements of a list find the same element. -/
theorem find?_agree {α : Type} (p q : α → Bool) (l : List α) (h : ∀ a ∈ l, p a = q a) :
    l.find? p = l.find? q := by
  induction l with
  | nil => rfl
  | cons a rest ih =>
    have ha := h a (List.mem_cons_self a rest)
    have hrest := ih (fun b hb => h b (List.mem_cons_of_mem a hb))
    simp only [List.find?_cons, ha, hrest]

/-- For a string `user_id` and profiles whose ids are strings, the profile found under the
property key is the last returned profile whose id equals the `user_id`. -/
theorem lastWithKey_str (numberToString : JSNum → String) (profiles : List JSObj)
    (u : String) (hids : ∀ p ∈ profiles, ∃ i : String, p.prop "id" = .str i) :
    lastWithKey numberToString profiles (toText numberToString (.str u)) =
      profiles.reverse.find? (fun p => decide (p.prop "id" = .str u)) := by
  unfold lastWithKey
  apply find?_agree
  intro p hp
  obtain ⟨i, hi⟩ := hids p (List.mem_reverse.mp hp)
  simp [hi, toText]

/-- C23, as stated, fails for a row without `user_id` when a returned profile has the text
`null` as id: the lookup `userMap[withdrawal.user_id]` turns the missing id into the
property key `null`, so the row gets that profile although its `user_id` is null. -/
theorem join_attaches_profile_to_row_without_user :
    (getWithdrawalRequests (fun _ => "0")
      (joinStore
        [[("id", .str "w1"), ("user_id", .str "null")],
         [("id", .str "w2"), ("user_id", .null)]]
        [[("id", .str "null"), ("full_name", .str "N")]])).1 =
      .data
        [⟨[("id", .str "w1"), ("user_id", .str "null")],
          some (.profile [("id", .str "null"), ("full_name", .str "N")])⟩,
         ⟨[("id", .str "w2"), ("user_id", .null)],
          some (.profile [("id", .str "null"), ("full_name", .str "N")])⟩] ∧
    JSObj.prop [("id", .str "w2"), ("user_id", .null)] "user_id" ≠
      JSObj.prop [("id", .str "null"), ("full_name", .str "N")] "id" ∧
    collectUserIds
      [[("id", .str "w1"), ("user_id", .str "null")],
       [("id", .str "w2"), ("user_id", .null)]] = [.str "null"] := by
  decide

/-- The object `userMap` is a plain object, so a read also finds what the map inherits. A row
whose `user_id` is the text `constructor`, with no profile returned, gets the member function
of `Object.prototype` of that name as its user; and a returned profile whose id is the text
`__proto__` becomes the prototype of the map, so that a row whose `user_id` is the text
`full_name` gets the name stored in that profile. -/
theorem join_reads_inherited_members :
    (getWithdrawalRequests (fun _ => "0")
      (joinStore [[("id", .str "w1"), ("user_id", .str "constructor")]] [])).1 =
      .data [⟨[("id", .str "w1"), ("user_id", .str "constructor")],
        some (.member "constructor")⟩] ∧
    (getWithdrawalRequests (fun _ => "0")
      (joinStore [[("id", .str "w1"), ("user_id", .str "full_name")]]
        [[("id", .str "__proto__"), ("full_name", .str "Ann")]])).1 =
      .data [⟨[("id", .str "w1"), ("user_id", .str "full_name")],
        some (.prim (.str "Ann"))⟩] ∧
    (getWithdrawalRequests (fun _ => "0")
      (joinStore [[("id", .str "w1"), ("user_id", .str "u9")]]
        [[("id", .str "u1"), ("full_name", .str "Ann")]])).1 =
      .data [⟨[("id", .str "w1"), ("user_id", .str "u9")], some (.prim .null)⟩] := by
  decide

/-- C23, amended. In the client-side join of `getWithdrawalRequests`,
`getWithdrawalRequestsByStatus` and `getRecentWithdrawals`, when the first request finds rows
with at least one non-empty `user_id`, exactly one follow-up request is sent to `profiles`;
its id list has no id twice and consists of the non-empty `user_id` values of the rows. After
a successful follow-up in which no returned profile has the id `__proto__`, the function
returns the rows in their order, and every row's user is the last returned profile whose id,
as a property key, equals the property key of the row's `user_id`; when there is no such
profile and that key is not the name of a member of `Object.prototype`, the user is null. For
a row whose `user_id` is a string, and profiles whose ids are strings, the profile with that
key is the last returned profile whose id equals the `user_id`. -/
theorem client_join (numberToString : JSNum → String) (store : SelectCall → SelectReply)
    (first : SelectCall) (rows profiles : List JSObj) (c c' : JSVal)
    (hfirst : store first = .resolved (some rows) none c)
    (hids : collectUserIds rows ≠ [])
    (hprofiles : store (profilesCall (collectUserIds rows)) =
      .resolved (some profiles) none c')
    (hproto : ∀ p ∈ profiles, toText numberToString (p.prop "id") ≠ "__proto__") :
    (∃ joined : List JoinedRow,
      listWithUsers numberToString store first =
        (.data joined, [first, profilesCall (collectUserIds rows)]) ∧
      joined.map JoinedRow.row = rows ∧
      ∀ j ∈ joined,
        (∀ p : JSObj,
          lastWithKey numberToString profiles
            (toText numberToString (j.row.prop "user_id")) = some p →
          j.user = some (.profile p)) ∧
        (lastWithKey numberToString profiles
            (toText numberToString (j.row.prop "user_id")) = none →
          toText numberToString (j.row.prop "user_id") ∉ objectPrototypeKeys →
          j.user = some (.prim .null))) ∧
    (collectUserIds rows).Nodup ∧
    (∀ v : JSVal, v ∈ collectUserIds rows ↔
      (v.truthy = true ∧ ∃ r ∈ rows, r.prop "user_id" = v)) ∧
    (∀ (r : JSObj) (u : String), r.prop "user_id" = .str u →
      (∀ p ∈ profiles, ∃ i : String, p.prop "id" = .str i) →
      lastWithKey numberToString profiles (toText numberToString (r.prop "user_id")) =
        profiles.reverse.find? (fun p => decide (p.prop "id" = .str u))) ∧
    getWithdrawalRequests numberToString store =
      listWithUsers numberToString store
        ⟨"withdrawal_requests", withdrawalColumns, false, none, none, some "created_at",
          none⟩ ∧
    (∀ status : JSVal, getWithdrawalRequestsByStatus numberToString store status =
      listWithUsers numberToString store
        ⟨"withdrawal_requests", withdrawalColumns, false, some ("status", status), none,
          some "created_at", none⟩) ∧
    getRecentWithdrawals numberToString store .undefined =
      listWithUsers numberToString store
        ⟨"withdrawal_requests", recentColumns, false, none, none,
          some "created_at", some (.num (.fin 5))⟩ := by
  refine ⟨⟨_, listWithUsers_joined numberToString store first rows profiles c c' hfirst hids
    hprofiles hproto, ?_, ?_⟩, (collectUserIds_spec rows).1, (collectUserIds_spec rows).2, ?_,
    rfl, fun _ => rfl, rfl⟩
  · rw [List.map_map]
    exact List.map_id rows
  · intro j hj
    obtain ⟨r, _, rfl⟩ := List.mem_map.mp hj
    refine ⟨?_, ?_⟩
    · intro p hp
      simp only [hp]
    · intro hnone hkey
      simp only [hnone, objectPrototypeGet_orNull _ hkey]
  · intro r u hu hp
    rw [hu]
    exact lastWithKey_str numberToString profiles u hp

/-- C23, amended, at three rows of two users, one of them without profile, and one row
without user: one follow-up request with the two ids, and the users attached. -/
theorem client_join_witness :
    joinStore
        [[("id", .str "w1"), ("user_id", .str "u1")],
         [("id", .str "w2"), ("user_id", .str "u2")],
         [("id", .str "w3"), ("user_id", .str "u1")],
         [("id", .str "w4"), ("user_id", .null)]]
        [[("id", .str "u1"), ("full_name", .str "Ann")]]
        ⟨"withdrawal_requests", withdrawalColumns, false, none, none, some "created_at",
          none⟩ =
      .resolved (some
        [[("id", .str "w1"), ("user_id", .str "u1")],
         [("id", .str "w2"), ("user_id", .str "u2")],
         [("id", .str "w3"), ("user_id", .str "u1")],
         [("id", .str "w4"), ("user_id", .null)]]) none .null ∧
    collectUserIds
        [[("id", .str "w1"), ("user_id", .str "u1")],
         [("id", .str "w2"), ("user_id", .str "u2")],
         [("id", .str "w3"), ("user_id", .str "u1")],
         [("id", .str "w4"), ("user_id", .null)]] = [.str "u1", .str "u2"] ∧
    (∀ p ∈ [[("id", JSVal.str "u1"), ("full_name", JSVal.str "Ann")]],
      toText (fun _ => "0") (JSObj.prop p "id") ≠ "__proto__") ∧
    (∃ joined : List JoinedRow,
      getWithdrawalRequests (fun _ => "0")
        (joinStore
          [[("id", .str "w1"), ("user_id", .str "u1")],
           [("id", .str "w2"), ("user_id", .str "u2")],
           [("id", .str "w3"), ("user_id", .str "u1")],
           [("id", .str "w4"), ("user_id", .null)]]
          [[("id", .str "u1"), ("full_name", .str "Ann")]]) =
        (.data joined,
         [⟨"withdrawal_requests", withdrawalColumns, false, none, none, some "created_at",
            none⟩,
          profilesCall [.str "u1", .str "u2"]]) ∧
      joined.map JoinedRow.row =
        [[("id", .str "w1"), ("user_id", .str "u1")],
         [("id", .str "w2"), ("user_id", .str "u2")],
         [("id", .str "w3"), ("user_id", .str "u1")],
         [("id", .str "w4"), ("user_id", .null)]] ∧
      ∀ j ∈ joined,
        (∀ p : JSObj,
          lastWithKey (fun _ => "0") [[("id", .str "u1"), ("full_name", .str "Ann")]]
            (toText (fun _ => "0") (j.row.prop "user_id")) = some p →
          j.user = some (.profile p)) ∧
        (lastWithKey (fun _ => "0") [[("id", .str "u1"), ("full_name", .str "Ann")]]
            (toText (fun _ => "0") (j.row.prop "user_id")) = none →
          toText (fun _ => "0") (j.row.prop "user_id") ∉ objectPrototypeKeys →
          j.user = some (.prim .null))) ∧
    (getWithdrawalRequests (fun _ => "0")
      (joinStore
        [[("id", .str "w1"), ("user_id", .str "u1")],
         [("id", .str "w2"), ("user_id", .str "u2")],
         [("id", .str "w3"), ("user_id", .str "u1")],
         [("id", .str "w4"), ("user_id", .null)]]
        [[("id", .str "u1"), ("full_name", .str "Ann")]])).1 =
      .data
        [⟨[("id", .str "w1"), ("user_id", .str "u1")],
          some (.profile [("id", .str "u1"), ("full_name", .str "Ann")])⟩,
         ⟨[("id", .str "w2"), ("user_id", .str "u2")], some (.prim .null)⟩,
         ⟨[("id", .str "w3"), ("user_id", .str "u1")],
          some (.profile [("id", .str "u1"), ("full_name", .str "Ann")])⟩,
         ⟨[("id", .str "w4"), ("user_id", .null)], some (.prim .null)⟩] :=
  ⟨rfl, by decide, by decide,
    (client_join (fun _ => "0")
      (joinStore
        [[("id", .str "w1"), ("user_id", .str "u1")],
         [("id", .str "w2"), ("user_id", .str "u2")],
         [("id", .str "w3"), ("user_id", .str "u1")],
         [("id", .str "w4"), ("user_id", .null)]]
        [[("id", .str "u1"), ("full_name", .str "Ann")]])
      ⟨"withdrawal_requests", withdrawalColumns, false, none, none, some "created_at", none⟩
      [[("id", .str "w1"), ("user_id", .str "u1")],
       [("id", .str "w2"), ("user_id", .str "u2")],
       [("id", .str "w3"), ("user_id", .str "u1")],
       [("id", .str "w4"), ("user_id", .null)]]
      [[("id", .str "u1"), ("full_name", .str "Ann")]] .null .null
      rfl (by decide) rfl (by decide)).1,
    by decide⟩

/-! ## The deposit total -/

/-- After a mantissa the scanner always returns a decimal literal. -/
theorem scanExponent_dec (neg : Bool) (mant k : Nat) (cs : List Char) :
    ∃ d : Decimal, (scanExponent neg mant k cs).1 = .dec d := by
  unfold scanExponent
  simp only
  split
  · split
    · split
      · exact ⟨_, rfl⟩
      · exact ⟨_, rfl⟩
    · exact ⟨_, rfl⟩
  · exact ⟨_, rfl⟩

/-- On characters of the amount class the unsigned scanner never reads `Infinity`. -/
theorem scanUnsigned_finite (neg : Bool) (cs : List Char)
    (h : ∀ c ∈ cs, inAmountClass c = true) :
    (scanUnsigned neg cs).1 = .nan ∨ ∃ d : Decimal, (scanUnsigned neg cs).1 = .dec d := by
  have hinf : "Infinity".data.isPrefixOf cs = false := by
    cases cs with
    | nil => rfl
    | cons c rest =>
      have hc := h c (List.mem_cons_self c rest)
      show (('I' == c) && _) = false
      have : ('I' == c) = false := by
        rw [beq_eq_false_iff_ne]
        rintro rfl
        revert hc
        decide
      rw [this]
      rfl
  unfold scanUnsigned
  simp only [hinf, Bool.false_eq_true, if_false]
  split
  · split
    · exact Or.inl rfl
    · exact Or.inr (scanExponent_dec _ _ _ _)
  · split
    · exact Or.inl rfl
    · exact Or.inr (scanExponent_dec _ _ _ _)

/-- On characters of the amount class the scanner never reads `Infinity`. -/
theorem scanDecimal_finite (cs : List Char) (h : ∀ c ∈ cs, inAmountClass c = true) :
    (scanDecimal cs).1 = .nan ∨ ∃ d : Decimal, (scanDecimal cs).1 = .dec d := by
  unfold scanDecimal
  split
  · exact scanUnsigned_finite _ _ (fun c hc => h c (List.mem_cons_of_mem _ hc))
  · exact scanUnsigned_finite _ _ (fun c hc => h c (List.mem_cons_of_mem _ hc))
  · exact scanUnsigned_finite _ _ h

/-- The amount rule gives a finite number on every amount of the data model. -/
theorem specAmount_finite (a : Amount) : ∃ q : ℚ, specAmount a.val = .fin q := by
  cases a with
  | number q => exact ⟨q, rfl⟩
  | null => exact ⟨0, rfl⟩
  | text s =>
    have hclass : ∀ c ∈ (stripAmount s).data.dropWhile isStrWhiteSpace,
        inAmountClass c = true := by
      intro c hc
      have hmem := (List.dropWhile_sublist isStrWhiteSpace).subset hc
      simp only [stripAmount, List.mem_filter] at hmem
      exact hmem.2
    have hlit := scanDecimal_finite _ hclass
    rw [← contribution_eq_specAmount ⟨.null, (Amount.text s).val, .null⟩]
    simp only [contribution, Amount.val, parseAmount, parseFloat, parseFloatLit]
    rcases hlit with hnan | ⟨d, hd⟩
    · rw [hnan]
      exact ⟨0, rfl⟩
    · rw [hd]
      exact ⟨d.toRat, rfl⟩

/-- A sum of finite numbers is finite. -/
theorem foldl_add_finite (ns : List JSNum) (h : ∀ n ∈ ns, ∃ q : ℚ, n = .fin q) :
    ∀ acc : ℚ, ∃ q : ℚ, ns.foldl JSNum.add (.fin acc) = .fin q := by
  induction ns with
  | nil => intro acc; exact ⟨acc, rfl⟩
  | cons n rest ih =>
    intro acc
    obtain ⟨q, hq⟩ := h n (List.mem_cons_self n rest)
    subst hq
    exact ih (fun m hm => h m (List.mem_cons_of_mem _ hm)) (acc + q)

/-- The callback of `getTotalDeposits` adds what the amount rule gives. -/
theorem addDeposit_eq (sum : JSNum) (r : DepositRow) :
    addDeposit sum r.raw = sum.add (specAmount r.amount.val) := by
  have hprop : r.raw.prop "amount" = r.amount.val := by
    simp [DepositRow.raw, JSObj.prop, JSObj.get?]
  rw [← contribution_eq_specAmount ⟨.null, r.amount.val, .null⟩]
  simp only [addDeposit, hprop, contribution]
  split
  · rw [JSNum.add_fin_zero]
  · rfl

/-- The whole result of `getTotalDeposits` on a collection of deposit rows. -/
theorem getTotalDeposits_found (rows : List DepositRow) :
    (getTotalDeposits (depositsFound rows)).1 =
      .data (sumNums (rows.map (fun r => specAmount r.amount.val))) := by
  have hfold : ∀ (l : List DepositRow) (acc : JSNum),
      (l.map DepositRow.raw).foldl addDeposit acc =
        (l.map (fun r => specAmount r.amount.val)).foldl JSNum.add acc := by
    intro l
    induction l with
    | nil => intro acc; rfl
    | cons r rest ih =>
      intro acc
      simp only [List.map_cons, List.foldl_cons, addDeposit_eq, ih]
  obtain ⟨q, hq⟩ := foldl_add_finite (rows.map (fun r => specAmount r.amount.val))
    (by
      intro n hn
      obtain ⟨r, _, rfl⟩ := List.mem_map.mp hn
      exact specAmount_finite r.amount) 0
  simp only [getTotalDeposits, depositsFound, hfold, sumNums, hq, JSNum.truthy]
  by_cases h0 : q = 0
  · simp [h0]
  · simp [h0]

/-- C24. For every collection of deposit rows, `totalAmount` computed by `getTotalDeposits`
is the sum over all rows of the amount given by the amount rule of the withdrawal aggregator
(text stripped and parsed, other values converted, 0 for what is not a number); it is what
the aggregator's own reduction gives on the same amounts, and it is 0 for the empty
collection and for null data. -/
theorem getTotalDeposits_sum (rows : List DepositRow) :
    (getTotalDeposits (depositsFound rows)).1 =
      .data (sumNums (rows.map (fun r => specAmount r.amount.val))) ∧
    sumNums (rows.map (fun r => specAmount r.amount.val)) =
      sumAmounts (rows.map (fun r => ⟨.undefined, r.amount.val, .undefined⟩)) ∧
    (getTotalDeposits (depositsFound [])).1 = .data (.fin 0) ∧
    (getTotalDeposits (fun _ => .resolved none none .null)).1 = .data (.fin 0) ∧
    (getTotalDeposits (depositsFound
      [⟨.text "$10.00"⟩, ⟨.number 20⟩, ⟨.text "bad"⟩, ⟨.null⟩])).1 = .data (.fin 30) := by
  refine ⟨getTotalDeposits_found rows, ?_, rfl, rfl, ?_⟩
  · rw [sumAmounts_eq, List.map_map]
    congr 1
    exact List.map_congr_left (fun r _ =>
      (contribution_eq_specAmount ⟨.undefined, r.amount.val, .undefined⟩).symm)
  · rw [getTotalDeposits_found]
    have h10 : specAmount (.str "$10.00") = .fin 10 := by
      rw [← contribution_eq_specAmount ⟨.null, .str "$10.00", .null⟩]
      have hlit : parseFloatLit (stripAmount "$10.00") = .dec ⟨false, 1000, -2⟩ := by decide
      simp only [contribution, parseAmount, parseFloat, hlit, NumLit.toNum, Decimal.toRat,
        JSNum.isNaN]
      norm_num
    have hbad : specAmount (.str "bad") = .fin 0 := by
      rw [← contribution_eq_specAmount ⟨.null, .str "bad", .null⟩]
      have hlit : parseFloatLit (stripAmount "bad") = .nan := by decide
      simp only [contribution, parseAmount, parseFloat, hlit, NumLit.toNum, JSNum.isNaN,
        if_true]
    have h20 : specAmount (.num (.fin 20)) = .fin 20 := rfl
    have hnull : specAmount .null = .fin 0 := rfl
    simp only [List.map_cons, List.map_nil, Amount.val, h10, hbad, h20, hnull, sumNums,
      List.foldl_cons, List.foldl_nil, JSNum.add]
    norm_num

/-! ## Properties of the dashboard and of the read paths -/

/-- The state after `fetchDashboardData`: the cards are updated when all three services
returned a result, and left as they were when one of them rejected. -/
theorem fetchDashboardData_eq (numberToString : JSNum → String)
    (formatNumber : JSVal → String) (select : SelectCall → SelectReply)
    (s : DashboardState) :
    fetchDashboardData numberToString formatNumber select s =
      if (getTotalDeposits select).1.isResult = true ∧
          (getProcessingWithdrawalsCount select).1.isResult = true ∧
          (getUsersCount select).1.isResult = true then
        { s with
          stats := s.stats.map
            (updateCard numberToString formatNumber (getTotalDeposits select).1
              (getProcessingWithdrawalsCount select).1 (getUsersCount select).1),
          loading := false }
      else { s with loading := false } := by
  unfold fetchDashboardData
  generalize (getTotalDeposits select).1 = d
  generalize (getProcessingWithdrawalsCount select).1 = w
  generalize (getUsersCount select).1 = u
  cases d <;> cases w <;> cases u <;> simp [Outcome.isResult]

/-- The cards of the initial dashboard after an update. -/
theorem initial_cards_updated (numberToString : JSNum → String)
    (formatNumber : JSVal → String) (d : Outcome JSNum) (w u : Outcome JSVal) :
    initialDashboard.stats.map (updateCard numberToString formatNumber d w u) =
      [⟨1, "Total Users", formatNumber (dataOrZero u), "👤", "0%", "neutral"⟩,
       ⟨2, "Active Users", formatNumber (dataOrZero u), "✅", "0%", "neutral"⟩,
       ⟨3, "Pending Withdrawals", toText numberToString (dataOrZero w), "💰", "0%",
         "neutral"⟩,
       ⟨4, "Total Deposits", formatCurrency (totalAmountOrZero d), "💵", "0%", "neutral"⟩] :=
  rfl

/-- The requests of `getUsersCount` go to the table `users` and carry no filter. -/
theorem getUsersCount_calls (select : SelectCall → SelectReply) :
    ∀ call ∈ (getUsersCount select).2, call.table = "users" ∧ call.eq = none := by
  have hall : (getUsersCount select).2 = [⟨"users", "*", true, none, none, none, none⟩] ∨
      (getUsersCount select).2 = [⟨"users", "*", true, none, none, none, none⟩,
        ⟨"users", "id", false, none, none, none, none⟩] := by
    unfold getUsersCount countRows
    split
    · exact Or.inl rfl
    · split
      · exact Or.inl rfl
      · split
        · split
          · exact Or.inr rfl
          · split <;> exact Or.inr rfl
        · exact Or.inl rfl
  intro call hcall
  rcases hall with h | h
  · rw [h, List.mem_singleton] at hcall
    subst hcall
    exact ⟨rfl, rfl⟩
  · rw [h, List.mem_cons, List.mem_singleton] at hcall
    rcases hcall with rfl | rfl <;> exact ⟨rfl, rfl⟩

/-- Updating a card keeps its name. -/
theorem updateCard_name (numberToString : JSNum → String) (formatNumber : JSVal → String)
    (d : Outcome JSNum) (w u : Outcome JSVal) (stat : StatCard) :
    (updateCard numberToString formatNumber d w u stat).name = stat.name := by
  unfold updateCard
  split_ifs <;> rfl

/-- C28. After `fetchDashboardData`, started from the initial state of the dashboard, the
value on the Active Users card equals the value on the Total Users card. When the three
services returned, both are the formatted `totalUsers` of `getUsersCount`, and so is, from
any prior state, the value of every card with one of the two names; the formatted number is
0 when `getUsersCount` returned an error; and the requests of `getUsersCount` go to `users`
without any filter, so no user's status counts. -/
theorem active_users_equals_total_users (numberToString : JSNum → String)
    (formatNumber : JSVal → String) (select : SelectCall → SelectReply)
    (s : DashboardState) :
    cardValue "Active Users"
        (fetchDashboardData numberToString formatNumber select initialDashboard).stats =
      cardValue "Total Users"
        (fetchDashboardData numberToString formatNumber select initialDashboard).stats ∧
    ((getTotalDeposits select).1.isResult = true →
      (getProcessingWithdrawalsCount select).1.isResult = true →
      (getUsersCount select).1.isResult = true →
        cardValue "Total Users"
            (fetchDashboardData numberToString formatNumber select initialDashboard).stats =
          some (formatNumber (dataOrZero (getUsersCount select).1)) ∧
        cardValue "Active Users"
            (fetchDashboardData numberToString formatNumber select initialDashboard).stats =
          some (formatNumber (dataOrZero (getUsersCount select).1)) ∧
        ∀ card ∈ (fetchDashboardData numberToString formatNumber select s).stats,
          (card.name = "Total Users" ∨ card.name = "Active Users") →
            card.value = formatNumber (dataOrZero (getUsersCount select).1)) ∧
    (∀ e : JSVal, (getUsersCount select).1 = .error e →
      dataOrZero (getUsersCount select).1 = .num (.fin 0)) ∧
    (∀ call ∈ (getUsersCount select).2, call.table = "users" ∧ call.eq = none) := by
  refine ⟨?_, ?_, ?_, getUsersCount_calls select⟩
  · rw [fetchDashboardData_eq]
    split
    · simp only [initial_cards_updated]
      rfl
    · rfl
  · intro hd hw hu
    have hall : (getTotalDeposits select).1.isResult = true ∧
        (getProcessingWithdrawalsCount select).1.isResult = true ∧
        (getUsersCount select).1.isResult = true := ⟨hd, hw, hu⟩
    refine ⟨?_, ?_, ?_⟩
    · rw [fetchDashboardData_eq, if_pos hall]
      simp only [initial_cards_updated]
      rfl
    · rw [fetchDashboardData_eq, if_pos hall]
      simp only [initial_cards_updated]
      rfl
    · intro card hcard hname
      rw [fetchDashboardData_eq, if_pos hall] at hcard
      obtain ⟨c0, _, rfl⟩ := List.mem_map.mp hcard
      rw [updateCard_name] at hname
      rcases hname with h | h <;> simp [updateCard, h]
  · intro e he
    rw [he]
    rfl

/-- The error that `handleSupabaseError` puts in its result is never empty. -/
theorem or_default_truthy (v : JSVal) :
    (v.or (.str "An error occurred with the database operation")).truthy = true := by
  unfold JSVal.or
  split
  · assumption
  · decide

/-- A zero amount is printed as `$0.00`. -/
theorem formatCurrency_zero : formatCurrency (.num (.fin 0)) = "$0.00" := by
  have h : (0 : ℚ) = ((0 : Nat) : ℚ) / 100 := by norm_num
  rw [formatCurrency_nonneg 0 (le_refl 0), h, roundCents_of_cents]
  decide

/-- C21, as stated, fails on the withdrawal stats and on the dashboard: after a store error
`fetchStats` leaves the page as it was, with its rows and without banner, and
`fetchRecentWithdrawals` only clears its loading flag, the dashboard having no banner at
all. -/
theorem stats_error_shows_no_banner :
    (fetchStats
      ⟨⟨"t0", "t1"⟩, "t", fun _ => "0", fun _ => .resolved none (some ⟨.str "down"⟩),
        fun _ => .resolved none (some ⟨.str "down"⟩) .null,
        .resolved none (some ⟨.str "down"⟩)⟩
      ⟨[⟨[("id", .str "w1"), ("status", .str "Pending")], none⟩], false, .null, "All",
        ⟨1, .fin 0, .fin 0⟩⟩).error = .null ∧
    (fetchStats
      ⟨⟨"t0", "t1"⟩, "t", fun _ => "0", fun _ => .resolved none (some ⟨.str "down"⟩),
        fun _ => .resolved none (some ⟨.str "down"⟩) .null,
        .resolved none (some ⟨.str "down"⟩)⟩
      ⟨[⟨[("id", .str "w1"), ("status", .str "Pending")], none⟩], false, .null, "All",
        ⟨1, .fin 0, .fin 0⟩⟩).withdrawals ≠ [] ∧
    fetchRecentWithdrawals (fun _ => "0")
        (fun _ => .resolved none (some ⟨.str "down"⟩) .null)
        ⟨initialDashboard.stats, [⟨[("id", .str "w1")], none⟩], true, true⟩ =
      ⟨initialDashboard.stats, [⟨[("id", .str "w1")], none⟩], true, false⟩ := by
  refine ⟨rfl, by decide, rfl⟩

/-- C21, amended. When the store answers every request with an error: `fetchWithdrawals` and
`fetchUsers` leave an empty list and a non-empty error banner, which is the message of the
error or the fixed text of `handleSupabaseError`; `fetchStats` leaves the page unchanged,
without banner for the stats; on the dashboard, which has no banner, `fetchRecentWithdrawals`
keeps the prior list and `fetchDashboardData` prints zero on every card it knows. -/
theorem read_paths_on_store_error (b : Backend) (formatNumber : JSVal → String)
    (s : ViewState) (us : UsersState) (ds : DashboardState) (err : ErrObj)
    (hselect : ∀ call, ∃ data count, b.select call = .resolved data (some err) count)
    (hstats : ∃ data, b.stats = .resolved data (some err)) :
    ((fetchWithdrawals b s).withdrawals = [] ∧
      (fetchWithdrawals b s).error =
        err.message.or (.str "An error occurred with the database operation") ∧
      (fetchWithdrawals b s).error.truthy = true) ∧
    ((fetchUsers b.select us).users = [] ∧
      (fetchUsers b.select us).error =
        err.message.or (.str "An error occurred with the database operation") ∧
      (fetchUsers b.select us).error.truthy = true) ∧
    fetchStats b s = s ∧
    fetchRecentWithdrawals b.numberToString b.select ds =
      { ds with withdrawalsLoading := false } ∧
    fetchDashboardData b.numberToString formatNumber b.select initialDashboard =
      ⟨[⟨1, "Total Users", formatNumber (.num (.fin 0)), "👤", "0%", "neutral"⟩,
        ⟨2, "Active Users", formatNumber (.num (.fin 0)), "✅", "0%", "neutral"⟩,
        ⟨3, "Pending Withdrawals", b.numberToString (.fin 0), "💰", "0%", "neutral"⟩,
        ⟨4, "Total Deposits", "$0.00", "💵", "0%", "neutral"⟩], [], false, true⟩ := by
  have htr := or_default_truthy err.message
  have hlist : ∀ first : SelectCall,
      (listWithUsers b.numberToString b.select first).1 =
        .error (err.message.or (.str "An error occurred with the database operation")) := by
    intro first
    obtain ⟨data, count, h⟩ := hselect first
    simp only [listWithUsers, h, handleSupabaseError]
  have husers : ∀ call : SelectCall,
      (listUsers b.select call).1 =
        .error (err.message.or (.str "An error occurred with the database operation")) := by
    intro call
    obtain ⟨data, count, h⟩ := hselect call
    simp only [listUsers, h, handleSupabaseError]
  have hcount : ∀ counting full : SelectCall,
      (countRows b.select counting full).1 =
        .error (err.message.or (.str "An error occurred with the database operation")) := by
    intro counting full
    obtain ⟨data, count, h⟩ := hselect counting
    simp only [countRows, h, handleSupabaseError]
  have hdeposits : (getTotalDeposits b.select).1 =
      .error (err.message.or (.str "An error occurred with the database operation")) := by
    obtain ⟨data, count, h⟩ := hselect
      ⟨"transaction_history", "amount", false, some ("transaction_type", .str "deposit"),
        none, none, none⟩
    simp only [getTotalDeposits, h, handleSupabaseError]
  have hwithdrawals : (fetchWithdrawals b s) =
      { s with error := err.message.or (.str "An error occurred with the database operation"),
               withdrawals := [], isLoading := false } := by
    unfold fetchWithdrawals
    by_cases hf : s.statusFilter = "All"
    · simp only [hf, if_true, getWithdrawalRequests, hlist, htr]
    · simp only [hf, if_false, getWithdrawalRequestsByStatus, hlist, htr, if_true]
  have hfetchUsers : (fetchUsers b.select us) =
      { us with error := err.message.or (.str "An error occurred with the database operation"),
                users := [], loading := false } := by
    unfold fetchUsers
    by_cases hf : us.statusFilter = "All"
    · simp only [hf, if_true, getAllUsers, husers, htr]
    · simp only [hf, if_false, getUsersByStatus, husers, htr, if_true]
  refine ⟨?_, ?_, ?_, ?_, ?_⟩
  · rw [hwithdrawals]
    exact ⟨rfl, rfl, htr⟩
  · rw [hfetchUsers]
    exact ⟨rfl, rfl, htr⟩
  · obtain ⟨data, h⟩ := hstats
    simp only [fetchStats, getWithdrawalStats, h, handleSupabaseError, htr, if_true]
  · simp only [fetchRecentWithdrawals, getRecentWithdrawals, hlist, htr, if_true]
  · rw [fetchDashboardData_eq]
    simp only [hdeposits, getProcessingWithdrawalsCount, getUsersCount, hcount,
      Outcome.isResult, and_self, if_true, initial_cards_updated, dataOrZero,
      totalAmountOrZero, toText, formatCurrency_zero]
    rfl

/-- C21, amended, at a store that answers every request with the error `down`, on a
withdrawals page showing one row and a users page showing one user. -/
theorem read_paths_on_store_error_witness :
    (∀ call : SelectCall, ∃ data count,
      (fun _ => SelectReply.resolved none (some ⟨.str "down"⟩) .null) call =
        .resolved data (some ⟨.str "down"⟩) count) ∧
    (∃ data, (StoreReply.resolved none (some ⟨.str "down"⟩) : StoreReply RawRow) =
      .resolved data (some ⟨.str "down"⟩)) ∧
    (fetchWithdrawals
      ⟨⟨"t0", "t1"⟩, "t", fun _ => "0", fun _ => .resolved none none,
        fun _ => .resolved none (some ⟨.str "down"⟩) .null,
        .resolved none (some ⟨.str "down"⟩)⟩
      ⟨[⟨[("id", .str "w1"), ("status", .str "Pending")], none⟩], false, .null, "All",
        ⟨1, .fin 0, .fin 0⟩⟩).withdrawals = [] ∧
    (fetchWithdrawals
      ⟨⟨"t0", "t1"⟩, "t", fun _ => "0", fun _ => .resolved none none,
        fun _ => .resolved none (some ⟨.str "down"⟩) .null,
        .resolved none (some ⟨.str "down"⟩)⟩
      ⟨[⟨[("id", .str "w1"), ("status", .str "Pending")], none⟩], false, .null, "All",
        ⟨1, .fin 0, .fin 0⟩⟩).error = .str "down" ∧
    (fetchUsers (fun _ => .resolved none (some ⟨.str "down"⟩) .null)
      ⟨[[("id", .str "u1")]], false, "", "active", .null⟩).users = [] ∧
    (fetchUsers (fun _ => .resolved none (some ⟨.str "down"⟩) .null)
      ⟨[[("id", .str "u1")]], false, "", "active", .null⟩).error = .str "down" :=
  have hs : ∀ call : SelectCall, ∃ data count,
      (fun _ => SelectReply.resolved none (some ⟨.str "down"⟩) .null) call =
        .resolved data (some ⟨.str "down"⟩) count := fun _ => ⟨none, .null, rfl⟩
  have hr : ∃ data, (StoreReply.resolved none (some ⟨.str "down"⟩) : StoreReply RawRow) =
      .resolved data (some ⟨.str "down"⟩) := ⟨none, rfl⟩
  have h := read_paths_on_store_error
    ⟨⟨"t0", "t1"⟩, "t", fun _ => "0", fun _ => .resolved none none,
      fun _ => .resolved none (some ⟨.str "down"⟩) .null,
      .resolved none (some ⟨.str "down"⟩)⟩
    (fun _ => "0")
    ⟨[⟨[("id", .str "w1"), ("status", .str "Pending")], none⟩], false, .null, "All",
      ⟨1, .fin 0, .fin 0⟩⟩
    ⟨[[("id", .str "u1")]], false, "", "active", .null⟩ initialDashboard ⟨.str "down"⟩ hs hr
  ⟨hs, hr, h.1.1, h.1.2.1, h.2.1.1, h.2.1.2.1⟩

end McubedAdmin
